import Mathlib

/-!
# Workflow import: topology, permissions, secret variables, as-code update

A verification development for the workflow import path of the CDS API
(`engine/api`).  The sources at hand are the handler tests
(`workflow_import_test.go`, `application/dao_variable_test.go`) and
`workflow_ascode.go`; the import handler, the permission resolver and the
variable DAO themselves are not among them, so each of those is embedded from
the design document and marked `Modelled from the spec:`.  The documents used
by the tests are transcribed one to one.

`postWorkflowAsCodeHandler` and `migrateWorkflowAsCode` are embedded from
`workflow_ascode.go` line by line.  What they call in other packages enters as
a parameter (`api.Collaborators`), the database as a persisted state with a
transaction working on a copy of it, and every call made is recorded in a
trace, the start of the background task and the writing of the response
included.
-/

namespace Cds

/-! ## Data model -/

/-- Modelled from the spec: the parsed declaration of one workflow node (NodeSpec, section 3),
the record the absent import handler decodes from the flat document.  A declaration without a
`pipeline` key (the `join` and `fork` entries of the test documents) carries no reference. -/
structure NodeSpec where
  name : String
  dependsOn : List String
  pipeline : Option String
  parameters : List (String × String)
  payload : List (String × String)
  condition : Option String
  deriving DecidableEq, Repr

/-- Modelled from the spec: the flat input document of section 6 (name, version tag, node map in
declaration order, default tags, optional explicit permission mapping); its decoder is absent. -/
structure Document where
  name : String
  version : String
  workflow : List NodeSpec
  defaultTags : String
  permissions : Option (List (String × Nat))
  deriving DecidableEq, Repr

/-- Modelled from the spec: the three node kinds of section 3 (type declaration absent). -/
inductive NodeKind where
  | Root
  | Linear
  | JoinMember
  deriving DecidableEq, Repr

/-- Modelled from the spec: GraphNode of section 3, with child identities as trigger list. -/
structure GraphNode where
  name : String
  kind : NodeKind
  pipeline : Option String
  parameters : List (String × String)
  payload : List (String × String)
  triggers : List String
  condition : Option String
  deriving DecidableEq, Repr

/-- Modelled from the spec: Join of section 3, a fan-in entity carrying the identity of its
declaring node, the parent list in declaration order, its condition and its trigger list. -/
structure Join where
  name : String
  parents : List String
  condition : Option String
  triggers : List String
  deriving DecidableEq, Repr

/-- Modelled from the spec: PermissionEntry of section 3; the level is the integer written in
the document (`sdk.GroupPermission` is not in the sources). -/
structure PermissionEntry where
  group : String
  permission : Nat
  deriving DecidableEq, Repr

/-- Modelled from the spec: the level constant `sdk.PermissionRead` (value 4). -/
def PermissionRead : Nat := 4

/-- Modelled from the spec: the level constant `sdk.PermissionReadExecute` (value 5). -/
def PermissionReadExecute : Nat := 5

/-- Modelled from the spec: the level constant `sdk.PermissionReadWriteExecute` (value 7). -/
def PermissionReadWriteExecute : Nat := 7

/-- Modelled from the spec: WorkflowGraph of section 3, the persisted aggregate.  It also keeps
the document name, version tag and default tags, which the exporter re-emits verbatim. -/
structure WorkflowGraph where
  name : String
  version : String
  roots : List String
  nodes : List GraphNode
  joins : List Join
  defaultTags : String
  acl : List PermissionEntry
  deriving DecidableEq, Repr

/-- Modelled from the spec: the error taxonomy of section 7 (the error type is absent). -/
inductive ImportError where
  | MalformedInput (node : String)
  | CyclicOrUnreachableGraph
  | PermissionConflict
  | PersistenceConflict
  | InternalError
  deriving DecidableEq, Repr

deriving instance DecidableEq for Except

/-! ## Flat Graph Parser (section 4.1) -/

/-- Modelled from the spec: duplicate-key detection used by the absent parser. -/
def hasDuplicate : List String → Bool
  | [] => false
  | x :: xs => xs.contains x || hasDuplicate xs

/-- Modelled from the spec: the per-declaration checks of the absent parser (section 4.1): the
pipeline reference is known, every predecessor name resolves to a declared node, no parameter
or payload key is duplicated. -/
def checkNode (pipelines names : List String) (n : NodeSpec) : Bool :=
  (match n.pipeline with
    | none => true
    | some p => pipelines.contains p) &&
  n.dependsOn.all (fun p => names.contains p) &&
  !hasDuplicate (n.parameters.map Prod.fst) &&
  !hasDuplicate (n.payload.map Prod.fst)

/-- Modelled from the spec: the group names of the explicit permission mapping, none when the
document has no permissions block. -/
def permissionKeys (doc : Document) : List String :=
  match doc.permissions with
  | none => []
  | some perms => perms.map Prod.fst

/-- Modelled from the spec: the Flat Graph Parser of section 4.1, absent from the sources.  It
yields the declarations in declaration order, or `MalformedInput` naming the offending node; a
node name or a group name written twice is a duplicate key (section 7). -/
def parse (pipelines : List String) (doc : Document) : Except ImportError (List NodeSpec) :=
  let names := doc.workflow.map (fun n => n.name)
  match doc.workflow.find? (fun n => !checkNode pipelines names n) with
  | some n => .error (.MalformedInput n.name)
  | none =>
    if hasDuplicate names || hasDuplicate (permissionKeys doc) then
      .error (.MalformedInput doc.name)
    else .ok doc.workflow

/-! ## Topology Builder (section 4.2) -/

/-- Modelled from the spec: the outgoing trigger list of the entity named `x` (step 2 of the
absent builder): the declarations whose single predecessor is `x`, in declaration order. -/
def childrenOf (specs : List NodeSpec) (x : String) : List String :=
  (specs.filter (fun s => s.dependsOn == [x])).map (fun s => s.name)

/-- Modelled from the spec: steps 1 and 2 of the absent builder: a declaration without
predecessor is a Root, one with exactly one predecessor a Linear GraphNode. -/
def toGraphNode (specs : List NodeSpec) (s : NodeSpec) : Option GraphNode :=
  match s.dependsOn with
  | [] => some
      { name := s.name, kind := .Root, pipeline := s.pipeline, parameters := s.parameters,
        payload := s.payload, triggers := childrenOf specs s.name, condition := s.condition }
  | [_] => some
      { name := s.name, kind := .Linear, pipeline := s.pipeline, parameters := s.parameters,
        payload := s.payload, triggers := childrenOf specs s.name, condition := s.condition }
  | _ :: _ :: _ => none

/-- Modelled from the spec: step 3 of the absent builder: a declaration with two or more
predecessors instantiates a Join under its own identity, with that predecessor list as parent
list and its own condition as gating condition (step 5). -/
def toJoin (specs : List NodeSpec) (s : NodeSpec) : Option Join :=
  match s.dependsOn with
  | p :: q :: rest => some
      { name := s.name, parents := p :: q :: rest, condition := s.condition,
        triggers := childrenOf specs s.name }
  | _ => none

/-- Modelled from the spec: classification of all declarations (steps 1 to 3 and 5 of the
absent builder) into the graph, before the reachability check and before the ACL is attached. -/
def assemble (doc : Document) (specs : List NodeSpec) : WorkflowGraph :=
  { name := doc.name
    version := doc.version
    roots := (specs.filter (fun s => s.dependsOn.isEmpty)).map (fun s => s.name)
    nodes := specs.filterMap (toGraphNode specs)
    joins := specs.filterMap (toJoin specs)
    defaultTags := doc.defaultTags
    acl := [] }

/-- Modelled from the spec: every identity of the graph, GraphNodes first, then Joins. -/
def entityNames (g : WorkflowGraph) : List String :=
  g.nodes.map (fun n => n.name) ++ g.joins.map (fun j => j.name)

/-- Modelled from the spec: `x` is one edge away from the set `seen`, following a trigger edge
of a GraphNode or of a Join, or a Join-parent edge (step 4 of the absent builder). -/
def reachedFrom (g : WorkflowGraph) (seen : List String) (x : String) : Bool :=
  g.nodes.any (fun n => seen.contains n.name && n.triggers.contains x) ||
  g.joins.any (fun j => seen.contains j.name && j.triggers.contains x) ||
  g.joins.any (fun j => j.name == x && j.parents.any (fun p => seen.contains p))

/-- Modelled from the spec: the identities reachable from the roots in at most `fuel` edges. -/
def reachable (g : WorkflowGraph) : Nat → List String
  | 0 => g.roots
  | fuel + 1 =>
    let seen := reachable g fuel
    (entityNames g).filter (fun x => seen.contains x || reachedFrom g seen x)

/-- Modelled from the spec: the check of step 4: every GraphNode and Join is reachable from
some Root.  As many rounds as there are identities exhaust every simple path. -/
def allReachable (g : WorkflowGraph) : Bool :=
  let seen := reachable g (entityNames g).length
  (entityNames g).all (fun x => seen.contains x)

/-- Modelled from the spec: the Topology Builder of section 4.2, absent from the sources:
classification followed by the reachability check, which is fatal to the import. -/
def build (doc : Document) (specs : List NodeSpec) : Except ImportError WorkflowGraph :=
  let g := assemble doc specs
  if allReachable g then .ok g else .error .CyclicOrUnreachableGraph

/-- Modelled from the spec: Parser then Topology Builder, the graph held in memory by the
absent import handler before the ACL is attached. -/
def buildGraph (pipelines : List String) (doc : Document) : Except ImportError WorkflowGraph :=
  match parse pipelines doc with
  | .error e => .error e
  | .ok specs => build doc specs

/-! ## Documents of `workflow_import_test.go` -/

/-- A declaration with a pipeline and nothing else but its predecessors. -/
def pipNode (name : String) (dependsOn : List String) : NodeSpec :=
  { name := name, dependsOn := dependsOn, pipeline := some "pip1", parameters := [],
    payload := [], condition := none }

/-- The `root` declaration shared by the join tests: pipeline `pip1`, payload `git.branch`. -/
def rootNode : NodeSpec :=
  { name := "root", dependsOn := [], pipeline := some "pip1", parameters := [],
    payload := [("git.branch", "master")], condition := none }

/-- The four `build_*` declarations shared by the join tests, each depending on `root`. -/
def buildNodes : List NodeSpec :=
  [ pipNode "build_admin-panel-api" ["root"],
    pipNode "build_admin-panel-ui" ["root"],
    pipNode "build_cache-manager" ["root"],
    pipNode "build_health-checker" ["root"] ]

/-- The names of the four `build_*` declarations, in declaration order. -/
def buildNames : List String :=
  ["build_admin-panel-api", "build_admin-panel-ui", "build_cache-manager",
   "build_health-checker"]

/-- The names of the four `deploy_*_dev` declarations, in declaration order. -/
def devNames : List String :=
  ["deploy_admin-panel-api_dev", "deploy_admin-panel-ui_dev", "deploy_cache-manager_dev",
   "deploy_health-checker_dev"]

/-- The long condition script of the join tests (a folded YAML scalar). -/
def longCondition : String :=
  "return cds_status == \"Success\" and cds_manual == \"true\" -- and (cds_manual == \"true\" or git_branch == \"master\" or git_branch:find(\"^release/\") ~= nil)"

/-- The short condition script of the join tests. -/
def shortCondition : String :=
  "return cds_status == \"Success\" and cds_manual == \"true\""

/-- A declaration without pipeline: predecessors and a condition script
(the `join`, `join_2` and `fork` entries). -/
def condNode (name : String) (dependsOn : List String) (script : String) : NodeSpec :=
  { name := name, dependsOn := dependsOn, pipeline := none, parameters := [],
    payload := [], condition := some script }

/-- The body of `Test_putWorkflowImportHandlerMustNotHave2Joins` (lines 833 to 904). -/
def docMustNotHave2Joins : Document :=
  { name := "test_1"
    version := "v1.0"
    workflow := buildNodes ++
      [ pipNode "deploy_admin-panel-api_dev" ["join"],
        pipNode "deploy_admin-panel-api_prod" ["fork"],
        pipNode "deploy_admin-panel-ui_dev" ["join"],
        pipNode "deploy_admin-panel-ui_prod" ["fork"],
        pipNode "deploy_cache-manager_dev" ["join"],
        pipNode "deploy_cache-manager_prod" ["fork"],
        pipNode "deploy_health-checker_dev" ["join"],
        pipNode "deploy_health-checker_prod" ["fork"],
        condNode "join" buildNames longCondition,
        condNode "fork" ["deploy_admin-panel-api_dev"] shortCondition,
        rootNode ]
    defaultTags := "git.branch,git.tag"
    permissions := none }


/-- The body of `Test_putWorkflowImportHandlerWithJoinAndCondition` (lines 269 to 342). -/
def docJoinAndCondition : Document :=
  { name := "test_1"
    version := "v1.0"
    workflow := buildNodes ++
      [ pipNode "deploy_admin-panel-api_dev" ["join"],
        pipNode "deploy_admin-panel-api_prod" ["join_2"],
        pipNode "deploy_admin-panel-ui_dev" ["join"],
        pipNode "deploy_admin-panel-ui_prod" ["join_2"],
        pipNode "deploy_cache-manager_dev" ["join"],
        pipNode "deploy_cache-manager_prod" ["join_2"],
        pipNode "deploy_health-checker_dev" ["join"],
        pipNode "deploy_health-checker_prod" ["join_2"],
        condNode "join" buildNames longCondition,
        condNode "join_2" devNames shortCondition,
        rootNode ]
    defaultTags := "git.branch,git.tag"
    permissions := none }

/-- The body of `Test_putWorkflowImportHandlerWithJoinWithOrWithoutCondition`
(lines 395 to 474). -/
def docJoinWithOrWithoutCondition : Document :=
  { name := "test_1"
    version := "v1.0"
    workflow := buildNodes ++
      [ pipNode "deploy_admin-panel-api_dev" buildNames,
        pipNode "deploy_admin-panel-api_prod" ["join_2"],
        pipNode "deploy_admin-panel-ui_dev" buildNames,
        pipNode "deploy_admin-panel-ui_prod" ["join_2"],
        pipNode "deploy_cache-manager_dev" buildNames,
        pipNode "deploy_cache-manager_prod" ["join_2"],
        pipNode "deploy_health-checker_dev" buildNames,
        { pipNode "deploy_health-checker_prod" ["join_2"] with condition := some longCondition },
        condNode "join_2" devNames shortCondition,
        rootNode ]
    defaultTags := "git.branch,git.tag"
    permissions := none }

/-- The body of `Test_putWorkflowImportHandlerWithJoinWithoutCondition` (lines 527 to 612).
The entry `deploy_health-checker_prod` writes the key `conditions` twice; the later script is
the one kept here. -/
def docJoinWithoutCondition : Document :=
  { name := "test_1"
    version := "v1.0"
    workflow := buildNodes ++
      [ pipNode "deploy_admin-panel-api_dev" buildNames,
        pipNode "deploy_admin-panel-api_prod" devNames,
        pipNode "deploy_admin-panel-ui_dev" buildNames,
        pipNode "deploy_admin-panel-ui_prod" devNames,
        pipNode "deploy_cache-manager_dev" buildNames,
        pipNode "deploy_cache-manager_prod" devNames,
        pipNode "deploy_health-checker_dev" buildNames,
        { pipNode "deploy_health-checker_prod" devNames with condition := some shortCondition },
        rootNode ]
    defaultTags := "git.branch,git.tag"
    permissions := none }

/-- The declaration `pip1` of `Test_postWorkflowImportHandler`, with its parameter. -/
def pip1Node : NodeSpec :=
  { name := "pip1", dependsOn := [], pipeline := some "pip1",
    parameters := [("name", "value")], payload := [], condition := none }

/-- The body of `Test_postWorkflowImportHandler` (lines 49 to 61). -/
def docPostImport : Document :=
  { name := "test_1"
    version := "v1.0"
    workflow := [pip1Node, pipNode "pip1_2" ["pip1"]]
    defaultTags := "git.branch,git.author,git.hash"
    permissions := none }

/-- The workflow of `Test_getWorkflowPushHandler` (lines 716 to 741) in flat form: node `root`
triggering node `child`, both on pipeline `pip1`. -/
def docRootChild : Document :=
  { name := "test_1"
    version := "v2.0"
    workflow := [pipNode "root" [], pipNode "child" ["root"]]
    defaultTags := ""
    permissions := none }

/-! ## Well-formed input -/

/-- Modelled from the spec: a well-formed flat input: the Parser accepts it (no
`MalformedInput`) and its graph satisfies the reachability invariant of section 3 (no
`CyclicOrUnreachableGraph`). -/
def wellFormed (pipelines : List String) (doc : Document) : Bool :=
  match parse pipelines doc with
  | .error _ => false
  | .ok specs => allReachable (assemble doc specs)

/-! ## Canonical Exporter (section 4.4) -/

/-- Modelled from the spec: the single predecessor of the GraphNode named `x`, recovered from
the trigger lists of the graph: the GraphNode, else the Join, that triggers `x`. -/
def predecessorOf (g : WorkflowGraph) (x : String) : Option String :=
  match g.nodes.find? (fun n => n.triggers.contains x) with
  | some n => some n.name
  | none =>
    match g.joins.find? (fun j => j.triggers.contains x) with
    | some j => some j.name
    | none => none

/-- Modelled from the spec: the declaration re-emitted for a GraphNode (absent exporter): no
predecessor for a Root, its single predecessor otherwise; pipeline, parameters, payload and
condition verbatim.  A non-root node that nothing triggers is an internal error. -/
def exportNode (g : WorkflowGraph) (n : GraphNode) : Except ImportError NodeSpec :=
  match n.kind with
  | .Root => .ok
      { name := n.name, dependsOn := [], pipeline := n.pipeline, parameters := n.parameters,
        payload := n.payload, condition := n.condition }
  | _ =>
    match predecessorOf g n.name with
    | some p => .ok
        { name := n.name, dependsOn := [p], pipeline := n.pipeline, parameters := n.parameters,
          payload := n.payload, condition := n.condition }
    | none => .error .InternalError

/-- Modelled from the spec: the synthetic declaration re-emitted for a Join (absent exporter):
its declaring identity, its parent list in original order and its condition. -/
def exportJoin (j : Join) : NodeSpec :=
  { name := j.name, dependsOn := j.parents, pipeline := none, parameters := [], payload := [],
    condition := j.condition }

/-- Modelled from the spec: the declarations of all GraphNodes, in graph order. -/
def exportNodes (g : WorkflowGraph) : List GraphNode → Except ImportError (List NodeSpec)
  | [] => .ok []
  | n :: ns =>
    match exportNode g n with
    | .error e => .error e
    | .ok s =>
      match exportNodes g ns with
      | .error e => .error e
      | .ok ss => .ok (s :: ss)

/-- Modelled from the spec: the Canonical Exporter of section 4.4, absent from the sources: the
flat document of a graph, GraphNodes first, then one synthetic declaration per Join, with the
metadata verbatim and no permissions block. -/
def exportGraph (g : WorkflowGraph) : Except ImportError Document :=
  match exportNodes g g.nodes with
  | .error e => .error e
  | .ok ns => .ok
      { name := g.name, version := g.version, workflow := ns ++ g.joins.map exportJoin,
        defaultTags := g.defaultTags, permissions := none }

/-- The declaring node of a Join as the exporter re-emits it: a Join carries no pipeline,
parameters or payload. -/
def strip (s : NodeSpec) : NodeSpec :=
  { s with pipeline := none, parameters := [], payload := [] }

/-- The declarations the exporter emits for the graph of `specs`, in closed form: the
declarations with at most one predecessor, then the stripped declarations of the Joins. -/
def exported (specs : List NodeSpec) : List NodeSpec :=
  specs.filter (fun s => decide (s.dependsOn.length ≤ 1)) ++
    (specs.filter (fun s => decide (1 < s.dependsOn.length))).map strip

/-! ## Permission Resolver (section 4.3) and the import -/

/-- Modelled from the spec: the Permission Resolver of section 4.3, absent from the sources.
Without an explicit list the final ACL is the project default list; with one it is exactly that
list, levels verbatim.  An explicit list naming an unknown group, or granting no group any
access, is a `PermissionConflict` (section 7).  The previously stored list is an input of the
contract and takes no part in the result. -/
def resolvePermissions (knownGroups : List String) (defaults : List PermissionEntry)
    (explicit : Option (List (String × Nat))) (_previous : List PermissionEntry) :
    Except ImportError (List PermissionEntry) :=
  match explicit with
  | none => .ok defaults
  | some perms =>
    if perms.any (fun e => !knownGroups.contains e.1) then .error .PermissionConflict
    else if perms.all (fun e => e.2 == 0) then .error .PermissionConflict
    else .ok (perms.map (fun e => { group := e.1, permission := e.2 }))

/-- Modelled from the spec: what the import reads of a project: its known pipelines and its
default group permission list (`proj.ProjectGroups`). -/
structure Project where
  key : String
  pipelines : List String
  groups : List PermissionEntry
  deriving DecidableEq, Repr

/-- Modelled from the spec: the persistence collaborator of section 6: the groups that exist
and the stored graphs with their ACL, one per workflow name. -/
structure Store where
  groups : List String
  workflows : List WorkflowGraph
  deriving DecidableEq, Repr

/-- Modelled from the spec: `loadGraph` of section 6. -/
def loadGraph (st : Store) (name : String) : Option WorkflowGraph :=
  st.workflows.find? (fun w => w.name == name)

/-- Modelled from the spec: `replaceGraph` of section 6: the stored graph of that name and its
ACL are replaced wholesale. -/
def replaceGraph (st : Store) (g : WorkflowGraph) : Store :=
  { st with workflows := g :: st.workflows.filter (fun w => !(w.name == g.name)) }

/-- Modelled from the spec: the import handler, absent from the sources (section 2 control
flow): Parser, Topology Builder, Permission Resolver, then replacement of the stored graph and
ACL; any error aborts before persistence. -/
def importWorkflow (proj : Project) (st : Store) (doc : Document) : Except ImportError Store :=
  match buildGraph proj.pipelines doc with
  | .error e => .error e
  | .ok g =>
    let previous := match loadGraph st doc.name with
      | some w => w.acl
      | none => []
    match resolvePermissions st.groups proj.groups doc.permissions previous with
    | .error e => .error e
    | .ok acl => .ok (replaceGraph st { g with acl := acl })

/-- The project of `Test_postWorkflowImportHandler_editPermissions`: its own group at
ReadWriteExecute, groups `g1` and `g2` linked at ReadExecute. -/
def permProject : Project :=
  { key := "key"
    pipelines := ["pip1"]
    groups := [ { group := "a-owner", permission := PermissionReadWriteExecute },
                { group := "b-g1", permission := PermissionReadExecute },
                { group := "c-g2", permission := PermissionReadExecute } ] }

/-- The store before the first import of the permission test: three groups, no workflow. -/
def permStore : Store :=
  { groups := ["a-owner", "b-g1", "c-g2"], workflows := [] }

/-- The body without permissions block of the permission test (lines 954 to 958, and again
lines 1029 to 1033). -/
def docNoPermissions : Document :=
  { name := "test_1"
    version := "v2.0"
    workflow := [pipNode "pip1" []]
    defaultTags := ""
    permissions := none }

/-- The body with the explicit permissions block of the permission test (lines 992 to 999). -/
def docExplicitPermissions : Document :=
  { docNoPermissions with permissions := some [("a-owner", 7), ("c-g2", 4)] }

/-- The store of the permission test after its first import (no permissions block). -/
def permStoreInherited : Store :=
  replaceGraph permStore
    { assemble docNoPermissions docNoPermissions.workflow with acl := permProject.groups }

/-- The store of the permission test after its second import (explicit permissions). -/
def permStoreExplicit : Store :=
  replaceGraph permStoreInherited
    { assemble docExplicitPermissions docExplicitPermissions.workflow with
      acl := [ { group := "a-owner", permission := PermissionReadWriteExecute },
               { group := "c-g2", permission := PermissionRead } ] }

/-! ## Secret-aware application variables (section 4.5) -/

/-- Modelled from the spec: `sdk.Variable` as the test builds and reads it (ID, Name, Type,
Value); the type declaration is not in the sources. -/
structure Variable where
  id : Nat
  name : String
  type : String
  value : String
  deriving DecidableEq, Repr

/-- Modelled from the spec: the type tag `sdk.SecretVariable` of a secret-typed variable. -/
def SecretVariable : String := "password"

/-- Modelled from the spec: the type tag `sdk.TextVariable` of a clear variable. -/
def TextVariable : String := "text"

/-- Modelled from the spec: `sdk.PasswordPlaceholder`, the fixed placeholder token returned
in place of a secret value (glossary); nothing below depends on its text. -/
def PasswordPlaceholder : String := "**********"

/-- Modelled from the spec: the cryptographic primitives, an external collaborator
(section 1); they enter as a parameter. -/
structure Cipher where
  encrypt : String → String
  decrypt : String → String

/-- Modelled from the spec: one stored row of an application variable.  `stored` is the
encryption of the value for a secret-typed variable (no clear secret is stored, section 4.5)
and the value itself otherwise. -/
structure StoredVariable where
  id : Nat
  applicationID : Nat
  name : String
  type : String
  stored : String
  deriving DecidableEq, Repr

/-- Modelled from the spec: the variable table behind the absent `application` DAO, with the
next free row ID. -/
structure VariableDB where
  nextID : Nat
  rows : List StoredVariable
  deriving DecidableEq, Repr

namespace application

/-- Modelled from the spec: what is stored for a value of the given type. -/
def toStored (c : Cipher) (type value : String) : String :=
  if type == SecretVariable then c.encrypt value else value

/-- Modelled from the spec: the row written for the variable `v` of application `appID`
under the row ID `id`. -/
def rowOf (c : Cipher) (id appID : Nat) (v : Variable) : StoredVariable :=
  { id := id, applicationID := appID, name := v.name, type := v.type,
    stored := toStored c v.type v.value }

/-- Modelled from the spec: the masked form of a row (`getMasked`, section 6): the
placeholder for a secret-typed variable, the stored value otherwise. -/
def masked (r : StoredVariable) : Variable :=
  { id := r.id, name := r.name, type := r.type,
    value := if r.type == SecretVariable then PasswordPlaceholder else r.stored }

/-- Modelled from the spec: the clear form of a row (`getDecrypted`, section 6), handed out
only on an explicit request with decryption.  The DAO calls of the test pass no caller
identity; the identity check of the Gateway stands in front of the DAO. -/
def decrypted (c : Cipher) (r : StoredVariable) : Variable :=
  { id := r.id, name := r.name, type := r.type,
    value := if r.type == SecretVariable then c.decrypt r.stored else r.stored }

/-- Modelled from the spec: `application.InsertVariable`, absent from the sources: the row
is appended under a fresh ID, a secret value encrypted, and the in-memory variable comes back
with its ID and with the placeholder in place of a secret value. -/
def InsertVariable (c : Cipher) (db : VariableDB) (appID : Nat) (v : Variable) :
    VariableDB × Variable :=
  let row := rowOf c db.nextID appID v
  ({ nextID := db.nextID + 1, rows := db.rows ++ [row] }, masked row)

/-- The variable `v` as it reads once the row ID `id` is assigned to it. -/
def withID (v : Variable) (id : Nat) : Variable :=
  { id := id, name := v.name, type := v.type, value := v.value }

/-- Modelled from the spec: `application.LoadVariables`, absent from the sources: the
variables of the application in masked form. -/
def LoadVariables (db : VariableDB) (appID : Nat) : List Variable :=
  (db.rows.filter (fun r => r.applicationID == appID)).map masked

/-- Modelled from the spec: `application.LoadVariablesWithDecrytion`, absent from the
sources: the variables of the application in clear form. -/
def LoadVariablesWithDecrytion (c : Cipher) (db : VariableDB) (appID : Nat) : List Variable :=
  (db.rows.filter (fun r => r.applicationID == appID)).map (decrypted c)

/-- Modelled from the spec: `application.LoadVariable`, absent from the sources: the
variable of that name in masked form, none when there is no such row. -/
def LoadVariable (db : VariableDB) (appID : Nat) (name : String) : Option Variable :=
  (db.rows.find? (fun r => r.applicationID == appID && r.name == name)).map masked

/-- Modelled from the spec: `application.LoadVariableWithDecryption`, absent from the
sources: the variable of that ID and name in clear form. -/
def LoadVariableWithDecryption (c : Cipher) (db : VariableDB) (appID varID : Nat)
    (name : String) : Option Variable :=
  (db.rows.find?
    (fun r => r.applicationID == appID && r.id == varID && r.name == name)).map (decrypted c)

/-- Modelled from the spec: `application.UpdateVariable`, absent from the sources: the row
of the new variable's ID is rewritten from the new variable, a secret value encrypted again;
the old variable is kept for the audit only.  The in-memory variable comes back masked. -/
def UpdateVariable (c : Cipher) (db : VariableDB) (appID : Nat) (newVar _oldVar : Variable) :
    VariableDB × Variable :=
  let row := rowOf c newVar.id appID newVar
  let rows := db.rows.map
    (fun r => if r.applicationID == appID && r.id == newVar.id then row else r)
  ({ nextID := db.nextID, rows := rows }, masked row)

end application

/-- A reversible stand-in for the cipher: the characters in reverse order. -/
def reverseCipher : Cipher :=
  { encrypt := fun s => String.mk s.data.reverse
    decrypt := fun s => String.mk s.data.reverse }

/-- The empty variable table of `Test_DAOVariable`. -/
def emptyDB : VariableDB := { nextID := 1, rows := [] }

/-- The variable `clear` of `Test_DAOVariable` (line 28). -/
def clearVar : Variable :=
  { id := 0, name := "clear", type := TextVariable, value := "clear_value" }

/-- The variable `secret` of `Test_DAOVariable` (line 29). -/
def secretVar : Variable :=
  { id := 0, name := "secret", type := SecretVariable, value := "secret_value" }

/-- The variable table of `Test_DAOVariable` after `clear` was inserted for application 1. -/
def dbWithClear : VariableDB :=
  (application.InsertVariable reverseCipher emptyDB 1 clearVar).1

/-- The variable table of `Test_DAOVariable` after both insertions. -/
def dbWithBoth : VariableDB :=
  (application.InsertVariable reverseCipher dbWithClear 1 secretVar).1

/-! ## As-code update and migration (`workflow_ascode.go`) -/

namespace sdk

/-- Modelled from the spec: the error bases of the sdk that `workflow_ascode.go` names (their
declarations are not in the sources); `Other` stands for whatever a collaborator returns. -/
inductive ErrorBase where
  | ErrWrongRequest
  | ErrForbidden
  | ErrRepoNotFound
  | ErrWorkflowAlreadyAsCode
  | Other (code : Nat)
  deriving DecidableEq, Repr

/-- Modelled from the spec: `sdk.Error` (declaration not in the sources): an error base and the
text given to `NewErrorFrom`. -/
structure Error where
  base : ErrorBase
  message : String
  deriving DecidableEq, Repr

/-- Modelled from the spec: `sdk.NewErrorFrom` (not in the sources): the base with a text. -/
def NewErrorFrom (base : ErrorBase) (message : String) : Error :=
  { base := base, message := message }

/-- Modelled from the spec: `sdk.WithStack` (not in the sources): the same error; the stack it
records is not modelled. -/
def WithStack (err : Error) : Error := err

/-- Modelled from the spec: the error value `sdk.ErrWorkflowAlreadyAsCode` (not in the
sources). -/
def ErrWorkflowAlreadyAsCode : Error :=
  { base := .ErrWorkflowAlreadyAsCode, message := "" }

/-- Modelled from the spec: `sdk.WorkflowNodeHookConfig` (not in the sources), a key-value
configuration. -/
abbrev WorkflowNodeHookConfig := List (String × String)

/-- Modelled from the spec: `WorkflowNodeHookConfig.Clone` (not in the sources): a copy, equal
to the original as a value. -/
def WorkflowNodeHookConfig.Clone (c : WorkflowNodeHookConfig) : WorkflowNodeHookConfig := c

/-- Modelled from the spec: `sdk.NodeHook` (not in the sources), with the two fields the
migration writes and reads. -/
structure NodeHook where
  Config : WorkflowNodeHookConfig
  HookModelName : String
  deriving DecidableEq, Repr

/-- Modelled from the spec: `sdk.WorkflowHookModel` (not in the sources), with the two fields
the migration reads. -/
structure WorkflowHookModel where
  Name : String
  DefaultConfig : WorkflowNodeHookConfig
  deriving DecidableEq, Repr

/-- Modelled from the spec: the two package-level values of the sdk that the migration reads,
`sdk.RepositoryWebHookModelName` and `sdk.RepositoryWebHookModel`; neither is in the sources,
so they enter as parameters. -/
structure HookConstants where
  RepositoryWebHookModelName : String
  RepositoryWebHookModel : WorkflowHookModel
  deriving DecidableEq, Repr

/-- Modelled from the spec: `sdk.NodeContext` (not in the sources) as the tests build it. -/
structure NodeContext where
  ApplicationID : Int
  PipelineID : Int
  deriving DecidableEq, Repr

/-- Modelled from the spec: `sdk.Node` (not in the sources) as the tests build it: name,
optional context, hooks, and the child nodes of its triggers. -/
inductive Node where
  | mk (Name : String) (Context : Option NodeContext) (Hooks : List NodeHook)
      (Triggers : List Node)

/-- The field `Context` of a node. -/
def Node.Context : Node → Option NodeContext
  | .mk _ c _ _ => c

/-- The field `Hooks` of a node. -/
def Node.Hooks : Node → List NodeHook
  | .mk _ _ h _ => h

/-- The node with `h` appended to its hooks: `n.Hooks = append(n.Hooks, h)`. -/
def Node.appendHook : Node → NodeHook → Node
  | .mk name c hooks triggers, h => .mk name c (hooks ++ [h]) triggers

mutual
/-- The hooks of a node and of every node below it. -/
def Node.allHooks : Node → List NodeHook
  | .mk _ _ hooks triggers => hooks ++ allHooksOf triggers
/-- The hooks of a list of nodes and of every node below them. -/
def allHooksOf : List Node → List NodeHook
  | [] => []
  | n :: ns => n.allHooks ++ allHooksOf ns
end

/-- Modelled from the spec: `sdk.WorkflowData` (not in the sources) as the tests build and
read it: the root node and the joins. -/
structure WorkflowData where
  Joins : List Node
  Node : Node

/-- Modelled from the spec: `WorkflowData.GetHooks` (not in the sources): the hooks of every
node of the workflow, those of the root node first, then its descendants, then the joins and
theirs. -/
def WorkflowData.GetHooks (w : WorkflowData) : List NodeHook :=
  w.Node.allHooks ++ allHooksOf w.Joins

/-- Modelled from the spec: an entry of `Workflow.AsCodeEvent` (not in the sources). -/
structure AsCodeEvent where
  ID : Int
  deriving DecidableEq, Repr

/-- Modelled from the spec: `sdk.WorkflowTemplateInstance` (not in the sources). -/
structure WorkflowTemplateInstance where
  ID : Int
  deriving DecidableEq, Repr

/-- Modelled from the spec: `sdk.Workflow` (not in the sources), with the fields
`workflow_ascode.go` reads or writes. -/
structure Workflow where
  ID : Int
  Name : String
  FromRepository : String
  AsCodeEvent : List AsCodeEvent
  TemplateInstance : Option WorkflowTemplateInstance
  WorkflowData : WorkflowData

/-- Modelled from the spec: `sdk.Project` (not in the sources), with the two fields read. -/
structure Project where
  ID : Int
  Key : String
  deriving DecidableEq, Repr

/-- Modelled from the spec: `sdk.ProjectIdentifiers` (not in the sources). -/
structure ProjectIdentifiers where
  ID : Int
  Key : String
  deriving DecidableEq, Repr

/-- Modelled from the spec: `sdk.Application` (not in the sources), with the three fields read;
the repository strategy is kept as opaque text. -/
structure Application where
  VCSServer : String
  RepositoryFullname : String
  RepositoryStrategy : String
  deriving DecidableEq, Repr

/-- Modelled from the spec: `sdk.Operation` (not in the sources): the three fields the code
names, and `Rest` for all the others together, empty when each of them is zero. -/
structure Operation where
  UUID : String
  URL : String
  Status : Int
  Rest : String
  deriving DecidableEq, Repr

end sdk

namespace ascode

/-- Modelled from the spec: the constant `ascode.WorkflowEvent` (not in the sources); nothing
depends on its text. -/
def WorkflowEvent : String := "workflow"

/-- Modelled from the spec: `ascode.EntityData` (not in the sources), with the five fields the
handler fills; `Type_` is its field `Type`. -/
structure EntityData where
  Name : String
  ID : Int
  Type_ : String
  FromRepo : String
  OperationUUID : String
  deriving DecidableEq, Repr

end ascode

namespace workflow

/-- Modelled from the spec: `workflow.LoadOptions` (not in the sources), with the three options
the handler sets. -/
structure LoadOptions where
  DeepPipeline : Bool
  WithAsCodeUpdateEvent : Bool
  WithTemplate : Bool
  deriving DecidableEq, Repr

end workflow

namespace api

/-- What the handler reads of the request: the route variables `key` and `permWorkflowName`,
the form values `migrate`, `branch` and `message`, the body, and the API consumer of the
context. -/
structure Request where
  key : String
  workflowName : String
  migrate : Bool
  branch : String
  message : String
  body : String
  consumer : String
  deriving DecidableEq, Repr

/-- What `service.WriteJSON` writes: a status code and the operation as body. -/
structure Response where
  status : Nat
  body : sdk.Operation
  deriving DecidableEq, Repr

/-- One call to a collaborator, in the order the handler makes them, with its outcome where it
can fail.  `GoRoutine` is the start of the background task, recorded with its name and the
entity data its closure builds; `Rollback` is the deferred `tx.Rollback()`; `WriteJSON` is the
call to `service.WriteJSON` with the operation and the status it is given. -/
inductive Call where
  | projectLoad (key : String) (ok : Bool)
  | workflowLoad (name : String) (opts : workflow.LoadOptions) (ok : Bool)
  | LoadByIDWithClearVCSStrategyPassword (id : Int) (ok : Bool)
  | UnmarshalBody (ok : Bool)
  | RenameNode (ok : Bool)
  | CheckValidity (ok : Bool)
  | CompleteWorkflow (ok : Bool)
  | NewWorkflow (ok : Bool)
  | Begin (ok : Bool)
  | Update (ok : Bool)
  | Pull (ok : Bool)
  | PushOperation (ope : Option sdk.Operation)
  | PushOperationUpdate (ope : Option sdk.Operation)
  | Commit (ok : Bool)
  | Rollback
  | GoRoutine (name : String) (ed : ascode.EntityData)
  | WriteJSON (ope : sdk.Operation) (status : Nat) (ok : Bool)
  deriving DecidableEq, Repr

/-- The collaborators of `workflow_ascode.go`, none of which is in the sources; they enter as
parameters.  `σ` is the state of the database, `δ` the exported workflow components.  The
loaders and validators read the database; the calls that take the transaction get its working
state and give back the new one; `Begin` and `Commit` say whether they succeed, and
`service.WriteJSON`, given the operation and the status, whether the response could be
written.  What the background task does, `UpdateAsCodeResult`, is a collaborator as well.
Effects outside the database (cache, remote services) are not modelled. -/
structure Collaborators (σ δ : Type) where
  projectLoad : σ → String → Except sdk.Error sdk.Project
  workflowLoad : σ → sdk.ProjectIdentifiers → String → workflow.LoadOptions →
    Except sdk.Error sdk.Workflow
  LoadByIDWithClearVCSStrategyPassword : σ → Int → Except sdk.Error (Option sdk.Application)
  UnmarshalBody : String → Except sdk.Error sdk.Workflow
  RenameNode : σ → sdk.Workflow → Except sdk.Error sdk.Workflow
  CheckValidity : σ → sdk.Workflow → Except sdk.Error sdk.Workflow
  CompleteWorkflow : σ → sdk.Workflow → sdk.ProjectIdentifiers → workflow.LoadOptions →
    Except sdk.Error sdk.Workflow
  NewWorkflow : sdk.Workflow → Except sdk.Error δ
  Begin : σ → Except sdk.Error Unit
  Update : σ → sdk.ProjectIdentifiers → sdk.Workflow → Except sdk.Error (σ × sdk.Workflow)
  Pull : σ → sdk.ProjectIdentifiers → String → Except sdk.Error (σ × δ)
  PushOperation : σ → sdk.Project → δ → String → String → String → String → String → String →
    Except sdk.Error (σ × sdk.Operation)
  PushOperationUpdate : σ → sdk.Project → δ → String → String → String → String → String →
    String → Except sdk.Error (σ × sdk.Operation)
  Commit : σ → Except sdk.Error Unit
  UpdateAsCodeResult : σ → sdk.ProjectIdentifiers → sdk.Workflow → sdk.Application →
    ascode.EntityData → σ
  WriteJSON : sdk.Operation → Nat → Except sdk.Error Unit

/-- Modelled from the spec: the transaction `api.mustDB().Begin()` gives (`database/sql`, not
in the sources), over a database state `σ`: the state persisted outside the transaction, the
working state that the calls given `tx` read and write, and whether the transaction is over.
Nothing is persisted before `Commit` succeeds (the spec: no partial graph is ever
persisted). -/
structure Transaction (σ : Type) where
  persisted : σ
  working : σ
  done : Bool
  deriving DecidableEq

/-- The transaction `Begin` opens on the database `db`. -/
def Transaction.Begin {σ : Type} (db : σ) : Transaction σ :=
  { persisted := db, working := db, done := false }

/-- The transaction after a call that was given `tx` left the working state `s`. -/
def Transaction.Exec {σ : Type} (tx : Transaction σ) (s : σ) : Transaction σ :=
  { tx with working := s }

/-- The transaction after `tx.Commit()`: when it succeeds the working state is persisted, when
it fails the working state is dropped; either way the transaction is over.  On a transaction
that is over nothing happens. -/
def Transaction.Commit {σ : Type} (tx : Transaction σ) (ok : Bool) : Transaction σ :=
  if tx.done then tx
  else if ok then { persisted := tx.working, working := tx.working, done := true }
  else { persisted := tx.persisted, working := tx.persisted, done := true }

/-- The transaction after `tx.Rollback()`: the working state is dropped and the transaction
is over.  On a transaction that is over nothing happens. -/
def Transaction.Rollback {σ : Type} (tx : Transaction σ) : Transaction σ :=
  if tx.done then tx
  else { persisted := tx.persisted, working := tx.persisted, done := true }

/-- What one execution leaves behind: the returned error, or the response written when nil
is returned; the persisted state of the database; and the calls made. -/
structure Outcome (σ : Type) where
  result : Except sdk.Error Response
  db : σ
  trace : List Call
  deriving DecidableEq

/-- The response both paths write: `sdk.Operation{UUID: ope.UUID, Status: ope.Status}` with
`http.StatusOK` (lines 131 to 134 and 198 to 201). -/
def operationResponse (ope : sdk.Operation) : Response :=
  { status := 200, body := { UUID := ope.UUID, URL := "", Status := ope.Status, Rest := "" } }

/-- The guard of `migrateWorkflowAsCode` (line 143), as written. -/
def alreadyAsCode (wf : sdk.Workflow) : Bool :=
  wf.FromRepository != "" ||
    (wf.FromRepository == "" && decide (wf.AsCodeEvent.length > 0))

/-- The guard as the claim restates it: the workflow comes from a repository or has an
as-code event. -/
def alreadyAsCodeSimplified (wf : sdk.Workflow) : Bool :=
  wf.FromRepository != "" || decide (wf.AsCodeEvent.length > 0)

/-- Whether a hook has the repository web hook model name (the test of line 155). -/
def isRepositoryWebHook (c : sdk.HookConstants) (h : sdk.NodeHook) : Bool :=
  h.HookModelName == c.RepositoryWebHookModelName

/-- The search loop of `migrateWorkflowAsCode` (lines 153 to 159): whether some hook of the
workflow has the repository web hook model name. -/
def foundRepositoryWebHook (c : sdk.HookConstants) (wf : sdk.Workflow) : Bool :=
  wf.WorkflowData.GetHooks.any (isRepositoryWebHook c)

/-- The hook built when none is found (lines 161 to 164). -/
def repositoryWebHook (c : sdk.HookConstants) : sdk.NodeHook :=
  { Config := c.RepositoryWebHookModel.DefaultConfig.Clone
    HookModelName := c.RepositoryWebHookModel.Name }

/-- The assignment of line 165: the hook appended to the hooks of the root node. -/
def appendRepositoryWebHook (c : sdk.HookConstants) (wf : sdk.Workflow) : sdk.Workflow :=
  { wf with WorkflowData :=
      { Joins := wf.WorkflowData.Joins
        Node := wf.WorkflowData.Node.appendHook (repositoryWebHook c) } }

/-- The hook step of `migrateWorkflowAsCode` on the workflow in memory (lines 152 to 166):
the workflow as it stands when `workflow.Update` is about to be called, or unchanged when a
repository web hook was found. -/
def hookStep (c : sdk.HookConstants) (wf : sdk.Workflow) : sdk.Workflow :=
  if foundRepositoryWebHook c wf then wf else appendRepositoryWebHook c wf

/-- The entity data of the migration task (lines 187 to 193). -/
def migrateEntityData (wf : sdk.Workflow) (ope : sdk.Operation) : ascode.EntityData :=
  { FromRepo := ope.URL, Type_ := ascode.WorkflowEvent, ID := wf.ID, Name := wf.Name,
    OperationUUID := ope.UUID }

/-- The entity data of the update task (lines 122 to 128). -/
def updateEntityData (wfDB : sdk.Workflow) (ope : sdk.Operation) : ascode.EntityData :=
  { Name := wfDB.Name, ID := wfDB.ID, Type_ := ascode.WorkflowEvent,
    FromRepo := wfDB.FromRepository, OperationUUID := ope.UUID }

/-- The rest of `migrateWorkflowAsCode` once the hook step is done (lines 173 to 202):
`workflow.Pull`, `operation.PushOperation`, `tx.Commit`, then the background task and the
response, whose writing gives the value returned.  `tx` is the open transaction, `pre` the
calls made so far.  The deferred `Rollback` closes every path, and the persisted state is
what the transaction leaves behind after it. -/
def migrateAfterHook {σ δ : Type} (env : Collaborators σ δ) (tx : Transaction σ) (u : String)
    (p : sdk.Project) (projIdent : sdk.ProjectIdentifiers) (wf : sdk.Workflow)
    (app : sdk.Application) (branch message : String) (pre : List Call) : Outcome σ :=
  match env.Pull tx.working projIdent wf.Name with
  | .error err => ⟨.error err, tx.Rollback.persisted, pre ++ [.Pull false, .Rollback]⟩
  | .ok (s₁, data) =>
    match env.PushOperation s₁ p data app.VCSServer app.RepositoryFullname branch message
        app.RepositoryStrategy u with
    | .error err => ⟨.error err, (tx.Exec s₁).Rollback.persisted,
        pre ++ [.Pull true, .PushOperation none, .Rollback]⟩
    | .ok (s₂, ope) =>
      match env.Commit s₂ with
      | .error err => ⟨.error (sdk.WithStack err),
          (((tx.Exec s₁).Exec s₂).Commit false).Rollback.persisted,
          pre ++ [.Pull true, .PushOperation (some ope), .Commit false, .Rollback]⟩
      | .ok _ =>
        match env.WriteJSON (operationResponse ope).body 200 with
        | .error err => ⟨.error err, (((tx.Exec s₁).Exec s₂).Commit true).Rollback.persisted,
            pre ++ [.Pull true, .PushOperation (some ope), .Commit true,
              .GoRoutine ("MigrateWorkflowAsCodeResult-" ++ ope.UUID)
                (migrateEntityData wf ope),
              .WriteJSON (operationResponse ope).body 200 false, .Rollback]⟩
        | .ok _ => ⟨.ok (operationResponse ope),
            (((tx.Exec s₁).Exec s₂).Commit true).Rollback.persisted,
            pre ++ [.Pull true, .PushOperation (some ope), .Commit true,
              .GoRoutine ("MigrateWorkflowAsCodeResult-" ++ ope.UUID)
                (migrateEntityData wf ope),
              .WriteJSON (operationResponse ope).body 200 true, .Rollback]⟩

/-- The function `migrateWorkflowAsCode` (lines 138 to 202): the already-as-code guard, the
transaction, the hook step with `workflow.Update` when no repository web hook is found, then
the rest. -/
def migrateWorkflowAsCode {σ δ : Type} (env : Collaborators σ δ) (c : sdk.HookConstants)
    (db : σ) (u : String) (p : sdk.Project) (wf : sdk.Workflow) (app : sdk.Application)
    (branch message : String) : Outcome σ :=
  let projIdent : sdk.ProjectIdentifiers := { ID := p.ID, Key := p.Key }
  if alreadyAsCode wf then
    ⟨.error (sdk.WithStack sdk.ErrWorkflowAlreadyAsCode), db, []⟩
  else
    match env.Begin db with
    | .error err => ⟨.error (sdk.WithStack err), db, [.Begin false]⟩
    | .ok _ =>
      if foundRepositoryWebHook c wf then
        migrateAfterHook env (Transaction.Begin db) u p projIdent wf app branch message
          [.Begin true]
      else
        match env.Update (Transaction.Begin db).working projIdent
            (appendRepositoryWebHook c wf) with
        | .error err => ⟨.error err, (Transaction.Begin db).Rollback.persisted,
            [.Begin true, .Update false, .Rollback]⟩
        | .ok (s₁, wf₁) =>
          migrateAfterHook env ((Transaction.Begin db).Exec s₁) u p projIdent wf₁ app branch
            message [.Begin true, .Update true]

/-- The update path of `postWorkflowAsCodeHandler` once the guards are passed (lines 84 to
135): the body is read, renamed, checked, completed and exported, then the push operation is
created in a transaction, committed, and the background task and the response follow; the
writing of the response gives the value returned. -/
def updateWorkflowAsCode {σ δ : Type} (env : Collaborators σ δ) (db : σ) (r : Request)
    (p : sdk.Project) (projIdent : sdk.ProjectIdentifiers) (wfDB : sdk.Workflow)
    (rootApp : sdk.Application) (pre : List Call) : Outcome σ :=
  match env.UnmarshalBody r.body with
  | .error err => ⟨.error err, db, pre ++ [.UnmarshalBody false]⟩
  | .ok wf =>
  match env.RenameNode db wf with
  | .error err => ⟨.error err, db, pre ++ [.UnmarshalBody true, .RenameNode false]⟩
  | .ok wf₁ =>
  match env.CheckValidity db wf₁ with
  | .error err => ⟨.error err, db,
      pre ++ [.UnmarshalBody true, .RenameNode true, .CheckValidity false]⟩
  | .ok wf₂ =>
  match env.CompleteWorkflow db wf₂ projIdent
      { DeepPipeline := true, WithAsCodeUpdateEvent := false, WithTemplate := false } with
  | .error err => ⟨.error err, db,
      pre ++ [.UnmarshalBody true, .RenameNode true, .CheckValidity true,
        .CompleteWorkflow false]⟩
  | .ok wf₃ =>
  match env.NewWorkflow wf₃ with
  | .error err => ⟨.error err, db,
      pre ++ [.UnmarshalBody true, .RenameNode true, .CheckValidity true,
        .CompleteWorkflow true, .NewWorkflow false]⟩
  | .ok data =>
  match env.Begin db with
  | .error err => ⟨.error (sdk.WithStack err), db,
      pre ++ [.UnmarshalBody true, .RenameNode true, .CheckValidity true,
        .CompleteWorkflow true, .NewWorkflow true, .Begin false]⟩
  | .ok _ =>
  match env.PushOperationUpdate (Transaction.Begin db).working p data rootApp.VCSServer
      rootApp.RepositoryFullname r.branch r.message rootApp.RepositoryStrategy r.consumer with
  | .error err => ⟨.error err, (Transaction.Begin db).Rollback.persisted,
      pre ++ [.UnmarshalBody true, .RenameNode true, .CheckValidity true,
        .CompleteWorkflow true, .NewWorkflow true, .Begin true, .PushOperationUpdate none,
        .Rollback]⟩
  | .ok (s₁, ope) =>
  match env.Commit s₁ with
  | .error err => ⟨.error (sdk.WithStack err),
      (((Transaction.Begin db).Exec s₁).Commit false).Rollback.persisted,
      pre ++ [.UnmarshalBody true, .RenameNode true, .CheckValidity true,
        .CompleteWorkflow true, .NewWorkflow true, .Begin true,
        .PushOperationUpdate (some ope), .Commit false, .Rollback]⟩
  | .ok _ =>
  match env.WriteJSON (operationResponse ope).body 200 with
  | .error err => ⟨.error err,
      (((Transaction.Begin db).Exec s₁).Commit true).Rollback.persisted,
      pre ++ [.UnmarshalBody true, .RenameNode true, .CheckValidity true,
        .CompleteWorkflow true, .NewWorkflow true, .Begin true,
        .PushOperationUpdate (some ope), .Commit true,
        .GoRoutine ("UpdateAsCodeResult-" ++ ope.UUID) (updateEntityData wfDB ope),
        .WriteJSON (operationResponse ope).body 200 false, .Rollback]⟩
  | .ok _ => ⟨.ok (operationResponse ope),
      (((Transaction.Begin db).Exec s₁).Commit true).Rollback.persisted,
      pre ++ [.UnmarshalBody true, .RenameNode true, .CheckValidity true,
        .CompleteWorkflow true, .NewWorkflow true, .Begin true,
        .PushOperationUpdate (some ope), .Commit true,
        .GoRoutine ("UpdateAsCodeResult-" ++ ope.UUID) (updateEntityData wfDB ope),
        .WriteJSON (operationResponse ope).body 200 true, .Rollback]⟩

/-- The application ID the handler loads the root application with (line 59): that of the
context of the root node when the context is set and the ID is not 0. -/
def rootApplicationID (wfDB : sdk.Workflow) : Option Int :=
  match wfDB.WorkflowData.Node.Context with
  | none => none
  | some ctx => if ctx.ApplicationID != 0 then some ctx.ApplicationID else none

/-- The handler once the root application is loaded (lines 69 to 135): the migration when
`migrate` is set, otherwise the two update guards and the update path. -/
def withRootApplication {σ δ : Type} (env : Collaborators σ δ) (c : sdk.HookConstants)
    (db : σ) (r : Request) (p : sdk.Project) (wfDB : sdk.Workflow) (rootApp : sdk.Application)
    (pre : List Call) : Outcome σ :=
  let projIdent : sdk.ProjectIdentifiers := { ID := p.ID, Key := p.Key }
  if r.migrate then
    if rootApp.VCSServer == "" || rootApp.RepositoryFullname == "" then
      ⟨.error (sdk.NewErrorFrom .ErrRepoNotFound
        "no vcs configuration set on the root application of the given workflow"), db, pre⟩
    else
      let o := migrateWorkflowAsCode env c db r.consumer p wfDB rootApp r.branch r.message
      ⟨o.result, o.db, pre ++ o.trace⟩
  else if wfDB.FromRepository == "" then
    ⟨.error (sdk.NewErrorFrom .ErrForbidden "cannot update a workflow that is not ascode"),
      db, pre⟩
  else if wfDB.TemplateInstance.isSome then
    ⟨.error (sdk.NewErrorFrom .ErrForbidden
      "cannot update a workflow that was generated by a template"), db, pre⟩
  else
    updateWorkflowAsCode env db r p projIdent wfDB rootApp pre

/-- The handler once the workflow is loaded (lines 57 to 135): the root application is
loaded when the root node has one, and required in both modes. -/
def withWorkflow {σ δ : Type} (env : Collaborators σ δ) (c : sdk.HookConstants)
    (db : σ) (r : Request) (p : sdk.Project) (wfDB : sdk.Workflow) (pre : List Call) :
    Outcome σ :=
  match rootApplicationID wfDB with
  | none => ⟨.error (sdk.NewErrorFrom .ErrWrongRequest
      "cannot find the root application of the workflow"), db, pre⟩
  | some id =>
    match env.LoadByIDWithClearVCSStrategyPassword db id with
    | .error err => ⟨.error err, db, pre ++ [.LoadByIDWithClearVCSStrategyPassword id false]⟩
    | .ok none => ⟨.error (sdk.NewErrorFrom .ErrWrongRequest
        "cannot find the root application of the workflow"), db,
        pre ++ [.LoadByIDWithClearVCSStrategyPassword id true]⟩
    | .ok (some rootApp) =>
      withRootApplication env c db r p wfDB rootApp
        (pre ++ [.LoadByIDWithClearVCSStrategyPassword id true])

/-- The options `workflow.Load` is called with (lines 49 to 53). -/
def loadOptions (r : Request) : workflow.LoadOptions :=
  { DeepPipeline := r.migrate, WithAsCodeUpdateEvent := r.migrate, WithTemplate := true }

/-- The handler `postWorkflowAsCodeHandler` (lines 21 to 136): the branch and message guard,
the loads of the project and of the workflow, then the rest. -/
def postWorkflowAsCodeHandler {σ δ : Type} (env : Collaborators σ δ) (c : sdk.HookConstants)
    (db : σ) (r : Request) : Outcome σ :=
  if r.branch == "" || r.message == "" then
    ⟨.error (sdk.NewErrorFrom .ErrWrongRequest "missing branch or message data"), db, []⟩
  else
    match env.projectLoad db r.key with
    | .error err => ⟨.error err, db, [.projectLoad r.key false]⟩
    | .ok p =>
      match env.workflowLoad db { ID := p.ID, Key := p.Key } r.workflowName (loadOptions r) with
      | .error err => ⟨.error err, db,
          [.projectLoad r.key true, .workflowLoad r.workflowName (loadOptions r) false]⟩
      | .ok wfDB =>
        withWorkflow env c db r p wfDB
          [.projectLoad r.key true, .workflowLoad r.workflowName (loadOptions r) true]

/-- The background tasks started in a trace, by name and entity data. -/
def startedTasks (t : List Call) : List (String × ascode.EntityData) :=
  t.filterMap (fun call =>
    match call with
    | .GoRoutine name ed => some (name, ed)
    | _ => none)

/-- The push operations created in a trace. -/
def createdOperations (t : List Call) : List sdk.Operation :=
  t.filterMap (fun call =>
    match call with
    | .PushOperation (some ope) => some ope
    | .PushOperationUpdate (some ope) => some ope
    | _ => none)

/-- Whether `tx.Commit` returned no error in a trace. -/
def committed (t : List Call) : Bool :=
  t.contains (.Commit true)

/-- The calls of a trace made before the first background task is started. -/
def beforeFirstTask (t : List Call) : List Call :=
  t.takeWhile (fun call =>
    match call with
    | .GoRoutine _ _ => false
    | _ => true)

/-- Whether a call of the trace failed. -/
def Call.failed : Call → Bool
  | .projectLoad _ ok => !ok
  | .workflowLoad _ _ ok => !ok
  | .LoadByIDWithClearVCSStrategyPassword _ ok => !ok
  | .UnmarshalBody ok => !ok
  | .RenameNode ok => !ok
  | .CheckValidity ok => !ok
  | .CompleteWorkflow ok => !ok
  | .NewWorkflow ok => !ok
  | .Begin ok => !ok
  | .Update ok => !ok
  | .Pull ok => !ok
  | .PushOperation ope => ope.isNone
  | .PushOperationUpdate ope => ope.isNone
  | .Commit ok => !ok
  | .Rollback => false
  | .GoRoutine _ _ => false
  | .WriteJSON _ _ ok => !ok

/-- The number of calls to `workflow.Update` in a trace. -/
def updateCalls (t : List Call) : Nat :=
  t.countP (fun call =>
    match call with
    | .Update _ => true
    | _ => false)

/-- Whether a call made before the response is written failed: every failed call but
`service.WriteJSON`. -/
def Call.failedUpToCommit : Call → Bool
  | .WriteJSON _ _ _ => false
  | call => call.failed

/-- Whether `service.WriteJSON` returned an error in a trace. -/
def writeFailed (t : List Call) : Bool :=
  t.any (fun call =>
    match call with
    | .WriteJSON _ _ ok => !ok
    | _ => false)

/-- A call that succeeded and is neither a push operation, a commit, a task start nor the
writing of the response. -/
def Call.neutral : Call → Bool
  | .PushOperation _ => false
  | .PushOperationUpdate _ => false
  | .Commit _ => false
  | .GoRoutine _ _ => false
  | .WriteJSON _ _ _ => false
  | call => !call.failed

/-- The name prefix of the background task of a request: the migration task when `migrate` is
set, the update task otherwise (lines 120 and 187). -/
def taskTag (r : Request) : String :=
  if r.migrate then "MigrateWorkflowAsCodeResult-" else "UpdateAsCodeResult-"

/-- The push operation `ope` is what one of the two push collaborators returned, with the
working state `s` it left. -/
def Pushed {σ δ : Type} (env : Collaborators σ δ) (s : σ) (ope : sdk.Operation) : Prop :=
  (∃ s₀ p data vcs repo branch message strategy u,
    env.PushOperation s₀ p data vcs repo branch message strategy u = .ok (s, ope)) ∨
  (∃ s₀ p data vcs repo branch message strategy u,
    env.PushOperationUpdate s₀ p data vcs repo branch message strategy u = .ok (s, ope))

/-- The ways an execution ends, for an outcome whose trace is `pre` followed by the calls of
the part in view.  Either no commit succeeded: an error is returned, the persisted state is
the one before and no task was started.  Or `Commit` succeeded on the working state left by
the push collaborator, which is now the persisted state: no call up to the commit failed, the
push operation is the one created, and exactly one task was started, after the push operation
and the commit, under the name `tag` followed by the UUID of the operation and with that UUID
in its entity data; then either `service.WriteJSON` wrote the operation response, which is the
result, or it failed and its error is the result. -/
def Settled {σ δ : Type} (env : Collaborators σ δ) (db : σ) (tag : String) (pre : List Call)
    (o : Outcome σ) : Prop :=
  ∃ t, o.trace = pre ++ t ∧
    ((∃ err, o.result = .error err ∧ o.db = db ∧ startedTasks t = [] ∧
        committed t = false ∧ writeFailed t = false) ∨
     (∃ ope ed s, Pushed env s ope ∧ env.Commit s = .ok () ∧ o.db = s ∧
        t.any Call.failedUpToCommit = false ∧
        createdOperations t = [ope] ∧ committed t = true ∧
        startedTasks t = [(tag ++ ope.UUID, ed)] ∧ ed.OperationUUID = ope.UUID ∧
        createdOperations (beforeFirstTask t) = [ope] ∧
        committed (beforeFirstTask t) = true ∧
        ((env.WriteJSON (operationResponse ope).body 200 = .ok () ∧
            o.result = .ok (operationResponse ope) ∧ t.any Call.failed = false ∧
            Call.WriteJSON (operationResponse ope).body 200 true ∈ t) ∨
         (∃ err, env.WriteJSON (operationResponse ope).body 200 = .error err ∧
            o.result = .error err ∧ writeFailed t = true ∧
            Call.WriteJSON (operationResponse ope).body 200 false ∈ t))))

/-- The collaborators `env` with `workflow.Load` giving every stored workflow under the
template instance `t` instead of its own. -/
def loadingTemplate {σ δ : Type} (env : Collaborators σ δ)
    (t : Option sdk.WorkflowTemplateInstance) : Collaborators σ δ :=
  { env with
    workflowLoad := fun s pi name opts =>
      (env.workflowLoad s pi name opts).map (fun w => { w with TemplateInstance := t }) }

/-! ### A concrete run -/

/-- Hook constants for the runs below: the model is named by the model name. -/
def demoConstants : sdk.HookConstants :=
  { RepositoryWebHookModelName := "RepositoryWebHook"
    RepositoryWebHookModel :=
      { Name := "RepositoryWebHook", DefaultConfig := [("method", "POST")] } }

/-- A workflow for the runs below: root node `root` of application 7 with one scheduler hook
and one child node, no join; the arguments set what the guards read. -/
def demoWorkflow (fromRepository : String) (events : List sdk.AsCodeEvent)
    (template : Option sdk.WorkflowTemplateInstance) (applicationID : Int) : sdk.Workflow :=
  { ID := 3
    Name := "test_1"
    FromRepository := fromRepository
    AsCodeEvent := events
    TemplateInstance := template
    WorkflowData :=
      { Joins := []
        Node := .mk "root" (some { ApplicationID := applicationID, PipelineID := 1 })
          [{ Config := [], HookModelName := "Scheduler" }]
          [.mk "child" none [] []] } }

/-- The operation `operation.PushOperationUpdate` creates in the runs below. -/
def demoOperation : sdk.Operation :=
  { UUID := "uuid-1", URL := "https://github.com/ovh/cds", Status := 1, Rest := "setup" }

/-- The row `workflow.Update` writes in the runs below: the name of the workflow and the
model names of its hooks. -/
def demoRow (w : sdk.Workflow) : String :=
  "workflow " ++ w.Name ++ " hooks " ++
    String.intercalate "," (w.WorkflowData.GetHooks.map (fun h => h.HookModelName))

/-- The row the push collaborators write in the runs below: everything they are given. -/
def demoPushRow (p : sdk.Project) (data vcs repo branch message strategy u : String) :
    String :=
  String.intercalate " " ["operation", p.Key, data, vcs, repo, branch, message, strategy, u]

/-- The operation `operation.PushOperation` creates in the runs below. -/
def demoMigrateOperation : sdk.Operation :=
  { UUID := "uuid-2", URL := "https://github.com/ovh/cds", Status := 0, Rest := "setup" }

/-- Collaborators for the runs below, over a database that is the list of rows written: the
loads succeed and give the workflow `wf`, the body is read as `wf`, `workflow.Update` and the
push operations write one row each inside the transaction, `Commit` succeeds or fails as
`commitOK` says, and the response can be written. -/
def demoEnv (wf : sdk.Workflow) (commitOK : Bool) : Collaborators (List String) String :=
  { projectLoad := fun _ key => .ok { ID := 1, Key := key }
    workflowLoad := fun _ _ _ _ => .ok wf
    LoadByIDWithClearVCSStrategyPassword := fun _ _ =>
      .ok (some { VCSServer := "github", RepositoryFullname := "ovh/cds",
                  RepositoryStrategy := "ssh" })
    UnmarshalBody := fun _ => .ok wf
    RenameNode := fun _ w => .ok w
    CheckValidity := fun _ w => .ok w
    CompleteWorkflow := fun _ w _ _ => .ok w
    NewWorkflow := fun w => .ok ("exported " ++ w.Name)
    Begin := fun _ => .ok ()
    Update := fun tx _ w => .ok (tx ++ [demoRow w], w)
    Pull := fun tx _ name => .ok (tx, "pulled " ++ name)
    PushOperation := fun tx p data vcs repo branch message strategy u =>
      .ok (tx ++ [demoPushRow p data vcs repo branch message strategy u],
        demoMigrateOperation)
    PushOperationUpdate := fun tx p data vcs repo branch message strategy u =>
      .ok (tx ++ [demoPushRow p data vcs repo branch message strategy u], demoOperation)
    Commit := fun _ => if commitOK then .ok () else .error { base := .Other 1, message := "commit" }
    UpdateAsCodeResult := fun db _ _ _ _ => db
    WriteJSON := fun _ _ => .ok () }

/-- The collaborators of the runs below with a response that cannot be written. -/
def demoEnvWriteFails (wf : sdk.Workflow) : Collaborators (List String) String :=
  { demoEnv wf true with
    WriteJSON := fun _ _ => .error { base := .Other 2, message := "write" } }

/-- The collaborators of the runs below with `workflow.Pull` failing. -/
def demoEnvPullFails (wf : sdk.Workflow) : Collaborators (List String) String :=
  { demoEnv wf true with
    Pull := fun _ _ _ => .error { base := .Other 3, message := "pull" } }

/-- The collaborators of the runs below with `operation.PushOperation` failing. -/
def demoEnvPushFails (wf : sdk.Workflow) : Collaborators (List String) String :=
  { demoEnv wf true with
    PushOperation := fun _ _ _ _ _ _ _ _ _ => .error { base := .Other 4, message := "push" } }

/-- A request for the runs below. -/
def demoRequest (migrate : Bool) (branch message : String) : Request :=
  { key := "KEY", workflowName := "test_1", migrate := migrate, branch := branch,
    message := message, body := "name: test_1", consumer := "admin" }

end api

/-! ## Parser and builder facts -/

theorem hasDuplicate_eq_false_iff (xs : List String) : hasDuplicate xs = false ↔ xs.Nodup := by
  induction xs with
  | nil => simp [hasDuplicate]
  | cons x xs ih => simp [hasDuplicate, ih]

theorem parse_ok {pipelines : List String} {doc : Document} {specs : List NodeSpec}
    (h : parse pipelines doc = .ok specs) :
    specs = doc.workflow ∧ (doc.workflow.map (fun n => n.name)).Nodup ∧
      ∀ n ∈ doc.workflow, checkNode pipelines (doc.workflow.map (fun n => n.name)) n = true := by
  unfold parse at h
  simp only at h
  split at h
  · cases h
  · rename_i hfind
    split at h
    · cases h
    · rename_i hdup
      simp only [Bool.or_eq_true, not_or, Bool.not_eq_true] at hdup
      refine ⟨by cases h; rfl, ?_, ?_⟩
      · exact (hasDuplicate_eq_false_iff _).1 hdup.1
      · intro n hn
        have := List.find?_eq_none.1 hfind n hn
        simpa using this

theorem buildGraph_ok {pipelines : List String} {doc : Document} {g : WorkflowGraph}
    (h : buildGraph pipelines doc = .ok g) :
    parse pipelines doc = .ok doc.workflow ∧ g = assemble doc doc.workflow ∧
      allReachable g = true := by
  unfold buildGraph at h
  split at h
  · cases h
  · rename_i specs hp
    have hs := (parse_ok hp).1
    subst hs
    unfold build at h
    simp only at h
    split at h
    · rename_i hr
      cases h
      exact ⟨hp, rfl, hr⟩
    · cases h

theorem toJoin_eq_some {specs : List NodeSpec} {s : NodeSpec} {j : Join} :
    toJoin specs s = some j ↔
      1 < s.dependsOn.length ∧
        j = { name := s.name, parents := s.dependsOn, condition := s.condition,
              triggers := childrenOf specs s.name } := by
  unfold toJoin
  split
  · rename_i p q rest hd
    simp [hd, eq_comm]
  · rename_i hne
    constructor
    · intro h; cases h
    · rintro ⟨hlen, -⟩
      exfalso
      match hd : s.dependsOn with
      | [] => simp [hd] at hlen
      | [_] => simp [hd] at hlen
      | p :: q :: rest => exact hne p q rest hd

theorem toJoin_isSome (specs : List NodeSpec) (s : NodeSpec) :
    (toJoin specs s).isSome = decide (1 < s.dependsOn.length) := by
  unfold toJoin
  split
  · rename_i p q rest hd
    simp [hd]
  · rename_i hne
    match hd : s.dependsOn with
    | [] => simp
    | [_] => simp
    | p :: q :: rest => exact absurd hd (hne p q rest)

theorem length_filterMap_eq_length_filter {α β : Type} (f : α → Option β) (p : α → Bool)
    (hfp : ∀ a, (f a).isSome = p a) (l : List α) :
    (l.filterMap f).length = (l.filter p).length := by
  induction l with
  | nil => rfl
  | cons a l ih =>
    have h := hfp a
    cases hfa : f a with
    | none =>
      have hp : p a = false := by rw [← h, hfa]; rfl
      simp [List.filterMap_cons, hfa, List.filter_cons, hp, ih]
    | some b =>
      have hp : p a = true := by rw [← h, hfa]; rfl
      simp [List.filterMap_cons, hfa, List.filter_cons, hp, ih]

theorem mem_joins_assemble {doc : Document} {specs : List NodeSpec} {j : Join} :
    j ∈ (assemble doc specs).joins ↔
      ∃ s ∈ specs, 1 < s.dependsOn.length ∧
        j = { name := s.name, parents := s.dependsOn, condition := s.condition,
              triggers := childrenOf specs s.name } := by
  simp only [assemble, List.mem_filterMap, toJoin_eq_some]

theorem eq_of_name_eq {specs : List NodeSpec} (hnd : (specs.map (fun n => n.name)).Nodup)
    {a b : NodeSpec} (ha : a ∈ specs) (hb : b ∈ specs) (hab : a.name = b.name) : a = b :=
  List.inj_on_of_nodup_map hnd ha hb hab

/-! ## Claims -/

/-- C1 (join-arity invariant): in every accepted document a declared node gets a Join under its
name exactly when it has more than one predecessor, so the stored graph has as many Joins as
there are declarations with more than one predecessor, and a declaration with exactly one
predecessor yields no Join whatever its name. -/
theorem join_arity_invariant (pipelines : List String) (doc : Document) (g : WorkflowGraph)
    (h : buildGraph pipelines doc = .ok g) :
    (∀ n ∈ doc.workflow, (∃ j ∈ g.joins, j.name = n.name) ↔ 1 < n.dependsOn.length) ∧
    g.joins.length = (doc.workflow.filter (fun n => decide (1 < n.dependsOn.length))).length ∧
    (∀ n ∈ doc.workflow, n.dependsOn.length = 1 → ∀ j ∈ g.joins, j.name ≠ n.name) := by
  obtain ⟨hp, hg, -⟩ := buildGraph_ok h
  obtain ⟨-, hnd, -⟩ := parse_ok hp
  have hiff : ∀ n ∈ doc.workflow, (∃ j ∈ g.joins, j.name = n.name) ↔ 1 < n.dependsOn.length := by
    intro n hn
    subst hg
    constructor
    · rintro ⟨j, hj, hname⟩
      obtain ⟨s, hs, hlen, rfl⟩ := mem_joins_assemble.1 hj
      have : s = n := eq_of_name_eq hnd hs hn hname
      exact this ▸ hlen
    · intro hlen
      exact ⟨_, mem_joins_assemble.2 ⟨n, hn, hlen, rfl⟩, rfl⟩
  refine ⟨hiff, ?_, ?_⟩
  · subst hg
    exact length_filterMap_eq_length_filter _ _ (toJoin_isSome _) _
  · intro n hn h1 j hj hname
    have := (hiff n hn).1 ⟨j, hj, hname⟩
    omega

/-- Witness for C1: the document of `Test_putWorkflowImportHandlerMustNotHave2Joins` is
accepted and its graph has exactly one Join. -/
theorem join_arity_invariant_witness :
    ∃ g, buildGraph ["pip1"] docMustNotHave2Joins = .ok g ∧ g.joins.length = 1 ∧
      (g.joins.map (fun j => j.name)) = ["join"] ∧
      ∀ j ∈ g.joins, j.name ≠ "fork" := by
  have h : buildGraph ["pip1"] docMustNotHave2Joins
      = .ok (assemble docMustNotHave2Joins docMustNotHave2Joins.workflow) := by decide!
  refine ⟨_, h, ?_, by decide!, ?_⟩
  · rw [(join_arity_invariant _ _ _ h).2.1]
    decide!
  · exact (join_arity_invariant _ _ _ h).2.2
      (condNode "fork" ["deploy_admin-panel-api_dev"] shortCondition) (by decide!) (by decide!)

theorem mem_childrenOf {specs : List NodeSpec} {e x : String} :
    x ∈ childrenOf specs e ↔ ∃ s ∈ specs, s.dependsOn = [e] ∧ s.name = x := by
  simp [childrenOf, and_assoc]

theorem map_name_joins (specs l : List NodeSpec) :
    (l.filterMap (toJoin specs)).map (fun j => j.name) =
      (l.filter (fun n => decide (1 < n.dependsOn.length))).map (fun n => n.name) := by
  induction l with
  | nil => rfl
  | cons a l ih =>
    by_cases hlen : 1 < a.dependsOn.length
    · have hj := (@toJoin_eq_some specs a _).2 ⟨hlen, rfl⟩
      simp [List.filterMap_cons, hj, List.filter_cons, hlen, ih]
    · have hj : toJoin specs a = none := by
        cases hq : toJoin specs a with
        | none => rfl
        | some j => exact absurd (toJoin_eq_some.1 hq).1 hlen
      simp [List.filterMap_cons, hj, List.filter_cons, hlen, ih]

theorem nodup_join_names {specs : List NodeSpec} (hnd : (specs.map (fun n => n.name)).Nodup) :
    ((specs.filterMap (toJoin specs)).map (fun j => j.name)).Nodup := by
  rw [map_name_joins]
  exact List.Nodup.sublist (List.Sublist.map _ (List.filter_sublist _)) hnd

/-- C2 (no cross-node merging): in every accepted document two different declarations that each
have more than one predecessor yield two distinct Joins, each under the name and with the
predecessor list of its own declaration (identical lists included); the Joins of the graph are,
one for one and in order, the declarations with more than one predecessor. -/
theorem joins_not_merged (pipelines : List String) (doc : Document) (g : WorkflowGraph)
    (h : buildGraph pipelines doc = .ok g) (n₁ n₂ : NodeSpec)
    (h₁ : n₁ ∈ doc.workflow) (h₂ : n₂ ∈ doc.workflow) (hne : n₁ ≠ n₂)
    (hl₁ : 1 < n₁.dependsOn.length) (hl₂ : 1 < n₂.dependsOn.length) :
    (∃ j₁ ∈ g.joins, ∃ j₂ ∈ g.joins, j₁ ≠ j₂ ∧
      j₁.name = n₁.name ∧ j₁.parents = n₁.dependsOn ∧
      j₂.name = n₂.name ∧ j₂.parents = n₂.dependsOn) ∧
    g.joins.map (fun j => j.name) =
      (doc.workflow.filter (fun n => decide (1 < n.dependsOn.length))).map (fun n => n.name) ∧
    (g.joins.map (fun j => j.name)).Nodup := by
  obtain ⟨hp, hg, -⟩ := buildGraph_ok h
  obtain ⟨-, hnd, -⟩ := parse_ok hp
  subst hg
  refine ⟨⟨_, mem_joins_assemble.2 ⟨n₁, h₁, hl₁, rfl⟩, _, mem_joins_assemble.2 ⟨n₂, h₂, hl₂, rfl⟩,
    ?_, rfl, rfl, rfl, rfl⟩, map_name_joins _ _, nodup_join_names hnd⟩
  intro heq
  have hname : n₁.name = n₂.name := congrArg Join.name heq
  exact hne (eq_of_name_eq hnd h₁ h₂ hname)

/-- Witness for C2: in the document of `Test_putWorkflowImportHandlerWithJoinWithoutCondition`
the declarations `deploy_admin-panel-api_dev` and `deploy_admin-panel-ui_dev` name the same
four predecessors and get one Join each; the graph has one Join per declaring node, eight in
all. -/
theorem joins_not_merged_witness :
    ∃ g, buildGraph ["pip1"] docJoinWithoutCondition = .ok g ∧
      (∃ j₁ ∈ g.joins, ∃ j₂ ∈ g.joins, j₁ ≠ j₂ ∧
        j₁.name = "deploy_admin-panel-api_dev" ∧ j₁.parents = buildNames ∧
        j₂.name = "deploy_admin-panel-ui_dev" ∧ j₂.parents = buildNames) ∧
      g.joins.map (fun j => j.name) =
        ["deploy_admin-panel-api_dev", "deploy_admin-panel-api_prod",
         "deploy_admin-panel-ui_dev", "deploy_admin-panel-ui_prod",
         "deploy_cache-manager_dev", "deploy_cache-manager_prod",
         "deploy_health-checker_dev", "deploy_health-checker_prod"] ∧
      (buildGraph ["pip1"] docJoinWithOrWithoutCondition).toOption.map
          (fun g₂ => g₂.joins.map (fun j => j.name)) =
        some ["deploy_admin-panel-api_dev", "deploy_admin-panel-ui_dev",
          "deploy_cache-manager_dev", "deploy_health-checker_dev", "join_2"] := by
  have h : buildGraph ["pip1"] docJoinWithoutCondition
      = .ok (assemble docJoinWithoutCondition docJoinWithoutCondition.workflow) := by decide!
  have key := joins_not_merged _ _ _ h
    (pipNode "deploy_admin-panel-api_dev" buildNames)
    (pipNode "deploy_admin-panel-ui_dev" buildNames)
    (by decide!) (by decide!) (by decide!) (by decide!) (by decide!)
  exact ⟨_, h, key.1, key.2.1.trans (by decide!), by decide!⟩

theorem toGraphNode_eq_some {specs : List NodeSpec} {s : NodeSpec} {n : GraphNode} :
    toGraphNode specs s = some n ↔
      s.dependsOn.length ≤ 1 ∧
        n = { name := s.name, kind := if s.dependsOn = [] then .Root else .Linear,
              pipeline := s.pipeline, parameters := s.parameters, payload := s.payload,
              triggers := childrenOf specs s.name, condition := s.condition } := by
  unfold toGraphNode
  split
  · rename_i hd
    simp [hd, eq_comm]
  · rename_i p hd
    simp [hd, eq_comm]
  · rename_i p q rest hd
    simp [hd]

theorem mem_nodes_assemble {doc : Document} {specs : List NodeSpec} {n : GraphNode} :
    n ∈ (assemble doc specs).nodes ↔
      ∃ s ∈ specs, s.dependsOn.length ≤ 1 ∧
        n = { name := s.name, kind := if s.dependsOn = [] then .Root else .Linear,
              pipeline := s.pipeline, parameters := s.parameters, payload := s.payload,
              triggers := childrenOf specs s.name, condition := s.condition } := by
  simp only [assemble, List.mem_filterMap, toGraphNode_eq_some]

theorem mem_roots_assemble {doc : Document} {specs : List NodeSpec} {x : String} :
    x ∈ (assemble doc specs).roots ↔ ∃ s ∈ specs, s.dependsOn = [] ∧ s.name = x := by
  simp [assemble, and_assoc]

theorem mem_entityNames_of_mem {doc : Document} {specs : List NodeSpec} {s : NodeSpec}
    (hs : s ∈ specs) : s.name ∈ entityNames (assemble doc specs) := by
  unfold entityNames
  rw [List.mem_append]
  by_cases hlen : 1 < s.dependsOn.length
  · right
    exact List.mem_map.2 ⟨_, mem_joins_assemble.2 ⟨s, hs, hlen, rfl⟩, rfl⟩
  · left
    exact List.mem_map.2 ⟨_, mem_nodes_assemble.2 ⟨s, hs, by omega, rfl⟩, rfl⟩

/-- A Join whose parents all hang below it is cut off from every root: neither it nor its
parents are ever reached. -/
theorem self_fed_join_unreachable (doc : Document) {specs : List NodeSpec}
    (hnd : (specs.map (fun n => n.name)).Nodup) {J : NodeSpec} (hJ : J ∈ specs)
    (hlen : 1 < J.dependsOn.length)
    (hmid : ∀ m ∈ J.dependsOn, ∃ s ∈ specs, s.name = m ∧ s.dependsOn = [J.name]) (fuel : Nat) :
    J.name ∉ reachable (assemble doc specs) fuel ∧
      ∀ m ∈ J.dependsOn, m ∉ reachable (assemble doc specs) fuel := by
  have huniq : ∀ s ∈ specs, s.name = J.name → s = J := fun s hs hn => eq_of_name_eq hnd hs hJ hn
  have hchild : ∀ e, J.name ∉ childrenOf specs e := by
    intro e hx
    obtain ⟨s, hs, hd, hn⟩ := mem_childrenOf.1 hx
    have := huniq s hs hn
    subst this
    simp [hd] at hlen
  have hmchild : ∀ m ∈ J.dependsOn, ∀ e, m ∈ childrenOf specs e → e = J.name := by
    intro m hm e hx
    obtain ⟨s, hs, hs1, hs2⟩ := hmid m hm
    obtain ⟨t, ht, htd, htn⟩ := mem_childrenOf.1 hx
    have : t = s := eq_of_name_eq hnd ht hs (htn.trans hs1.symm)
    subst this
    rw [hs2] at htd
    simpa using htd.symm
  induction fuel with
  | zero =>
    refine ⟨?_, ?_⟩
    · intro hx
      obtain ⟨s, hs, hd, hn⟩ := mem_roots_assemble.1 hx
      have := huniq s hs hn
      subst this
      simp [hd] at hlen
    · intro m hm hx
      obtain ⟨s, hs, hs1, hs2⟩ := hmid m hm
      obtain ⟨t, ht, htd, htn⟩ := mem_roots_assemble.1 hx
      have : t = s := eq_of_name_eq hnd ht hs (htn.trans hs1.symm)
      subst this
      simp [hs2] at htd
  | succ fuel ih =>
    obtain ⟨ihJ, ihm⟩ := ih
    have hstep : ∀ x, x ∈ reachable (assemble doc specs) (fuel + 1) →
        x ∈ reachable (assemble doc specs) fuel ∨
          reachedFrom (assemble doc specs) (reachable (assemble doc specs) fuel) x = true := by
      intro x hx
      simp only [reachable, List.mem_filter, Bool.or_eq_true, List.elem_eq_mem, decide_eq_true_eq] at hx
      exact hx.2
    refine ⟨?_, ?_⟩
    · intro hx
      rcases hstep _ hx with h0 | h0
      · exact ihJ h0
      · simp only [reachedFrom, Bool.or_eq_true, List.any_eq_true, Bool.and_eq_true,
          List.elem_eq_mem, decide_eq_true_eq, beq_iff_eq] at h0
        rcases h0 with (⟨n, hn, -, hc⟩ | ⟨j, hj, -, hc⟩) | ⟨j, hj, hjn, p, hp, hps⟩
        · obtain ⟨s, -, -, rfl⟩ := mem_nodes_assemble.1 hn
          exact hchild _ hc
        · obtain ⟨s, -, -, rfl⟩ := mem_joins_assemble.1 hj
          exact hchild _ hc
        · obtain ⟨s, hs, -, rfl⟩ := mem_joins_assemble.1 hj
          have := huniq s hs hjn
          subst this
          exact ihm p hp hps
    · intro m hm hx
      rcases hstep _ hx with h0 | h0
      · exact ihm m hm h0
      · simp only [reachedFrom, Bool.or_eq_true, List.any_eq_true, Bool.and_eq_true,
          List.elem_eq_mem, decide_eq_true_eq, beq_iff_eq] at h0
        rcases h0 with (⟨n, hn, hseen, hc⟩ | ⟨j, hj, hseen, hc⟩) | ⟨j, hj, hjn, -⟩
        · obtain ⟨s, -, -, rfl⟩ := mem_nodes_assemble.1 hn
          have := hmchild m hm _ hc
          exact ihJ (this ▸ hseen)
        · obtain ⟨s, -, -, rfl⟩ := mem_joins_assemble.1 hj
          have := hmchild m hm _ hc
          exact ihJ (this ▸ hseen)
        · obtain ⟨s, hs, hsl, rfl⟩ := mem_joins_assemble.1 hj
          obtain ⟨t, ht, ht1, ht2⟩ := hmid m hm
          have : s = t := eq_of_name_eq hnd hs ht (hjn.trans ht1.symm)
          subst this
          simp [ht2] at hsl

theorem wellFormed_iff {pipelines : List String} {doc : Document} :
    wellFormed pipelines doc = true ↔
      buildGraph pipelines doc = .ok (assemble doc doc.workflow) := by
  unfold wellFormed buildGraph build
  cases hp : parse pipelines doc with
  | error e => simp
  | ok specs =>
    have hs := (parse_ok hp).1
    subst hs
    by_cases hr : allReachable (assemble doc doc.workflow) = true <;> simp [hr]

/-- C3 (multi-level joins): for every well-formed document in which a node `J₁` has at least
two predecessors and a node `J₂` has at least two predecessors, each of them a declared node
whose single predecessor is `J₁`, the import succeeds and the graph holds two distinct Joins,
one under each name.  The single-predecessor nodes are trigger children of Join `J₁` and of no
other entity, no GraphNode stands for `J₁`, the parent list of Join `J₂` is the declared
predecessor list of `J₂` in declaration order, and each Join carries the condition of its own
declaring node. -/
theorem multi_level_joins (pipelines : List String) (doc : Document)
    (hwf : wellFormed pipelines doc = true) (J₁ J₂ : NodeSpec)
    (hJ₁ : J₁ ∈ doc.workflow) (hJ₂ : J₂ ∈ doc.workflow)
    (hl₁ : 2 ≤ J₁.dependsOn.length) (hl₂ : 2 ≤ J₂.dependsOn.length)
    (hmid : ∀ m ∈ J₂.dependsOn, ∃ s ∈ doc.workflow, s.name = m ∧ s.dependsOn = [J₁.name]) :
    ∃ g, buildGraph pipelines doc = .ok g ∧
      ∃ j₁ ∈ g.joins, ∃ j₂ ∈ g.joins, j₁ ≠ j₂ ∧
        j₁.name = J₁.name ∧ j₁.parents = J₁.dependsOn ∧ j₁.condition = J₁.condition ∧
        j₂.name = J₂.name ∧ j₂.parents = J₂.dependsOn ∧ j₂.condition = J₂.condition ∧
        (∀ m ∈ J₂.dependsOn, m ∈ j₁.triggers) ∧
        (∀ m ∈ J₂.dependsOn, ∀ j ∈ g.joins, m ∈ j.triggers → j = j₁) ∧
        (∀ m ∈ J₂.dependsOn, ∀ n ∈ g.nodes, m ∉ n.triggers) ∧
        (∀ m ∈ J₂.dependsOn, ∃ n ∈ g.nodes, n.name = m ∧ n.kind = .Linear) ∧
        (∀ n ∈ g.nodes, n.name ≠ J₁.name) := by
  have h := wellFormed_iff.1 hwf
  obtain ⟨hp, -, hreach⟩ := buildGraph_ok h
  obtain ⟨-, hnd, -⟩ := parse_ok hp
  have hpred : ∀ m ∈ J₂.dependsOn, ∀ e, m ∈ childrenOf doc.workflow e → e = J₁.name := by
    intro m hm e hx
    obtain ⟨s, hs, hs1, hs2⟩ := hmid m hm
    obtain ⟨t, ht, htd, htn⟩ := mem_childrenOf.1 hx
    have : t = s := eq_of_name_eq hnd ht hs (htn.trans hs1.symm)
    subst this
    rw [hs2] at htd
    simpa using htd.symm
  have hJne : J₁.name ≠ J₂.name := by
    intro heq
    have hJ : J₁ = J₂ := eq_of_name_eq hnd hJ₁ hJ₂ heq
    subst hJ
    have hcut := (self_fed_join_unreachable doc hnd hJ₁ (by omega) hmid
      (entityNames (assemble doc doc.workflow)).length).1
    unfold allReachable at hreach
    simp only [List.all_eq_true, List.elem_eq_mem, decide_eq_true_eq] at hreach
    exact hcut (hreach _ (mem_entityNames_of_mem hJ₁))
  refine ⟨_, h, _, mem_joins_assemble.2 ⟨J₁, hJ₁, by omega, rfl⟩,
    _, mem_joins_assemble.2 ⟨J₂, hJ₂, by omega, rfl⟩, ?_, rfl, rfl, rfl, rfl, rfl, rfl,
    ?_, ?_, ?_, ?_, ?_⟩
  · intro heq
    exact hJne (congrArg Join.name heq)
  · intro m hm
    obtain ⟨s, hs, hs1, hs2⟩ := hmid m hm
    exact mem_childrenOf.2 ⟨s, hs, hs2, hs1⟩
  · intro m hm j hj hmem
    obtain ⟨s, hs, hsl, rfl⟩ := mem_joins_assemble.1 hj
    have hname := hpred m hm _ hmem
    have : s = J₁ := eq_of_name_eq hnd hs hJ₁ hname
    subst this
    rfl
  · intro m hm n hn hmem
    obtain ⟨s, hs, hsl, rfl⟩ := mem_nodes_assemble.1 hn
    have hname := hpred m hm _ hmem
    have : s = J₁ := eq_of_name_eq hnd hs hJ₁ hname
    subst this
    omega
  · intro m hm
    obtain ⟨s, hs, hs1, hs2⟩ := hmid m hm
    exact ⟨_, mem_nodes_assemble.2 ⟨s, hs, by simp [hs2], rfl⟩, hs1, by simp [hs2]⟩
  · intro n hn hname
    obtain ⟨s, hs, hsl, rfl⟩ := mem_nodes_assemble.1 hn
    have : s = J₁ := eq_of_name_eq hnd hs hJ₁ hname
    subst this
    omega

/-- Witness for C3: the document of `Test_putWorkflowImportHandlerWithJoinAndCondition`, with
`join` (four `build_*` parents) feeding the four `deploy_*_dev` nodes that feed `join_2`, is
well formed and its graph has exactly the two Joins, each with its own condition. -/
theorem multi_level_joins_witness :
    wellFormed ["pip1"] docJoinAndCondition = true ∧
    ∃ g, buildGraph ["pip1"] docJoinAndCondition = .ok g ∧
      g.joins =
        [ { name := "join", parents := buildNames, condition := some longCondition,
            triggers := devNames },
          { name := "join_2", parents := devNames, condition := some shortCondition,
            triggers := ["deploy_admin-panel-api_prod", "deploy_admin-panel-ui_prod",
              "deploy_cache-manager_prod", "deploy_health-checker_prod"] } ] ∧
      ∃ j₁ ∈ g.joins, ∃ j₂ ∈ g.joins, j₁ ≠ j₂ ∧
        j₁.name = "join" ∧ j₁.condition = some longCondition ∧
        j₂.name = "join_2" ∧ j₂.parents = devNames ∧ j₂.condition = some shortCondition ∧
        (∀ m ∈ devNames, m ∈ j₁.triggers) ∧
        (∀ n ∈ g.nodes, n.name ≠ "join") := by
  have hwf : wellFormed ["pip1"] docJoinAndCondition = true := by decide!
  obtain ⟨g, hg, j₁, hj₁, j₂, hj₂, hne, hn₁, -, hc₁, hn₂, hp₂, hc₂, htr, -, -, -, hph⟩ :=
    multi_level_joins ["pip1"] docJoinAndCondition hwf
      (condNode "join" buildNames longCondition) (condNode "join_2" devNames shortCondition)
      (by decide!) (by decide!) (by decide!) (by decide!) (by decide!)
  have hg₂ := wellFormed_iff.1 hwf
  have hgeq : g = assemble docJoinAndCondition docJoinAndCondition.workflow := by
    rw [hg] at hg₂
    cases hg₂
    rfl
  refine ⟨hwf, g, hg, ?_, j₁, hj₁, j₂, hj₂, hne, hn₁, hc₁, hn₂, hp₂, hc₂, htr, hph⟩
  rw [hgeq]
  decide!

/-! ## Exporter facts -/

theorem checkNode_resolves {pipelines names : List String} {n : NodeSpec}
    (h : checkNode pipelines names n = true) : ∀ p ∈ n.dependsOn, p ∈ names := by
  unfold checkNode at h
  simp only [Bool.and_eq_true, List.all_eq_true, List.elem_eq_mem, decide_eq_true_eq] at h
  exact h.1.1.2

theorem checkNode_mono {pipelines names names₂ : List String} {n : NodeSpec}
    (hsub : ∀ p ∈ names, p ∈ names₂) (h : checkNode pipelines names n = true) :
    checkNode pipelines names₂ n = true := by
  unfold checkNode at h ⊢
  simp only [Bool.and_eq_true, List.all_eq_true, List.elem_eq_mem, decide_eq_true_eq] at h ⊢
  exact ⟨⟨⟨h.1.1.1, fun p hp => hsub p (h.1.1.2 p hp)⟩, h.1.2⟩, h.2⟩

/-- The declaration re-emitted for a Join: the declaring node without pipeline, parameters
and payload, which a Join does not carry. -/
theorem exportJoin_toJoin {specs : List NodeSpec} {s : NodeSpec} {j : Join}
    (h : toJoin specs s = some j) :
    exportJoin j = { s with pipeline := none, parameters := [], payload := [] } := by
  obtain ⟨-, rfl⟩ := toJoin_eq_some.1 h
  rfl

theorem predecessorOf_assemble (doc : Document) {specs : List NodeSpec}
    (hnd : (specs.map (fun n => n.name)).Nodup)
    (hres : ∀ s ∈ specs, ∀ p ∈ s.dependsOn, p ∈ specs.map (fun n => n.name))
    {s : NodeSpec} (hs : s ∈ specs) {p : String} (hd : s.dependsOn = [p]) :
    predecessorOf (assemble doc specs) s.name = some p := by
  have hkey : ∀ e, s.name ∈ childrenOf specs e → e = p := by
    intro e hx
    obtain ⟨t, ht, htd, htn⟩ := mem_childrenOf.1 hx
    have : t = s := eq_of_name_eq hnd ht hs htn
    subst this
    rw [hd] at htd
    simpa using htd.symm
  have hp : p ∈ specs.map (fun n => n.name) := hres s hs p (by simp [hd])
  obtain ⟨t, ht, htn⟩ := List.mem_map.1 hp
  have hchild : s.name ∈ childrenOf specs t.name :=
    mem_childrenOf.2 ⟨s, hs, by rw [hd, htn], rfl⟩
  unfold predecessorOf
  split
  · rename_i n hfind
    have hn := List.mem_of_find?_eq_some hfind
    have hc := List.find?_some hfind
    obtain ⟨u, -, -, rfl⟩ := mem_nodes_assemble.1 hn
    simp only [List.elem_eq_mem, decide_eq_true_eq] at hc
    rw [hkey _ hc]
  · rename_i hnone
    split
    · rename_i j hfind
      have hj := List.mem_of_find?_eq_some hfind
      have hc := List.find?_some hfind
      obtain ⟨u, -, -, rfl⟩ := mem_joins_assemble.1 hj
      simp only [List.elem_eq_mem, decide_eq_true_eq] at hc
      rw [hkey _ hc]
    · rename_i hnone₂
      exfalso
      by_cases hlen : 1 < t.dependsOn.length
      · have := List.find?_eq_none.1 hnone₂ _ (mem_joins_assemble.2 ⟨t, ht, hlen, rfl⟩)
        simp only [List.elem_eq_mem, decide_eq_true_eq] at this
        exact this hchild
      · have := List.find?_eq_none.1 hnone _
          (mem_nodes_assemble.2 ⟨t, ht, by omega, rfl⟩)
        simp only [List.elem_eq_mem, decide_eq_true_eq] at this
        exact this hchild

theorem exportNodes_assemble (doc : Document) {specs : List NodeSpec}
    (hnd : (specs.map (fun n => n.name)).Nodup)
    (hres : ∀ s ∈ specs, ∀ p ∈ s.dependsOn, p ∈ specs.map (fun n => n.name))
    (l : List NodeSpec) (hl : ∀ s ∈ l, s ∈ specs) :
    exportNodes (assemble doc specs) (l.filterMap (toGraphNode specs)) =
      .ok (l.filter (fun s => decide (s.dependsOn.length ≤ 1))) := by
  induction l with
  | nil => rfl
  | cons a l ih =>
    have iha := ih (fun s hs => hl s (List.mem_cons_of_mem _ hs))
    have ha : a ∈ specs := hl a (List.mem_cons_self _ _)
    obtain ⟨name, dependsOn, pipeline, parameters, payload, condition⟩ := a
    match dependsOn with
    | [] =>
      simp [List.filterMap_cons, toGraphNode, exportNodes, exportNode, iha, List.filter_cons]
    | [p] =>
      have hpred := predecessorOf_assemble doc hnd hres ha rfl
      simp only at hpred
      simp [List.filterMap_cons, toGraphNode, exportNodes, exportNode, iha, List.filter_cons,
        hpred]
    | p :: q :: rest =>
      simp [List.filterMap_cons, toGraphNode, iha, List.filter_cons]

theorem map_exportJoin (specs l : List NodeSpec) :
    (l.filterMap (toJoin specs)).map exportJoin =
      (l.filter (fun s => decide (1 < s.dependsOn.length))).map strip := by
  induction l with
  | nil => rfl
  | cons a l ih =>
    by_cases hlen : 1 < a.dependsOn.length
    · have hj := (@toJoin_eq_some specs a _).2 ⟨hlen, rfl⟩
      simp [List.filterMap_cons, hj, List.filter_cons, hlen, ih, exportJoin, strip]
    · have hj : toJoin specs a = none := by
        cases hq : toJoin specs a with
        | none => rfl
        | some j => exact absurd (toJoin_eq_some.1 hq).1 hlen
      simp [List.filterMap_cons, hj, List.filter_cons, hlen, ih]

theorem exportGraph_assemble {doc : Document} {specs : List NodeSpec}
    (hnd : (specs.map (fun n => n.name)).Nodup)
    (hres : ∀ s ∈ specs, ∀ p ∈ s.dependsOn, p ∈ specs.map (fun n => n.name)) :
    exportGraph (assemble doc specs) = .ok
      { name := doc.name, version := doc.version, workflow := exported specs,
        defaultTags := doc.defaultTags, permissions := none } := by
  have h := exportNodes_assemble doc hnd hres specs (fun _ hs => hs)
  unfold exportGraph
  have hn : (assemble doc specs).nodes = specs.filterMap (toGraphNode specs) := rfl
  rw [hn, h]
  simp only [exported, ← map_exportJoin specs specs]
  rfl

theorem childrenOf_exported (specs : List NodeSpec) (x : String) :
    childrenOf (exported specs) x = childrenOf specs x := by
  unfold childrenOf exported
  rw [List.filter_append, List.map_append, List.filter_filter]
  have h₁ : List.filter (fun s => s.dependsOn == [x])
      ((specs.filter (fun s => decide (1 < s.dependsOn.length))).map strip) = [] := by
    rw [List.filter_eq_nil_iff]
    intro a ha
    obtain ⟨s, hs, rfl⟩ := List.mem_map.1 ha
    have hlen := (List.mem_filter.1 hs).2
    simp only [decide_eq_true_eq] at hlen
    simp only [strip, beq_iff_eq]
    intro hd
    rw [hd] at hlen
    simp at hlen
  have h₂ : List.filter (fun a => (a.dependsOn == [x]) && decide (a.dependsOn.length ≤ 1)) specs
      = List.filter (fun s => s.dependsOn == [x]) specs := by
    apply List.filter_congr
    intro a _
    by_cases hd : a.dependsOn = [x]
    · simp [hd]
    · simp [hd]
  rw [h₁, h₂]
  simp

theorem toGraphNode_congr {A B : List NodeSpec} (h : ∀ x, childrenOf A x = childrenOf B x)
    (s : NodeSpec) : toGraphNode A s = toGraphNode B s := by
  unfold toGraphNode
  simp only [h]

theorem toJoin_congr {A B : List NodeSpec} (h : ∀ x, childrenOf A x = childrenOf B x)
    (s : NodeSpec) : toJoin A s = toJoin B s := by
  unfold toJoin
  simp only [h]

theorem filterMap_filter_of_none {α β : Type} (f : α → Option β) (p : α → Bool)
    (h : ∀ a, p a = false → f a = none) (l : List α) :
    (l.filter p).filterMap f = l.filterMap f := by
  induction l with
  | nil => rfl
  | cons a l ih =>
    cases hp : p a with
    | true => simp [List.filter_cons, hp, List.filterMap_cons, ih]
    | false => simp [List.filter_cons, hp, List.filterMap_cons, ih, h a hp]

theorem filterMap_eq_nil_of_none {α β : Type} (f : α → Option β) (l : List α)
    (h : ∀ a ∈ l, f a = none) : l.filterMap f = [] := by
  induction l with
  | nil => rfl
  | cons a l ih =>
    simp [List.filterMap_cons, h a (List.mem_cons_self _ _),
      ih (fun b hb => h b (List.mem_cons_of_mem _ hb))]

theorem toGraphNode_none_of_lt {specs : List NodeSpec} {s : NodeSpec}
    (h : 1 < s.dependsOn.length) : toGraphNode specs s = none := by
  cases hq : toGraphNode specs s with
  | none => rfl
  | some n => have := (toGraphNode_eq_some.1 hq).1; omega

theorem toJoin_none_of_le {specs : List NodeSpec} {s : NodeSpec}
    (h : s.dependsOn.length ≤ 1) : toJoin specs s = none := by
  cases hq : toJoin specs s with
  | none => rfl
  | some n => have := (toJoin_eq_some.1 hq).1; omega

theorem toJoin_strip (specs : List NodeSpec) (s : NodeSpec) :
    toJoin specs (strip s) = toJoin specs s := rfl

theorem assemble_exported (doc doc₂ : Document) (specs : List NodeSpec)
    (hname : doc₂.name = doc.name) (hver : doc₂.version = doc.version)
    (htags : doc₂.defaultTags = doc.defaultTags) :
    assemble doc₂ (exported specs) = assemble doc specs := by
  have hch := childrenOf_exported specs
  have hroots : (List.filter (fun s => s.dependsOn.isEmpty) (exported specs)).map
      (fun s => s.name) = (List.filter (fun s => s.dependsOn.isEmpty) specs).map
      (fun s => s.name) := by
    unfold exported
    rw [List.filter_append, List.filter_filter]
    have h₁ : List.filter (fun s => s.dependsOn.isEmpty)
        ((specs.filter (fun s => decide (1 < s.dependsOn.length))).map strip) = [] := by
      rw [List.filter_eq_nil_iff]
      intro a ha
      obtain ⟨s, hs, rfl⟩ := List.mem_map.1 ha
      have hlen := (List.mem_filter.1 hs).2
      simp only [decide_eq_true_eq] at hlen
      simp only [strip, List.isEmpty_eq_true]
      intro hd
      rw [hd] at hlen
      simp at hlen
    have h₂ : List.filter (fun a => a.dependsOn.isEmpty && decide (a.dependsOn.length ≤ 1)) specs
        = List.filter (fun s => s.dependsOn.isEmpty) specs := by
      apply List.filter_congr
      intro a _
      cases hd : a.dependsOn <;> simp
    rw [h₁, h₂]
    simp
  have hnodes : (exported specs).filterMap (toGraphNode (exported specs)) =
      specs.filterMap (toGraphNode specs) := by
    rw [show toGraphNode (exported specs) = toGraphNode specs from
      funext (toGraphNode_congr hch)]
    unfold exported
    have h₁ : List.filterMap (toGraphNode specs)
        (specs.filter (fun s => decide (s.dependsOn.length ≤ 1))) =
        specs.filterMap (toGraphNode specs) := by
      apply filterMap_filter_of_none
      intro a ha
      simp only [decide_eq_false_iff_not, not_le] at ha
      exact toGraphNode_none_of_lt ha
    have h₂ : List.filterMap (toGraphNode specs)
        ((specs.filter (fun s => decide (1 < s.dependsOn.length))).map strip) = [] := by
      apply filterMap_eq_nil_of_none
      intro a ha
      obtain ⟨s, hs, rfl⟩ := List.mem_map.1 ha
      have hlen := (List.mem_filter.1 hs).2
      simp only [decide_eq_true_eq] at hlen
      exact toGraphNode_none_of_lt (by simpa [strip] using hlen)
    rw [List.filterMap_append, h₁, h₂, List.append_nil]
  have hjoins : (exported specs).filterMap (toJoin (exported specs)) =
      specs.filterMap (toJoin specs) := by
    rw [show toJoin (exported specs) = toJoin specs from funext (toJoin_congr hch)]
    unfold exported
    have h₁ : List.filterMap (toJoin specs)
        (specs.filter (fun s => decide (s.dependsOn.length ≤ 1))) = [] := by
      apply filterMap_eq_nil_of_none
      intro a ha
      have hlen := (List.mem_filter.1 ha).2
      simp only [decide_eq_true_eq] at hlen
      exact toJoin_none_of_le hlen
    have h₂ : List.filterMap (toJoin specs)
        ((specs.filter (fun s => decide (1 < s.dependsOn.length))).map strip) =
        specs.filterMap (toJoin specs) := by
      rw [List.filterMap_map,
        show (toJoin specs ∘ strip) = toJoin specs from funext (toJoin_strip specs)]
      apply filterMap_filter_of_none
      intro a ha
      simp only [decide_eq_false_iff_not, not_lt] at ha
      exact toJoin_none_of_le ha
    rw [List.filterMap_append, h₁, h₂, List.nil_append]
  unfold assemble
  rw [hroots, hnodes, hjoins, hname, hver, htags]

theorem names_exported_perm (specs : List NodeSpec) :
    ((exported specs).map (fun n => n.name)).Perm (specs.map (fun n => n.name)) := by
  have h : (exported specs).map (fun n => n.name) =
      (specs.filter (fun s => decide (s.dependsOn.length ≤ 1)) ++
        specs.filter (fun s => !decide (s.dependsOn.length ≤ 1))).map (fun n => n.name) := by
    unfold exported
    rw [List.map_append, List.map_append, List.map_map]
    congr 1
    have : (fun s : NodeSpec => decide (1 < s.dependsOn.length)) =
        (fun s => !decide (s.dependsOn.length ≤ 1)) := by
      funext s
      by_cases hs : s.dependsOn.length ≤ 1 <;> simp [hs]
      omega
    rw [this]
    rfl
  rw [h]
  exact (List.filter_append_perm _ specs).map _

theorem parse_exported {pipelines : List String} {doc : Document} (doc₂ : Document)
    (hp : parse pipelines doc = .ok doc.workflow)
    (hw : doc₂.workflow = exported doc.workflow) (hperm : doc₂.permissions = none) :
    parse pipelines doc₂ = .ok doc₂.workflow := by
  obtain ⟨-, hnd, hchk⟩ := parse_ok hp
  have hpermn := names_exported_perm doc.workflow
  have hnd₂ : ((exported doc.workflow).map (fun n => n.name)).Nodup := hpermn.nodup_iff.2 hnd
  have hchk₂ : ∀ n ∈ exported doc.workflow,
      checkNode pipelines ((exported doc.workflow).map (fun n => n.name)) n = true := by
    intro n hn
    unfold exported at hn
    rcases List.mem_append.1 hn with hn | hn
    · exact checkNode_mono (fun p hp => hpermn.mem_iff.2 hp) (hchk n (List.mem_filter.1 hn).1)
    · obtain ⟨s, hs, rfl⟩ := List.mem_map.1 hn
      have := checkNode_mono (fun p hp => hpermn.mem_iff.2 hp) (hchk s (List.mem_filter.1 hs).1)
      have hd := checkNode_resolves this
      unfold checkNode
      simp only [strip, hasDuplicate, List.map_nil, Bool.and_eq_true, List.all_eq_true,
        List.elem_eq_mem, decide_eq_true_eq, Bool.not_false, and_true, true_and]
      exact hd
  unfold parse
  simp only [hw]
  have hfind : List.find? (fun n => !checkNode pipelines
      ((exported doc.workflow).map (fun n => n.name)) n) (exported doc.workflow) = none := by
    rw [List.find?_eq_none]
    intro n hn
    simp [hchk₂ n hn]
  rw [hfind]
  have hdup := (hasDuplicate_eq_false_iff _).2 hnd₂
  simp [hdup, permissionKeys, hperm, hasDuplicate]

/-- C4 (round-trip law): for every well-formed flat input the import builds a graph, the
exporter turns that graph back into a flat document, and parsing and rebuilding that document
succeeds and gives the very same graph (nodes, trigger lists, Join parent lists and
conditions, payload, parameters and metadata). -/
theorem round_trip (pipelines : List String) (doc : Document)
    (hwf : wellFormed pipelines doc = true) :
    ∃ g doc₂, buildGraph pipelines doc = .ok g ∧ exportGraph g = .ok doc₂ ∧
      buildGraph pipelines doc₂ = .ok g := by
  have h := wellFormed_iff.1 hwf
  obtain ⟨hp, -, hreach⟩ := buildGraph_ok h
  obtain ⟨-, hnd, hchk⟩ := parse_ok hp
  have hres : ∀ s ∈ doc.workflow, ∀ p ∈ s.dependsOn, p ∈ doc.workflow.map (fun n => n.name) :=
    fun s hs => checkNode_resolves (hchk s hs)
  refine ⟨_, _, h, exportGraph_assemble hnd hres, ?_⟩
  have hp₂ := parse_exported
    { name := doc.name, version := doc.version, workflow := exported doc.workflow,
      defaultTags := doc.defaultTags, permissions := none } hp rfl rfl
  have hasm := assemble_exported doc
    { name := doc.name, version := doc.version, workflow := exported doc.workflow,
      defaultTags := doc.defaultTags, permissions := none } doc.workflow rfl rfl rfl
  unfold buildGraph
  rw [hp₂]
  unfold build
  simp only [hasm, hreach, if_true]

/-- Witness for C4: the workflow `root` -> `child` of `Test_getWorkflowPushHandler` is well
formed, its export is the same two declarations, and pushing the export back is accepted and
yields the stored graph. -/
theorem round_trip_witness :
    wellFormed ["pip1"] docRootChild = true ∧
    ∃ g doc₂, buildGraph ["pip1"] docRootChild = .ok g ∧ exportGraph g = .ok doc₂ ∧
      buildGraph ["pip1"] doc₂ = .ok g ∧
      g.nodes.map (fun n => (n.name, n.triggers)) = [("root", ["child"]), ("child", [])] ∧
      doc₂.workflow = docRootChild.workflow := by
  have hwf : wellFormed ["pip1"] docRootChild = true := by decide!
  obtain ⟨g, doc₂, hg, he, hb⟩ := round_trip ["pip1"] docRootChild hwf
  have hgeq : g = assemble docRootChild docRootChild.workflow := by
    have := wellFormed_iff.1 hwf
    rw [hg] at this
    cases this
    rfl
  refine ⟨hwf, g, doc₂, hg, he, hb, ?_, ?_⟩
  · rw [hgeq]
    decide!
  · subst hgeq
    have he₂ : exportGraph (assemble docRootChild docRootChild.workflow) = .ok docRootChild := by
      decide!
    rw [he₂] at he
    cases he
    rfl

/-! ## Import and permission facts -/

theorem loadGraph_replaceGraph (st : Store) (g : WorkflowGraph) :
    loadGraph (replaceGraph st g) g.name = some g := by
  simp [loadGraph, replaceGraph]

theorem name_of_mem_replaceGraph {st : Store} {g w : WorkflowGraph}
    (hw : w ∈ (replaceGraph st g).workflows) (hname : w.name = g.name) : w = g := by
  simp only [replaceGraph, List.mem_cons, List.mem_filter, Bool.not_eq_true',
    beq_eq_false_iff_ne, ne_eq] at hw
  rcases hw with hw | ⟨-, hw⟩
  · exact hw
  · exact absurd hname hw

theorem importWorkflow_ok {proj : Project} {st st₂ : Store} {doc : Document}
    (h : importWorkflow proj st doc = .ok st₂) :
    ∃ g acl previous, buildGraph proj.pipelines doc = .ok g ∧ g.name = doc.name ∧
      resolvePermissions st.groups proj.groups doc.permissions previous = .ok acl ∧
      st₂ = replaceGraph st { g with acl := acl } := by
  unfold importWorkflow at h
  split at h
  · cases h
  · rename_i g hg
    simp only at h
    split at h
    · cases h
    · rename_i acl hacl
      cases h
      obtain ⟨-, hgeq, -⟩ := buildGraph_ok hg
      exact ⟨g, acl, _, hg, by rw [hgeq]; rfl, hacl, rfl⟩

/-- C5 (permission reset): when an import without permissions block succeeds, the workflow
stored under the document name carries exactly the project default group list, whatever the
store held before: no other graph of that name and nothing of the previous ACL is left. -/
theorem permission_reset (proj : Project) (st st₂ : Store) (doc : Document)
    (h : importWorkflow proj st doc = .ok st₂) (hnone : doc.permissions = none) :
    (∃ w, loadGraph st₂ doc.name = some w ∧ w.acl = proj.groups) ∧
    ∀ w ∈ st₂.workflows, w.name = doc.name → w.acl = proj.groups := by
  obtain ⟨g, acl, previous, -, hname, hacl, rfl⟩ := importWorkflow_ok h
  rw [hnone] at hacl
  simp only [resolvePermissions] at hacl
  cases hacl
  refine ⟨⟨{ g with acl := proj.groups }, ?_, rfl⟩, ?_⟩
  · rw [← hname]
    exact loadGraph_replaceGraph st { g with acl := proj.groups }
  · intro w hw hwn
    rw [name_of_mem_replaceGraph hw (hwn.trans hname.symm)]

/-- Witness for C5: after the explicit-permission import of the test left two entries,
importing the body without permissions block gives back the three project groups at
ReadWriteExecute, ReadExecute, ReadExecute. -/
theorem permission_reset_witness :
    (loadGraph permStoreExplicit "test_1").map (fun w => w.acl.length) = some 2 ∧
    ∃ st₂, importWorkflow permProject permStoreExplicit docNoPermissions = .ok st₂ ∧
      ∃ w, loadGraph st₂ "test_1" = some w ∧
        w.acl = [ { group := "a-owner", permission := PermissionReadWriteExecute },
                  { group := "b-g1", permission := PermissionReadExecute },
                  { group := "c-g2", permission := PermissionReadExecute } ] := by
  have h : importWorkflow permProject permStoreExplicit docNoPermissions = .ok permStoreInherited := by
    decide!
  exact ⟨by decide!, _, h,
    (permission_reset permProject permStoreExplicit _ docNoPermissions h rfl).1⟩

/-- C6 (explicit permissions verbatim): when an import whose document carries a permissions
block `E` succeeds, the stored ACL is `E` entry for entry: exactly the groups named in `E`,
each at the level written in `E`, at most one entry per group, and no entry for a project
default group that `E` does not name. -/
theorem explicit_permissions_verbatim (proj : Project) (st st₂ : Store) (doc : Document)
    (E : List (String × Nat))
    (h : importWorkflow proj st doc = .ok st₂) (hE : doc.permissions = some E) :
    ∃ w, loadGraph st₂ doc.name = some w ∧
      w.acl = E.map (fun e => { group := e.1, permission := e.2 }) ∧
      (w.acl.map (fun e => e.group)).Nodup ∧
      (∀ e ∈ w.acl, (e.group, e.permission) ∈ E) ∧
      (∀ d ∈ proj.groups, d.group ∉ E.map Prod.fst → ∀ e ∈ w.acl, e.group ≠ d.group) := by
  obtain ⟨g, acl, previous, hg, hname, hacl, rfl⟩ := importWorkflow_ok h
  obtain ⟨hp, -, -⟩ := buildGraph_ok hg
  have hkeys : (E.map Prod.fst).Nodup := by
    unfold parse at hp
    simp only at hp
    split at hp
    · cases hp
    · split at hp
      · cases hp
      · rename_i hdup
        simp only [Bool.or_eq_true, not_or, Bool.not_eq_true, permissionKeys, hE] at hdup
        exact (hasDuplicate_eq_false_iff _).1 hdup.2
  rw [hE] at hacl
  simp only [resolvePermissions] at hacl
  split at hacl
  · cases hacl
  · split at hacl
    · cases hacl
    · cases hacl
      refine ⟨{ g with acl := E.map (fun e => { group := e.1, permission := e.2 }) },
        ?_, rfl, ?_, ?_, ?_⟩
      · rw [← hname]
        exact loadGraph_replaceGraph st
          { g with acl := E.map (fun e => { group := e.1, permission := e.2 }) }
      · simpa [List.map_map, Function.comp_def] using hkeys
      · intro e he
        simp only [List.mem_map] at he
        obtain ⟨x, hx, rfl⟩ := he
        exact hx
      · intro d _ hd e he heq
        simp only [List.mem_map] at he
        obtain ⟨x, hx, rfl⟩ := he
        exact hd (List.mem_map.2 ⟨x, hx, heq⟩)

/-- Witness for C6: project groups owner 7, g1 5, g2 5 and the block owner 7, g2 4 give the
ACL owner ReadWriteExecute, g2 Read, of length 2, with no entry for g1. -/
theorem explicit_permissions_verbatim_witness :
    ∃ st₂, importWorkflow permProject permStoreInherited docExplicitPermissions = .ok st₂ ∧
      ∃ w, loadGraph st₂ "test_1" = some w ∧
        w.acl = [ { group := "a-owner", permission := PermissionReadWriteExecute },
                  { group := "c-g2", permission := PermissionRead } ] ∧
        w.acl.length = 2 ∧ ∀ e ∈ w.acl, e.group ≠ "b-g1" := by
  have h : importWorkflow permProject permStoreInherited docExplicitPermissions
      = .ok permStoreExplicit := by decide!
  obtain ⟨w, hw, hacl, -, -, hdef⟩ :=
    explicit_permissions_verbatim permProject permStoreInherited _ docExplicitPermissions
      [("a-owner", 7), ("c-g2", 4)] h rfl
  refine ⟨_, h, w, hw, hacl, by rw [hacl]; rfl, ?_⟩
  exact hdef { group := "b-g1", permission := PermissionReadExecute } (by decide!) (by decide!)

/-- C7 (root and linear classification): in every accepted document a declaration without
predecessor becomes a Root of the graph, and a declaration with exactly one predecessor `p`
becomes a Linear GraphNode that occurs exactly once in the trigger list of the entity named
`p`, in no other trigger list, and yields no Join; pipeline reference and parameters of both
kinds of node, and the default tags of the document, are stored verbatim. -/
theorem root_and_linear_classification (pipelines : List String) (doc : Document)
    (g : WorkflowGraph) (h : buildGraph pipelines doc = .ok g) :
    (∀ n ∈ doc.workflow, n.dependsOn = [] →
      n.name ∈ g.roots ∧
      ∃ r ∈ g.nodes, r.name = n.name ∧ r.kind = .Root ∧ r.pipeline = n.pipeline ∧
        r.parameters = n.parameters) ∧
    (∀ n ∈ doc.workflow, ∀ p, n.dependsOn = [p] →
      ((∃ x ∈ g.nodes, x.name = p ∧ x.triggers.count n.name = 1) ∨
        (∃ j ∈ g.joins, j.name = p ∧ j.triggers.count n.name = 1)) ∧
      (∀ x ∈ g.nodes, n.name ∈ x.triggers → x.name = p) ∧
      (∀ j ∈ g.joins, n.name ∈ j.triggers → j.name = p) ∧
      (∀ j ∈ g.joins, j.name ≠ n.name) ∧
      ∃ c ∈ g.nodes, c.name = n.name ∧ c.kind = .Linear ∧ c.pipeline = n.pipeline ∧
        c.parameters = n.parameters) ∧
    g.defaultTags = doc.defaultTags := by
  obtain ⟨hp, hg, -⟩ := buildGraph_ok h
  obtain ⟨-, hnd, hchk⟩ := parse_ok hp
  subst hg
  refine ⟨?_, ?_, rfl⟩
  · intro n hn hd
    refine ⟨mem_roots_assemble.2 ⟨n, hn, hd, rfl⟩,
      _, mem_nodes_assemble.2 ⟨n, hn, by simp [hd], rfl⟩, rfl, by simp [hd], rfl, rfl⟩
  · intro n hn p hd
    have hkey : ∀ e, n.name ∈ childrenOf doc.workflow e → e = p := by
      intro e hx
      obtain ⟨t, ht, htd, htn⟩ := mem_childrenOf.1 hx
      have : t = n := eq_of_name_eq hnd ht hn htn
      subst this
      rw [hd] at htd
      simpa using htd.symm
    have hcount : (childrenOf doc.workflow p).count n.name = 1 := by
      have hmem : n.name ∈ childrenOf doc.workflow p := mem_childrenOf.2 ⟨n, hn, hd, rfl⟩
      have hnodup : (childrenOf doc.workflow p).Nodup :=
        List.Nodup.sublist (List.Sublist.map _ (List.filter_sublist _)) hnd
      exact List.count_eq_one_of_mem hnodup hmem
    have hpn : p ∈ doc.workflow.map (fun n => n.name) :=
      checkNode_resolves (hchk n hn) p (by simp [hd])
    obtain ⟨t, ht, htn⟩ := List.mem_map.1 hpn
    refine ⟨?_, ?_, ?_, ?_, ?_⟩
    · by_cases hlen : 1 < t.dependsOn.length
      · right
        exact ⟨_, mem_joins_assemble.2 ⟨t, ht, hlen, rfl⟩, htn, by simpa [htn] using hcount⟩
      · left
        exact ⟨_, mem_nodes_assemble.2 ⟨t, ht, by omega, rfl⟩, htn,
          by simpa [htn] using hcount⟩
    · intro x hx hmem
      obtain ⟨s, -, -, rfl⟩ := mem_nodes_assemble.1 hx
      exact hkey _ hmem
    · intro j hj hmem
      obtain ⟨s, -, -, rfl⟩ := mem_joins_assemble.1 hj
      exact hkey _ hmem
    · intro j hj hname
      obtain ⟨s, hs, hsl, rfl⟩ := mem_joins_assemble.1 hj
      have : s = n := eq_of_name_eq hnd hs hn hname
      subst this
      simp [hd] at hsl
    · exact ⟨_, mem_nodes_assemble.2 ⟨n, hn, by simp [hd], rfl⟩, rfl, by simp [hd], rfl, rfl⟩

/-- Witness for C7: the document of `Test_postWorkflowImportHandler` gives the root node
`pip1` with parameter 0 = (name, value), whose trigger 0 is the child `pip1_2`, no Join, and
the default tags `git.branch,git.author,git.hash`. -/
theorem root_and_linear_classification_witness :
    ∃ g, buildGraph ["pip1"] docPostImport = .ok g ∧
      g.roots = ["pip1"] ∧
      (∃ r ∈ g.nodes, r.name = "pip1" ∧ r.kind = .Root ∧ r.pipeline = some "pip1" ∧
        r.parameters = [("name", "value")]) ∧
      (g.nodes.map (fun n => (n.name, n.triggers))) = [("pip1", ["pip1_2"]), ("pip1_2", [])] ∧
      g.joins = [] ∧
      g.defaultTags = "git.branch,git.author,git.hash" := by
  have h : buildGraph ["pip1"] docPostImport
      = .ok (assemble docPostImport docPostImport.workflow) := by decide!
  have key := root_and_linear_classification _ _ _ h
  refine ⟨_, h, by decide!, ?_, by decide!, by decide!, key.2.2⟩
  exact (key.1 pip1Node (by decide!) rfl).2

/-! ## Variable facts -/

open application

theorem find?_eq_some_of_unique {α : Type} {l : List α} {p : α → Bool} {a : α}
    (ha : a ∈ l) (hpa : p a = true) (huniq : ∀ x ∈ l, p x = true → x = a) :
    l.find? p = some a := by
  cases hf : l.find? p with
  | none => exact absurd hpa (by simpa using List.find?_eq_none.1 hf a ha)
  | some x =>
    rw [huniq x (List.mem_of_find?_eq_some hf) (List.find?_some hf)]

/-- The row written for `v` under the ID `id`. -/
theorem masked_row (c : Cipher) (id appID : Nat) (v : Variable) :
    masked (rowOf c id appID v) =
      { id := id, name := v.name, type := v.type,
        value := if v.type = SecretVariable then PasswordPlaceholder else v.value } := by
  unfold masked rowOf toStored
  by_cases hs : v.type = SecretVariable <;> simp [hs]

theorem decrypted_row (c : Cipher) (hc : ∀ s, c.decrypt (c.encrypt s) = s) (id appID : Nat)
    (v : Variable) :
    decrypted c (rowOf c id appID v) = withID v id := by
  unfold decrypted rowOf toStored withID
  by_cases hs : v.type = SecretVariable <;> simp [hs, hc]

theorem masked_secret (r : StoredVariable) (h : (masked r).type = SecretVariable) :
    (masked r).value = PasswordPlaceholder := by
  unfold masked at h ⊢
  simp only at h
  simp [h]

theorem rowOf_applicationID (c : Cipher) (id appID : Nat) (v : Variable) :
    (rowOf c id appID v).applicationID = appID := rfl

theorem rowOf_name (c : Cipher) (id appID : Nat) (v : Variable) :
    (rowOf c id appID v).name = v.name := rfl

theorem rowOf_id (c : Cipher) (id appID : Nat) (v : Variable) :
    (rowOf c id appID v).id = id := rfl

/-- A stored row of the application is listed by both loads, masked without decryption and
clear with it. -/
theorem mem_loads (c : Cipher) (db : VariableDB) (row : StoredVariable) (appID : Nat)
    (hmem : row ∈ db.rows) (happ : row.applicationID = appID) :
    masked row ∈ LoadVariables db appID ∧
    decrypted c row ∈ LoadVariablesWithDecrytion c db appID := by
  have hfilter : row ∈ db.rows.filter (fun r => r.applicationID == appID) :=
    List.mem_filter.2 ⟨hmem, by simp [happ]⟩
  exact ⟨List.mem_map.2 ⟨row, hfilter, rfl⟩, List.mem_map.2 ⟨row, hfilter, rfl⟩⟩

/-- A row that is the only one of its name in its application is what every load of that
application returns for the name, masked without decryption and clear with it. -/
theorem loads_of_unique (c : Cipher) (db : VariableDB) (row : StoredVariable) (appID : Nat)
    (hmem : row ∈ db.rows) (happ : row.applicationID = appID)
    (huniq : ∀ x ∈ db.rows, x.applicationID = appID → x.name = row.name → x = row) :
    (∀ x ∈ LoadVariables db appID, x.name = row.name → x = masked row) ∧
    LoadVariable db appID row.name = some (masked row) ∧
    (∀ x ∈ LoadVariablesWithDecrytion c db appID, x.name = row.name → x = decrypted c row) ∧
    LoadVariableWithDecryption c db appID row.id row.name = some (decrypted c row) := by
  refine ⟨?_, ?_, ?_, ?_⟩
  · intro x hx hname
    obtain ⟨r, hr, rfl⟩ := List.mem_map.1 hx
    obtain ⟨hr₁, hr₂⟩ := List.mem_filter.1 hr
    rw [huniq r hr₁ (by simpa using hr₂) hname]
  · unfold LoadVariable
    rw [find?_eq_some_of_unique hmem (by simp [happ])]
    · rfl
    · intro x hx hp
      simp only [Bool.and_eq_true, beq_iff_eq] at hp
      exact huniq x hx hp.1 hp.2
  · intro x hx hname
    obtain ⟨r, hr, rfl⟩ := List.mem_map.1 hx
    obtain ⟨hr₁, hr₂⟩ := List.mem_filter.1 hr
    rw [huniq r hr₁ (by simpa using hr₂) hname]
  · unfold LoadVariableWithDecryption
    rw [find?_eq_some_of_unique hmem (by simp [happ])]
    · rfl
    · intro x hx hp
      simp only [Bool.and_eq_true, beq_iff_eq] at hp
      exact huniq x hx hp.1.1 hp.2

theorem insert_mem (c : Cipher) (db : VariableDB) (appID : Nat) (v : Variable) :
    rowOf c db.nextID appID v ∈ (InsertVariable c db appID v).1.rows := by
  simp [InsertVariable]

theorem insert_unique (c : Cipher) (db : VariableDB) (appID : Nat) (v : Variable)
    (hfresh : ∀ r ∈ db.rows, r.applicationID = appID → r.name ≠ v.name) :
    ∀ x ∈ (InsertVariable c db appID v).1.rows, x.applicationID = appID →
      x.name = (rowOf c db.nextID appID v).name → x = rowOf c db.nextID appID v := by
  intro x hx happ hname
  simp only [InsertVariable, List.mem_append, List.mem_singleton] at hx
  rcases hx with hx | hx
  · exact absurd hname (hfresh x hx happ)
  · exact hx

theorem update_mem (c : Cipher) (db : VariableDB) (appID : Nat) (v : Variable) :
    rowOf c db.nextID appID v ∈
      (UpdateVariable c (InsertVariable c db appID v).1 appID
        (withID v db.nextID) (withID v db.nextID)).1.rows := by
  have hsame : rowOf c (withID v db.nextID).id appID (withID v db.nextID) =
      rowOf c db.nextID appID v := rfl
  simp only [UpdateVariable, InsertVariable, hsame]
  refine List.mem_map.2 ⟨rowOf c db.nextID appID v, by simp, ?_⟩
  simp [rowOf_applicationID, rowOf_id, withID]

theorem update_unique (c : Cipher) (db : VariableDB) (appID : Nat) (v : Variable)
    (hfresh : ∀ r ∈ db.rows, r.applicationID = appID → r.name ≠ v.name) :
    ∀ x ∈ (UpdateVariable c (InsertVariable c db appID v).1 appID
        (withID v db.nextID) (withID v db.nextID)).1.rows, x.applicationID = appID →
      x.name = (rowOf c db.nextID appID v).name → x = rowOf c db.nextID appID v := by
  have hsame : rowOf c (withID v db.nextID).id appID (withID v db.nextID) =
      rowOf c db.nextID appID v := rfl
  simp only [UpdateVariable, InsertVariable, hsame]
  intro x hx happ hname
  obtain ⟨r, hr, rfl⟩ := List.mem_map.1 hx
  split at happ
  · rename_i hcond
    simp only [hcond, if_true]
  · rename_i hcond
    simp only [hcond] at hname ⊢
    simp only [Bool.false_eq_true, if_false] at hname ⊢
    rcases List.mem_append.1 hr with hr | hr
    · exact absurd hname (hfresh r hr happ)
    · simpa using hr

/-- C9 (secret masking on the default path): after `InsertVariable` the in-memory variable
carries the placeholder when its type is the secret type and the inserted value otherwise,
and so does the entry that `LoadVariables` lists for it; on any table whatever no call
without decryption returns a secret-typed variable with anything but the placeholder; and
when the name is new to the application, `LoadVariable` by that name returns the same masked
variable. -/
theorem secret_masking (c : Cipher) (db : VariableDB) (appID : Nat) (v : Variable) :
    (InsertVariable c db appID v).2 =
      { id := db.nextID, name := v.name, type := v.type,
        value := if v.type = SecretVariable then PasswordPlaceholder else v.value } ∧
    (InsertVariable c db appID v).2 ∈ LoadVariables (InsertVariable c db appID v).1 appID ∧
    (∀ (db₂ : VariableDB) (a : Nat), ∀ x ∈ LoadVariables db₂ a,
      x.type = SecretVariable → x.value = PasswordPlaceholder) ∧
    (∀ (db₂ : VariableDB) (a : Nat) (name : String) (x : Variable),
      LoadVariable db₂ a name = some x → x.type = SecretVariable →
        x.value = PasswordPlaceholder) ∧
    ((∀ r ∈ db.rows, r.applicationID = appID → r.name ≠ v.name) →
      LoadVariable (InsertVariable c db appID v).1 appID v.name =
        some (InsertVariable c db appID v).2 ∧
      ∀ x ∈ LoadVariables (InsertVariable c db appID v).1 appID, x.name = v.name →
        x.value = (if v.type = SecretVariable then PasswordPlaceholder else v.value)) := by
  have hrow := masked_row c db.nextID appID v
  have hin : (InsertVariable c db appID v).2 = masked (rowOf c db.nextID appID v) := rfl
  refine ⟨?_, ?_, ?_, ?_, ?_⟩
  · rw [hin, hrow]
  · rw [hin]
    exact (mem_loads c _ _ appID (insert_mem c db appID v) rfl).1
  · intro db₂ a x hx hsec
    simp only [LoadVariables, List.mem_map] at hx
    obtain ⟨r, -, rfl⟩ := hx
    exact masked_secret r hsec
  · intro db₂ a name x hx hsec
    simp only [LoadVariable, Option.map_eq_some'] at hx
    obtain ⟨r, -, rfl⟩ := hx
    exact masked_secret r hsec
  · intro hfresh
    obtain ⟨h₂, h₃, -, -⟩ := loads_of_unique c (InsertVariable c db appID v).1
      (rowOf c db.nextID appID v) appID (insert_mem c db appID v) rfl
      (insert_unique c db appID v hfresh)
    refine ⟨?_, ?_⟩
    · rw [hin]
      exact h₃
    · intro x hx hname
      rw [h₂ x hx hname, hrow]

/-- Witness for C9: in `Test_DAOVariable`, `clear` of type TextVariable reads back
`clear_value` and `secret` of type SecretVariable reads back the placeholder, in memory,
through `LoadVariables` and through `LoadVariable`. -/
theorem secret_masking_witness :
    (InsertVariable reverseCipher emptyDB 1 clearVar).2.value = "clear_value" ∧
    (InsertVariable reverseCipher dbWithClear 1 secretVar).2.value = PasswordPlaceholder ∧
    (LoadVariables dbWithBoth 1).map (fun x => x.value) = ["clear_value", PasswordPlaceholder] ∧
    (LoadVariable dbWithBoth 1 "clear").map (fun x => x.value) = some "clear_value" ∧
    (LoadVariable dbWithBoth 1 "secret").map (fun x => x.value) = some PasswordPlaceholder := by
  have h₁ := secret_masking reverseCipher emptyDB 1 clearVar
  have h₂ := secret_masking reverseCipher dbWithClear 1 secretVar
  have h₄ : LoadVariable dbWithBoth 1 "secret" =
      some (InsertVariable reverseCipher dbWithClear 1 secretVar).2 :=
    (h₂.2.2.2.2 (by decide!)).1
  refine ⟨?_, ?_, by decide!, by decide!, ?_⟩
  · rw [h₁.1]
    decide!
  · rw [h₂.1]
    decide!
  · rw [h₄, h₂.1]
    decide!

/-- C10 (decryption round trip): provided decryption undoes encryption, a variable inserted
with value `s`, secret or not, is listed by `LoadVariablesWithDecrytion` with exactly `s`,
and still is after `UpdateVariable` was called with that decrypted variable as both old and
new value; when its name is new to the application, `LoadVariableWithDecryption` returns it
with exactly `s` as well, before and after that update, and no entry of that name carries
another value. -/
theorem decryption_round_trip (c : Cipher) (hc : ∀ s, c.decrypt (c.encrypt s) = s)
    (db : VariableDB) (appID : Nat) (v : Variable) :
    (InsertVariable c db appID v).2.id = db.nextID ∧
    withID v db.nextID ∈ LoadVariablesWithDecrytion c (InsertVariable c db appID v).1 appID ∧
    withID v db.nextID ∈ LoadVariablesWithDecrytion c
      (UpdateVariable c (InsertVariable c db appID v).1 appID
        (withID v db.nextID) (withID v db.nextID)).1 appID ∧
    ((∀ r ∈ db.rows, r.applicationID = appID → r.name ≠ v.name) →
      (∀ x ∈ LoadVariablesWithDecrytion c (InsertVariable c db appID v).1 appID,
        x.name = v.name → x.value = v.value) ∧
      LoadVariableWithDecryption c (InsertVariable c db appID v).1 appID db.nextID v.name =
        some (withID v db.nextID) ∧
      (∀ x ∈ LoadVariablesWithDecrytion c
        (UpdateVariable c (InsertVariable c db appID v).1 appID
          (withID v db.nextID) (withID v db.nextID)).1 appID,
        x.name = v.name → x.value = v.value) ∧
      LoadVariableWithDecryption c
        (UpdateVariable c (InsertVariable c db appID v).1 appID
          (withID v db.nextID) (withID v db.nextID)).1 appID db.nextID v.name =
        some (withID v db.nextID)) := by
  have hrow := decrypted_row c hc db.nextID appID v
  have h₁ := (mem_loads c _ _ appID (insert_mem c db appID v) rfl).2
  have h₄ := (mem_loads c _ _ appID (update_mem c db appID v) rfl).2
  rw [hrow] at h₁ h₄
  refine ⟨rfl, h₁, h₄, ?_⟩
  intro hfresh
  obtain ⟨-, -, h₂, h₃⟩ := loads_of_unique c (InsertVariable c db appID v).1
    (rowOf c db.nextID appID v) appID (insert_mem c db appID v) rfl
    (insert_unique c db appID v hfresh)
  obtain ⟨-, -, h₅, h₆⟩ := loads_of_unique c
    (UpdateVariable c (InsertVariable c db appID v).1 appID
      (withID v db.nextID) (withID v db.nextID)).1
    (rowOf c db.nextID appID v) appID (update_mem c db appID v) rfl
    (update_unique c db appID v hfresh)
  rw [hrow] at h₂ h₃ h₅ h₆
  refine ⟨?_, h₃, ?_, h₆⟩
  · intro x hx hname
    rw [h₂ x hx hname]
    rfl
  · intro x hx hname
    rw [h₅ x hx hname]
    rfl

/-- Witness for C10: in `Test_DAOVariable`, `secret_value` is read back as `secret_value`
with decryption, before and after the update with the decrypted variable, and `clear_value`
stays unchanged. -/
theorem decryption_round_trip_witness :
    (LoadVariablesWithDecrytion reverseCipher dbWithBoth 1).map (fun x => x.value) =
      ["clear_value", "secret_value"] ∧
    (LoadVariableWithDecryption reverseCipher dbWithBoth 1 2 "secret").map (fun x => x.value) =
      some "secret_value" ∧
    (LoadVariableWithDecryption reverseCipher
      (UpdateVariable reverseCipher dbWithBoth 1 (withID secretVar 2) (withID secretVar 2)).1
      1 2 "secret").map (fun x => x.value) = some "secret_value" ∧
    (LoadVariablesWithDecrytion reverseCipher
      (UpdateVariable reverseCipher dbWithBoth 1 (withID secretVar 2) (withID secretVar 2)).1
      1).map (fun x => x.value) = ["clear_value", "secret_value"] := by
  have hc : ∀ s, reverseCipher.decrypt (reverseCipher.encrypt s) = s := by
    intro s
    simp [reverseCipher]
  have h := (decryption_round_trip reverseCipher hc dbWithClear 1 secretVar).2.2.2 (by decide!)
  have h₃ : LoadVariableWithDecryption reverseCipher dbWithBoth 1 2 "secret" =
      some (withID secretVar 2) := h.2.1
  have h₆ : LoadVariableWithDecryption reverseCipher
      (UpdateVariable reverseCipher dbWithBoth 1 (withID secretVar 2) (withID secretVar 2)).1
      1 2 "secret" = some (withID secretVar 2) := h.2.2.2
  refine ⟨by decide!, ?_, ?_, by decide!⟩
  · rw [h₃]
    rfl
  · rw [h₆]
    rfl

/-! ## As-code handler facts -/

namespace api

theorem startedTasks_append (s t : List Call) :
    startedTasks (s ++ t) = startedTasks s ++ startedTasks t := by
  simp [startedTasks, List.filterMap_append]

theorem createdOperations_append (s t : List Call) :
    createdOperations (s ++ t) = createdOperations s ++ createdOperations t := by
  simp [createdOperations, List.filterMap_append]

theorem committed_append (s t : List Call) :
    committed (s ++ t) = (committed s || committed t) := by
  simp [committed]

theorem writeFailed_append (s t : List Call) :
    writeFailed (s ++ t) = (writeFailed s || writeFailed t) := by
  simp [writeFailed]

/-- What a neutral call is: it starts no task, creates no push operation, is no commit and
did not fail. -/
theorem Call.neutral_spec {a : Call} (h : a.neutral = true) :
    startedTasks [a] = [] ∧ createdOperations [a] = [] ∧ a ≠ Call.Commit true ∧
      a.failed = false ∧ a.failedUpToCommit = false ∧ writeFailed [a] = false := by
  cases a <;>
    simp_all [Call.neutral, Call.failed, Call.failedUpToCommit, startedTasks,
      createdOperations, writeFailed]

theorem startedTasks_neutral {s : List Call} (h : s.all Call.neutral = true) :
    startedTasks s = [] := by
  induction s with
  | nil => rfl
  | cons a s ih =>
    simp only [List.all_cons, Bool.and_eq_true] at h
    have hs := startedTasks_append [a] s
    rw [List.singleton_append] at hs
    rw [hs, (Call.neutral_spec h.1).1, ih h.2]
    rfl

theorem createdOperations_neutral {s : List Call} (h : s.all Call.neutral = true) :
    createdOperations s = [] := by
  induction s with
  | nil => rfl
  | cons a s ih =>
    simp only [List.all_cons, Bool.and_eq_true] at h
    have hs := createdOperations_append [a] s
    rw [List.singleton_append] at hs
    rw [hs, (Call.neutral_spec h.1).2.1, ih h.2]
    rfl

theorem committed_neutral {s : List Call} (h : s.all Call.neutral = true) :
    committed s = false := by
  induction s with
  | nil => rfl
  | cons a s ih =>
    simp only [List.all_cons, Bool.and_eq_true] at h
    have ih' := ih h.2
    simp only [committed, List.elem_eq_mem, decide_eq_false_iff_not, List.mem_cons,
      not_or] at ih' ⊢
    exact ⟨fun heq => (Call.neutral_spec h.1).2.2.1 heq.symm, ih'⟩

theorem failed_neutral {s : List Call} (h : s.all Call.neutral = true) :
    s.any Call.failed = false := by
  induction s with
  | nil => rfl
  | cons a s ih =>
    simp only [List.all_cons, Bool.and_eq_true] at h
    rw [List.any_cons, ih h.2, (Call.neutral_spec h.1).2.2.2.1]
    rfl

theorem failedUpToCommit_neutral {s : List Call} (h : s.all Call.neutral = true) :
    s.any Call.failedUpToCommit = false := by
  induction s with
  | nil => rfl
  | cons a s ih =>
    simp only [List.all_cons, Bool.and_eq_true] at h
    rw [List.any_cons, ih h.2, (Call.neutral_spec h.1).2.2.2.2.1]
    rfl

theorem writeFailed_neutral {s : List Call} (h : s.all Call.neutral = true) :
    writeFailed s = false := by
  induction s with
  | nil => rfl
  | cons a s ih =>
    simp only [List.all_cons, Bool.and_eq_true] at h
    have hs := writeFailed_append [a] s
    rw [List.singleton_append] at hs
    rw [hs, (Call.neutral_spec h.1).2.2.2.2.2, ih h.2]
    rfl

theorem beforeFirstTask_neutral {s : List Call} (h : s.all Call.neutral = true)
    (t : List Call) : beforeFirstTask (s ++ t) = s ++ beforeFirstTask t := by
  induction s with
  | nil => rfl
  | cons a s ih =>
    simp only [List.all_cons, Bool.and_eq_true] at h
    have ih' := ih h.2
    unfold beforeFirstTask at ih' ⊢
    cases a <;> simp_all [Call.neutral, List.takeWhile_cons]

/-- A rollback never changes the persisted state. -/
theorem Transaction.persisted_Rollback {σ : Type} (tx : Transaction σ) :
    tx.Rollback.persisted = tx.persisted := by
  unfold Transaction.Rollback
  split <;> rfl

/-- A failed commit never changes the persisted state. -/
theorem Transaction.persisted_Commit_false {σ : Type} (tx : Transaction σ) :
    (tx.Commit false).persisted = tx.persisted := by
  unfold Transaction.Commit
  split <;> rfl

/-- A successful commit of an open transaction persists its working state, and the deferred
rollback leaves it there. -/
theorem Transaction.persisted_Commit_true {σ : Type} (tx : Transaction σ)
    (h : tx.done = false) : (tx.Commit true).Rollback.persisted = tx.working := by
  simp [Transaction.Commit, Transaction.Rollback, h]

/-- Successful calls made before the part in view do not change how it ends. -/
theorem Settled.absorb {σ δ : Type} {env : Collaborators σ δ} {db : σ} {tag : String}
    (pre mid : List Call) {o : Outcome σ} (hmid : mid.all Call.neutral = true)
    (h : Settled env db tag (pre ++ mid) o) : Settled env db tag pre o := by
  obtain ⟨t, ht, hcase⟩ := h
  refine ⟨mid ++ t, by rw [ht, List.append_assoc], ?_⟩
  rcases hcase with ⟨err, h₁, h₂, h₃, h₄, h₅⟩ |
    ⟨ope, ed, s, hp, hc, hdb, h₂, h₃, h₄, h₅, h₆, h₇, h₈, hw⟩
  · left
    refine ⟨err, h₁, h₂, ?_, ?_, ?_⟩
    · rw [startedTasks_append, startedTasks_neutral hmid, h₃]
      rfl
    · rw [committed_append, committed_neutral hmid, h₄]
      rfl
    · rw [writeFailed_append, writeFailed_neutral hmid, h₅]
      rfl
  · right
    refine ⟨ope, ed, s, hp, hc, hdb, ?_, ?_, ?_, ?_, h₆, ?_, ?_, ?_⟩
    · rw [List.any_append, failedUpToCommit_neutral hmid, h₂]
      rfl
    · rw [createdOperations_append, createdOperations_neutral hmid, h₃]
      rfl
    · rw [committed_append, h₄, Bool.or_true]
    · rw [startedTasks_append, startedTasks_neutral hmid, h₅]
      rfl
    · rw [beforeFirstTask_neutral hmid, createdOperations_append,
        createdOperations_neutral hmid, h₇]
      rfl
    · rw [beforeFirstTask_neutral hmid, committed_append, h₈, Bool.or_true]
    · rcases hw with ⟨hw₁, hw₂, hw₃, hw₄⟩ | ⟨err, hw₁, hw₂, hw₃, hw₄⟩
      · left
        refine ⟨hw₁, hw₂, ?_, List.mem_append_right _ hw₄⟩
        rw [List.any_append, failed_neutral hmid, hw₃]
        rfl
      · right
        refine ⟨err, hw₁, hw₂, ?_, List.mem_append_right _ hw₄⟩
        rw [writeFailed_append, hw₃, Bool.or_true]

/-- An error returned with the persisted state untouched, no commit and no task settles the
execution. -/
theorem Settled.ofError {σ δ : Type} (env : Collaborators σ δ) (db : σ) (tag : String)
    (pre mid : List Call) (err : sdk.Error) (d : σ) (hd : d = db)
    (hmid : startedTasks mid = [] ∧ committed mid = false ∧ writeFailed mid = false) :
    Settled env db tag pre ⟨.error err, d, pre ++ mid⟩ :=
  ⟨mid, rfl, Or.inl ⟨err, rfl, hd, hmid.1, hmid.2.1, hmid.2.2⟩⟩

theorem settled_migrateAfterHook {σ δ : Type} (env : Collaborators σ δ) (tx : Transaction σ)
    (u : String) (p : sdk.Project) (projIdent : sdk.ProjectIdentifiers) (wf : sdk.Workflow)
    (app : sdk.Application) (branch message : String) (pre : List Call)
    (htx : tx.done = false) :
    Settled env tx.persisted "MigrateWorkflowAsCodeResult-" pre
      (migrateAfterHook env tx u p projIdent wf app branch message pre) := by
  unfold migrateAfterHook
  cases hP : env.Pull tx.working projIdent wf.Name with
  | error e =>
    exact Settled.ofError _ _ _ _ _ _ _ (Transaction.persisted_Rollback _)
      ⟨rfl, rfl, rfl⟩
  | ok x =>
    obtain ⟨s₁, data⟩ := x
    dsimp only
    cases hO : env.PushOperation s₁ p data app.VCSServer app.RepositoryFullname branch message
        app.RepositoryStrategy u with
    | error e =>
      exact Settled.ofError _ _ _ _ _ _ _ (Transaction.persisted_Rollback _)
        ⟨rfl, rfl, rfl⟩
    | ok y =>
      obtain ⟨s₂, ope⟩ := y
      dsimp only
      cases hC : env.Commit s₂ with
      | error e =>
        refine Settled.ofError _ _ _ _ _ _ _ ?_
          ⟨rfl, rfl, rfl⟩
        rw [Transaction.persisted_Rollback, Transaction.persisted_Commit_false]
        rfl
      | ok z =>
        have hdb : (((tx.Exec s₁).Exec s₂).Commit true).Rollback.persisted = s₂ :=
          Transaction.persisted_Commit_true _ htx
        have hp : Pushed env s₂ ope := Or.inl ⟨_, _, _, _, _, _, _, _, _, hO⟩
        dsimp only
        cases hW : env.WriteJSON (operationResponse ope).body 200 with
        | error e =>
          refine ⟨_, rfl, Or.inr ⟨ope, migrateEntityData wf ope, s₂, hp, hC,
            hdb, ?_, ?_, ?_, ?_,
            rfl, ?_, ?_, Or.inr ⟨e, hW, rfl, ?_, ?_⟩⟩⟩
          · rfl
          · rfl
          · rfl
          · rfl
          · rfl
          · rfl
          · rfl
          · simp
        | ok z₂ =>
          refine ⟨_, rfl, Or.inr ⟨ope, migrateEntityData wf ope, s₂, hp, hC,
            hdb, ?_, ?_, ?_, ?_,
            rfl, ?_, ?_, Or.inl ⟨hW, rfl, ?_, ?_⟩⟩⟩
          · rfl
          · rfl
          · rfl
          · rfl
          · rfl
          · rfl
          · rfl
          · simp

theorem settled_migrateWorkflowAsCode {σ δ : Type} (env : Collaborators σ δ)
    (c : sdk.HookConstants) (db : σ) (u : String) (p : sdk.Project) (wf : sdk.Workflow)
    (app : sdk.Application) (branch message : String) :
    Settled env db "MigrateWorkflowAsCodeResult-" []
      (migrateWorkflowAsCode env c db u p wf app branch message) := by
  unfold migrateWorkflowAsCode
  simp only
  split
  · exact Settled.ofError env db _ [] [] _ _ rfl ⟨rfl, rfl, rfl⟩
  · split
    · exact Settled.ofError env db _ [] _ _ _ rfl
        ⟨rfl, rfl, rfl⟩
    · split
      · exact Settled.absorb [] [.Begin true] rfl
          (settled_migrateAfterHook env (Transaction.Begin db) _ _ _ _ _ _ _ _ rfl)
      · split
        · exact Settled.ofError env db _ [] _ _ _ rfl
            ⟨rfl, rfl, rfl⟩
        · rename_i s₁ wf₁ _
          exact Settled.absorb [] [.Begin true, .Update true]
            rfl
            (settled_migrateAfterHook env ((Transaction.Begin db).Exec s₁) _ _ _ _ _ _ _ _ rfl)

theorem settled_updateWorkflowAsCode {σ δ : Type} (env : Collaborators σ δ) (db : σ)
    (r : Request) (p : sdk.Project) (projIdent : sdk.ProjectIdentifiers) (wfDB : sdk.Workflow)
    (rootApp : sdk.Application) (pre : List Call) :
    Settled env db "UpdateAsCodeResult-" pre
      (updateWorkflowAsCode env db r p projIdent wfDB rootApp pre) := by
  unfold updateWorkflowAsCode
  split
  · exact Settled.ofError _ _ _ _ _ _ _ rfl
      ⟨rfl, rfl, rfl⟩
  split
  · exact Settled.ofError _ _ _ _ _ _ _ rfl
      ⟨rfl, rfl, rfl⟩
  split
  · exact Settled.ofError _ _ _ _ _ _ _ rfl
      ⟨rfl, rfl, rfl⟩
  split
  · exact Settled.ofError _ _ _ _ _ _ _ rfl
      ⟨rfl, rfl, rfl⟩
  split
  · exact Settled.ofError _ _ _ _ _ _ _ rfl
      ⟨rfl, rfl, rfl⟩
  split
  · exact Settled.ofError _ _ _ _ _ _ _ rfl
      ⟨rfl, rfl, rfl⟩
  split
  · exact Settled.ofError _ _ _ _ _ _ _ rfl
      ⟨rfl, rfl, rfl⟩
  rename_i s₁ ope hO
  have hp : Pushed env s₁ ope := Or.inr ⟨_, _, _, _, _, _, _, _, _, hO⟩
  cases hC : env.Commit s₁ with
  | error e =>
    exact Settled.ofError _ _ _ _ _ _ _ rfl
      ⟨rfl, rfl, rfl⟩
  | ok z =>
    dsimp only
    cases hW : env.WriteJSON (operationResponse ope).body 200 with
    | error e =>
      refine ⟨_, rfl, Or.inr ⟨ope, updateEntityData wfDB ope, s₁, hp, hC, rfl, ?_, ?_, ?_, ?_,
        rfl, ?_, ?_, Or.inr ⟨e, hW, rfl, ?_, ?_⟩⟩⟩
      · rfl
      · rfl
      · rfl
      · rfl
      · rfl
      · rfl
      · rfl
      · simp
    | ok z₂ =>
      refine ⟨_, rfl, Or.inr ⟨ope, updateEntityData wfDB ope, s₁, hp, hC, rfl, ?_, ?_, ?_, ?_,
        rfl, ?_, ?_, Or.inl ⟨hW, rfl, ?_, ?_⟩⟩⟩
      · rfl
      · rfl
      · rfl
      · rfl
      · rfl
      · rfl
      · rfl
      · simp

theorem settled_withRootApplication {σ δ : Type} (env : Collaborators σ δ)
    (c : sdk.HookConstants) (db : σ) (r : Request) (p : sdk.Project) (wfDB : sdk.Workflow)
    (rootApp : sdk.Application) (pre : List Call) :
    Settled env db (taskTag r) pre (withRootApplication env c db r p wfDB rootApp pre) := by
  unfold withRootApplication taskTag
  simp only
  split
  · split
    · exact ⟨[], by simp, Or.inl ⟨_, rfl, rfl, rfl, rfl, rfl⟩⟩
    · obtain ⟨t, ht, hcase⟩ := settled_migrateWorkflowAsCode env c db r.consumer p wfDB rootApp
        r.branch r.message
      refine ⟨t, ?_, ?_⟩
      · simp only [ht, List.nil_append]
      · exact hcase
  · split
    · exact ⟨[], by simp, Or.inl ⟨_, rfl, rfl, rfl, rfl, rfl⟩⟩
    · split
      · exact ⟨[], by simp, Or.inl ⟨_, rfl, rfl, rfl, rfl, rfl⟩⟩
      · exact settled_updateWorkflowAsCode _ _ _ _ _ _ _ _

theorem settled_withWorkflow {σ δ : Type} (env : Collaborators σ δ)
    (c : sdk.HookConstants) (db : σ) (r : Request) (p : sdk.Project) (wfDB : sdk.Workflow)
    (pre : List Call) :
    Settled env db (taskTag r) pre (withWorkflow env c db r p wfDB pre) := by
  unfold withWorkflow
  split
  · exact ⟨[], by simp, Or.inl ⟨_, rfl, rfl, rfl, rfl, rfl⟩⟩
  · rename_i id _
    split
    · exact Settled.ofError _ _ _ _ _ _ _ rfl
        ⟨rfl, rfl, rfl⟩
    · exact Settled.ofError _ _ _ _ _ _ _ rfl
        ⟨rfl, rfl, rfl⟩
    · exact Settled.absorb pre [.LoadByIDWithClearVCSStrategyPassword id true]
        rfl (settled_withRootApplication _ _ _ _ _ _ _ _)

theorem settled_postWorkflowAsCodeHandler {σ δ : Type} (env : Collaborators σ δ)
    (c : sdk.HookConstants) (db : σ) (r : Request) :
    Settled env db (taskTag r) [] (postWorkflowAsCodeHandler env c db r) := by
  unfold postWorkflowAsCodeHandler
  split
  · exact Settled.ofError env db _ [] [] _ _ rfl ⟨rfl, rfl, rfl⟩
  · split
    · exact Settled.ofError env db _ [] _ _ _ rfl
        ⟨rfl, rfl, rfl⟩
    · split
      · exact Settled.ofError env db _ [] _ _ _ rfl
          ⟨rfl, rfl, rfl⟩
      · exact Settled.absorb []
          [.projectLoad r.key true, .workflowLoad r.workflowName (loadOptions r) true]
          rfl (settled_withWorkflow _ _ _ _ _ _ _)

/-- A migration whose trace has a successful commit got there through `workflow.Pull`,
`operation.PushOperation` and `tx.Commit` returning no error, each given what the one before
left; the outcome is then the result of `service.WriteJSON`, the committed state and the full
list of calls. -/
theorem migrateAfterHook_committed {σ δ : Type} (env : Collaborators σ δ)
    (tx : Transaction σ) (u : String) (p : sdk.Project) (projIdent : sdk.ProjectIdentifiers)
    (wf : sdk.Workflow) (app : sdk.Application) (branch message : String) (pre : List Call)
    (htx : tx.done = false) (hpre : committed pre = false)
    (h : committed (migrateAfterHook env tx u p projIdent wf app branch message pre).trace =
      true) :
    ∃ s₁ data s₂ ope,
      env.Pull tx.working projIdent wf.Name = .ok (s₁, data) ∧
      env.PushOperation s₁ p data app.VCSServer app.RepositoryFullname branch message
        app.RepositoryStrategy u = .ok (s₂, ope) ∧
      env.Commit s₂ = .ok () ∧
      migrateAfterHook env tx u p projIdent wf app branch message pre =
        ⟨(env.WriteJSON (operationResponse ope).body 200).map (fun _ => operationResponse ope),
          s₂,
          pre ++ [.Pull true, .PushOperation (some ope), .Commit true,
            .GoRoutine ("MigrateWorkflowAsCodeResult-" ++ ope.UUID) (migrateEntityData wf ope),
            .WriteJSON (operationResponse ope).body 200
              (env.WriteJSON (operationResponse ope).body 200).toBool,
            .Rollback]⟩ := by
  have hpre₂ : Call.Commit true ∉ pre := by simpa [committed] using hpre
  unfold migrateAfterHook at h ⊢
  cases hP : env.Pull tx.working projIdent wf.Name with
  | error e =>
    simp only [hP] at h
    simp [committed, hpre₂] at h
  | ok x =>
    obtain ⟨s₁, data⟩ := x
    simp only [hP] at h
    cases hO : env.PushOperation s₁ p data app.VCSServer app.RepositoryFullname branch message
        app.RepositoryStrategy u with
    | error e =>
      simp only [hO] at h
      simp [committed, hpre₂] at h
    | ok y =>
      obtain ⟨s₂, ope⟩ := y
      simp only [hO] at h
      cases hC : env.Commit s₂ with
      | error e =>
        simp only [hC] at h
        simp [committed, hpre₂] at h
      | ok z =>
        have hdb : (((tx.Exec s₁).Exec s₂).Commit true).Rollback.persisted = s₂ :=
          Transaction.persisted_Commit_true _ htx
        refine ⟨s₁, data, s₂, ope, rfl, hO, hC, ?_⟩
        simp only [hO, hC]
        cases hW : env.WriteJSON (operationResponse ope).body 200 with
        | error e => simp only [hdb, Except.map, Except.toBool]
        | ok z₂ => simp only [hdb, Except.map, Except.toBool]

/-- A call of `migrateWorkflowAsCode` whose trace has a successful commit passed the guard,
opened the transaction, got the workflow updated with the hook step applied when no
repository web hook was found, and then pulled, pushed and committed, each step given what
the one before left; the outcome is the result of `service.WriteJSON`, the committed state
and the full list of calls. -/
theorem migrateWorkflowAsCode_committed {σ δ : Type} (env : Collaborators σ δ)
    (c : sdk.HookConstants) (db : σ) (u : String) (p : sdk.Project) (wf : sdk.Workflow)
    (app : sdk.Application) (branch message : String)
    (h : committed (migrateWorkflowAsCode env c db u p wf app branch message).trace = true) :
    ∃ s₀ wf₁ s₁ data s₂ ope,
      alreadyAsCode wf = false ∧ env.Begin db = .ok () ∧
      ((foundRepositoryWebHook c wf = true ∧ s₀ = db ∧ wf₁ = wf) ∨
        (foundRepositoryWebHook c wf = false ∧
          env.Update db { ID := p.ID, Key := p.Key } (hookStep c wf) = .ok (s₀, wf₁))) ∧
      env.Pull s₀ { ID := p.ID, Key := p.Key } wf₁.Name = .ok (s₁, data) ∧
      env.PushOperation s₁ p data app.VCSServer app.RepositoryFullname branch message
        app.RepositoryStrategy u = .ok (s₂, ope) ∧
      env.Commit s₂ = .ok () ∧
      migrateWorkflowAsCode env c db u p wf app branch message =
        ⟨(env.WriteJSON (operationResponse ope).body 200).map (fun _ => operationResponse ope),
          s₂,
          (.Begin true :: (if foundRepositoryWebHook c wf then [] else [.Update true])) ++
            [.Pull true, .PushOperation (some ope), .Commit true,
              .GoRoutine ("MigrateWorkflowAsCodeResult-" ++ ope.UUID)
                (migrateEntityData wf₁ ope),
              .WriteJSON (operationResponse ope).body 200
                (env.WriteJSON (operationResponse ope).body 200).toBool,
              .Rollback]⟩ := by
  unfold migrateWorkflowAsCode at h ⊢
  cases hg : alreadyAsCode wf with
  | true => simp [hg, committed] at h
  | false =>
    simp only [hg, Bool.false_eq_true, if_false] at h
    cases hB : env.Begin db with
    | error e =>
      simp only [hB] at h
      simp [committed] at h
    | ok z =>
      simp only [hB] at h
      cases hf : foundRepositoryWebHook c wf with
      | true =>
        simp only [hf, if_true] at h
        obtain ⟨s₁, data, s₂, ope, h₁, h₂, h₃, h₄⟩ := migrateAfterHook_committed env
          (Transaction.Begin db) u p { ID := p.ID, Key := p.Key } wf app branch message
          [.Begin true] rfl (by simp [committed]) h
        refine ⟨db, wf, s₁, data, s₂, ope, rfl, rfl, Or.inl ⟨rfl, rfl, rfl⟩, h₁, h₂, h₃, ?_⟩
        simp only [Bool.false_eq_true, if_false, if_true]
        exact h₄
      | false =>
        simp only [hf, Bool.false_eq_true, if_false] at h
        have hstep : hookStep c wf = appendRepositoryWebHook c wf := by simp [hookStep, hf]
        cases hU : env.Update (Transaction.Begin db).working { ID := p.ID, Key := p.Key }
            (appendRepositoryWebHook c wf) with
        | error e =>
          simp only [hU] at h
          simp [committed] at h
        | ok x =>
          obtain ⟨s₀, wf₁⟩ := x
          simp only [hU] at h
          obtain ⟨s₁, data, s₂, ope, h₁, h₂, h₃, h₄⟩ := migrateAfterHook_committed env
            ((Transaction.Begin db).Exec s₀) u p { ID := p.ID, Key := p.Key } wf₁ app branch
            message [.Begin true, .Update true] rfl (by simp [committed]) h
          refine ⟨s₀, wf₁, s₁, data, s₂, ope, rfl, rfl, Or.inr ⟨rfl, ?_⟩, h₁, h₂, h₃, ?_⟩
          · rw [hstep]
            exact hU
          · simp only [Bool.false_eq_true, if_false, hU]
            exact h₄

/-- A call of the update path whose trace has a successful commit read, renamed, checked,
completed and exported the body, opened the transaction, created the push operation and
committed, each step given what the one before left; the outcome is the result of
`service.WriteJSON`, the committed state and the full list of calls. -/
theorem updateWorkflowAsCode_committed {σ δ : Type} (env : Collaborators σ δ) (db : σ)
    (r : Request) (p : sdk.Project) (projIdent : sdk.ProjectIdentifiers) (wfDB : sdk.Workflow)
    (rootApp : sdk.Application) (pre : List Call) (hpre : committed pre = false)
    (h : committed (updateWorkflowAsCode env db r p projIdent wfDB rootApp pre).trace = true) :
    ∃ wf wf₁ wf₂ wf₃ data s ope,
      env.UnmarshalBody r.body = .ok wf ∧
      env.RenameNode db wf = .ok wf₁ ∧
      env.CheckValidity db wf₁ = .ok wf₂ ∧
      env.CompleteWorkflow db wf₂ projIdent
        { DeepPipeline := true, WithAsCodeUpdateEvent := false, WithTemplate := false } =
          .ok wf₃ ∧
      env.NewWorkflow wf₃ = .ok data ∧
      env.Begin db = .ok () ∧
      env.PushOperationUpdate db p data rootApp.VCSServer rootApp.RepositoryFullname r.branch
        r.message rootApp.RepositoryStrategy r.consumer = .ok (s, ope) ∧
      env.Commit s = .ok () ∧
      updateWorkflowAsCode env db r p projIdent wfDB rootApp pre =
        ⟨(env.WriteJSON (operationResponse ope).body 200).map (fun _ => operationResponse ope),
          s,
          pre ++ [.UnmarshalBody true, .RenameNode true, .CheckValidity true,
            .CompleteWorkflow true, .NewWorkflow true, .Begin true,
            .PushOperationUpdate (some ope), .Commit true,
            .GoRoutine ("UpdateAsCodeResult-" ++ ope.UUID) (updateEntityData wfDB ope),
            .WriteJSON (operationResponse ope).body 200
              (env.WriteJSON (operationResponse ope).body 200).toBool,
            .Rollback]⟩ := by
  have hpre₂ : Call.Commit true ∉ pre := by simpa [committed] using hpre
  unfold updateWorkflowAsCode at h ⊢
  cases h₁ : env.UnmarshalBody r.body with
  | error e =>
    simp only [h₁] at h
    simp [committed, hpre₂] at h
  | ok wf =>
  simp only [h₁] at h
  cases h₂ : env.RenameNode db wf with
  | error e =>
    simp only [h₂] at h
    simp [committed, hpre₂] at h
  | ok wf₁ =>
  simp only [h₂] at h
  cases h₃ : env.CheckValidity db wf₁ with
  | error e =>
    simp only [h₃] at h
    simp [committed, hpre₂] at h
  | ok wf₂ =>
  simp only [h₃] at h
  cases h₄ : env.CompleteWorkflow db wf₂ projIdent
      { DeepPipeline := true, WithAsCodeUpdateEvent := false, WithTemplate := false } with
  | error e =>
    simp only [h₄] at h
    simp [committed, hpre₂] at h
  | ok wf₃ =>
  simp only [h₄] at h
  cases h₅ : env.NewWorkflow wf₃ with
  | error e =>
    simp only [h₅] at h
    simp [committed, hpre₂] at h
  | ok data =>
  simp only [h₅] at h
  cases h₆ : env.Begin db with
  | error e =>
    simp only [h₆] at h
    simp [committed, hpre₂] at h
  | ok z =>
  simp only [h₆] at h
  cases h₇ : env.PushOperationUpdate (Transaction.Begin db).working p data rootApp.VCSServer
      rootApp.RepositoryFullname r.branch r.message rootApp.RepositoryStrategy r.consumer with
  | error e =>
    simp only [h₇] at h
    simp [committed, hpre₂] at h
  | ok x =>
  obtain ⟨s, ope⟩ := x
  simp only [h₇] at h
  cases h₈ : env.Commit s with
  | error e =>
    simp only [h₈] at h
    simp [committed, hpre₂] at h
  | ok z₂ =>
  refine ⟨wf, wf₁, wf₂, wf₃, data, s, ope, rfl, h₂, h₃, h₄, h₅, rfl, h₇, h₈, ?_⟩
  simp only [h₂, h₃, h₄, h₅, h₇, h₈]
  cases hW : env.WriteJSON (operationResponse ope).body 200 with
  | error e => rfl
  | ok z₃ => rfl

/-- A call of the handler whose trace has a successful commit passed the branch and message
guard and loaded the project, the workflow and the root application; it then is the
migration, after the three loads, when `migrate` is set, and otherwise the update path of a
stored workflow that is as-code and not generated by a template. -/
theorem postWorkflowAsCodeHandler_committed {σ δ : Type} (env : Collaborators σ δ)
    (c : sdk.HookConstants) (db : σ) (r : Request)
    (h : committed (postWorkflowAsCodeHandler env c db r).trace = true) :
    ∃ p wfDB id rootApp,
      r.branch ≠ "" ∧ r.message ≠ "" ∧
      env.projectLoad db r.key = .ok p ∧
      env.workflowLoad db { ID := p.ID, Key := p.Key } r.workflowName (loadOptions r) =
        .ok wfDB ∧
      rootApplicationID wfDB = some id ∧
      env.LoadByIDWithClearVCSStrategyPassword db id = .ok (some rootApp) ∧
      (r.migrate = true →
        committed (migrateWorkflowAsCode env c db r.consumer p wfDB rootApp r.branch
          r.message).trace = true ∧
        postWorkflowAsCodeHandler env c db r =
          ⟨(migrateWorkflowAsCode env c db r.consumer p wfDB rootApp r.branch r.message).result,
            (migrateWorkflowAsCode env c db r.consumer p wfDB rootApp r.branch r.message).db,
            [.projectLoad r.key true, .workflowLoad r.workflowName (loadOptions r) true,
              .LoadByIDWithClearVCSStrategyPassword id true] ++
              (migrateWorkflowAsCode env c db r.consumer p wfDB rootApp r.branch
                r.message).trace⟩) ∧
      (r.migrate = false →
        wfDB.FromRepository ≠ "" ∧ wfDB.TemplateInstance = none ∧
        postWorkflowAsCodeHandler env c db r =
          updateWorkflowAsCode env db r p { ID := p.ID, Key := p.Key } wfDB rootApp
            [.projectLoad r.key true, .workflowLoad r.workflowName (loadOptions r) true,
              .LoadByIDWithClearVCSStrategyPassword id true]) := by
  unfold postWorkflowAsCodeHandler at h
  by_cases hbm : (r.branch == "" || r.message == "") = true
  · simp [hbm, committed] at h
  have hbm₂ : (r.branch == "" || r.message == "") = false := by simpa using hbm
  have hb : r.branch ≠ "" := by
    intro hq
    simp [hq] at hbm
  have hmsg : r.message ≠ "" := by
    intro hq
    simp [hq] at hbm
  simp only [hbm₂, Bool.false_eq_true, if_false] at h
  cases hp : env.projectLoad db r.key with
  | error e =>
    simp only [hp] at h
    simp [committed] at h
  | ok p =>
  simp only [hp] at h
  cases hw : env.workflowLoad db { ID := p.ID, Key := p.Key } r.workflowName
      (loadOptions r) with
  | error e =>
    simp only [hw] at h
    simp [committed] at h
  | ok wfDB =>
  simp only [hw] at h
  unfold withWorkflow at h
  cases hid : rootApplicationID wfDB with
  | none =>
    simp only [hid] at h
    simp [committed] at h
  | some id =>
  simp only [hid] at h
  cases ha : env.LoadByIDWithClearVCSStrategyPassword db id with
  | error e =>
    simp only [ha] at h
    simp [committed] at h
  | ok oa =>
  cases oa with
  | none =>
    simp only [ha] at h
    simp [committed] at h
  | some rootApp =>
  simp only [ha] at h
  have hout : postWorkflowAsCodeHandler env c db r =
      withRootApplication env c db r p wfDB rootApp
        ([.projectLoad r.key true, .workflowLoad r.workflowName (loadOptions r) true] ++
          [.LoadByIDWithClearVCSStrategyPassword id true]) := by
    simp only [postWorkflowAsCodeHandler, hbm₂, Bool.false_eq_true, if_false, hp, hw,
      withWorkflow, hid, ha]
  refine ⟨p, wfDB, id, rootApp, hb, hmsg, rfl, hw, hid, ha, ?_, ?_⟩
  · intro hm
    rw [hout]
    unfold withRootApplication at h ⊢
    simp only [hm, if_true] at h ⊢
    by_cases hv : (rootApp.VCSServer == "" || rootApp.RepositoryFullname == "") = true
    · simp [hv, committed] at h
    · simp only [hv, Bool.false_eq_true, if_false] at h ⊢
      refine ⟨?_, rfl⟩
      simpa [committed] using h
  · intro hm
    rw [hout]
    unfold withRootApplication at h ⊢
    simp only [hm, Bool.false_eq_true, if_false] at h ⊢
    by_cases hfrom : (wfDB.FromRepository == "") = true
    · simp [hfrom, committed] at h
    · simp only [hfrom, Bool.false_eq_true, if_false] at h ⊢
      cases ht : wfDB.TemplateInstance with
      | some t => simp [ht, committed] at h
      | none =>
        simp only [Option.isSome_none, Bool.false_eq_true, if_false]
        exact ⟨by simpa using hfrom, trivial, rfl⟩

/-- What a settled execution says about the start of the background task. -/
theorem Settled.dispatch {σ δ : Type} {env : Collaborators σ δ} {db : σ} {tag : String}
    {o : Outcome σ} (h : Settled env db tag [] o) :
    (startedTasks o.trace ≠ [] ↔
      (createdOperations o.trace ≠ [] ∧ committed o.trace = true)) ∧
    (startedTasks o.trace).length ≤ 1 ∧
    (startedTasks o.trace ≠ [] →
      createdOperations (beforeFirstTask o.trace) ≠ [] ∧
        committed (beforeFirstTask o.trace) = true) ∧
    (startedTasks o.trace ≠ [] →
      ∃ s ope, Pushed env s ope ∧ env.Commit s = .ok () ∧ o.db = s) ∧
    (o.trace.any Call.failedUpToCommit = true → startedTasks o.trace = []) ∧
    (∀ err, o.result = .error err → writeFailed o.trace = false →
      startedTasks o.trace = []) := by
  obtain ⟨t, ht, hcase⟩ := h
  simp only [List.nil_append] at ht
  rw [ht]
  rcases hcase with ⟨err, h₁, -, h₃, h₄, -⟩ |
    ⟨ope, ed, s, hp, hc, hdb, h₂, h₃, h₄, h₅, -, h₇, h₈, hw⟩
  · simp [h₃, h₄]
  · refine ⟨?_, ?_, ?_, ?_, ?_, ?_⟩
    · simp [h₃, h₄, h₅]
    · simp [h₅]
    · intro _
      simp [h₇, h₈]
    · intro _
      exact ⟨s, ope, hp, hc, hdb⟩
    · intro hf
      rw [h₂] at hf
      cases hf
    · intro err herr hwf
      rcases hw with ⟨-, hw₂, -, -⟩ | ⟨e, -, -, hw₃, -⟩
      · rw [hw₂] at herr
        cases herr
      · rw [hw₃] at hwf
        cases hwf

/-- C11 (background synchronization only after a successful commit): on every execution `o`
of `postWorkflowAsCodeHandler` or of `migrateWorkflowAsCode`, a background task is started
exactly when a push operation was created and `tx.Commit` returned no error; at most one is
started, after both, and then a push collaborator did return the operation and `Commit` did
return no error on the state it left, which is the state persisted.  No task is started when
a call up to the commit failed, nor when an error is returned and `service.WriteJSON`, the one
call made after the task is started, did not fail.  The outcome is the same whatever the task
itself (`UpdateAsCodeResult`) does: the handler starts it and never runs or awaits it. -/
theorem background_task_after_commit {σ δ : Type} (env : Collaborators σ δ)
    (c : sdk.HookConstants) (db : σ) (r : Request) (u : String) (p : sdk.Project)
    (wf : sdk.Workflow) (app : sdk.Application) (branch message : String) (o : Outcome σ)
    (ho : o = postWorkflowAsCodeHandler env c db r ∨
      o = migrateWorkflowAsCode env c db u p wf app branch message) :
    (startedTasks o.trace ≠ [] ↔
      (createdOperations o.trace ≠ [] ∧ committed o.trace = true)) ∧
    (startedTasks o.trace).length ≤ 1 ∧
    (startedTasks o.trace ≠ [] →
      createdOperations (beforeFirstTask o.trace) ≠ [] ∧
        committed (beforeFirstTask o.trace) = true) ∧
    (startedTasks o.trace ≠ [] →
      ∃ s ope, Pushed env s ope ∧ env.Commit s = .ok () ∧ o.db = s) ∧
    (o.trace.any Call.failedUpToCommit = true → startedTasks o.trace = []) ∧
    (∀ err, o.result = .error err → writeFailed o.trace = false →
      startedTasks o.trace = []) ∧
    (∀ task : σ → sdk.ProjectIdentifiers → sdk.Workflow → sdk.Application →
        ascode.EntityData → σ,
      postWorkflowAsCodeHandler { env with UpdateAsCodeResult := task } c db r =
          postWorkflowAsCodeHandler env c db r ∧
        migrateWorkflowAsCode { env with UpdateAsCodeResult := task } c db u p wf app branch
            message =
          migrateWorkflowAsCode env c db u p wf app branch message) := by
  have hd : Settled env db (taskTag r) [] o ∨
      Settled env db "MigrateWorkflowAsCodeResult-" [] o := by
    rcases ho with ho | ho
    · exact Or.inl (ho ▸ settled_postWorkflowAsCodeHandler env c db r)
    · exact Or.inr (ho ▸ settled_migrateWorkflowAsCode env c db u p wf app branch message)
  rcases hd with hd | hd
  · obtain ⟨h₁, h₂, h₃, h₄, h₅, h₆⟩ := hd.dispatch
    exact ⟨h₁, h₂, h₃, h₄, h₅, h₆, fun _ => ⟨rfl, rfl⟩⟩
  · obtain ⟨h₁, h₂, h₃, h₄, h₅, h₆⟩ := hd.dispatch
    exact ⟨h₁, h₂, h₃, h₄, h₅, h₆, fun _ => ⟨rfl, rfl⟩⟩

/-- Witness for C11: on an update where everything succeeds the task is started once, after
the push operation and the commit, and so it is on a migration, where the calls made before
the task is started end with the push operation and the commit; with a failing commit no task
is started, in the update and in the migration; and when only the writing of the response
fails, the task has been started although an error is returned. -/
theorem background_task_after_commit_witness :
    startedTasks (postWorkflowAsCodeHandler (demoEnv (demoWorkflow "git" [] none 7) true)
        demoConstants [] (demoRequest false "b" "m")).trace =
      [("UpdateAsCodeResult-uuid-1",
        { Name := "test_1", ID := 3, Type_ := ascode.WorkflowEvent, FromRepo := "git",
          OperationUUID := "uuid-1" })] ∧
    committed (beforeFirstTask (postWorkflowAsCodeHandler
        (demoEnv (demoWorkflow "git" [] none 7) true) demoConstants []
        (demoRequest false "b" "m")).trace) = true ∧
    beforeFirstTask (migrateWorkflowAsCode (demoEnv (demoWorkflow "" [] none 7) true)
        demoConstants [] "admin" { ID := 1, Key := "KEY" } (demoWorkflow "" [] none 7)
        { VCSServer := "github", RepositoryFullname := "ovh/cds", RepositoryStrategy := "ssh" }
        "b" "m").trace =
      [.Begin true, .Update true, .Pull true, .PushOperation (some demoMigrateOperation),
        .Commit true] ∧
    startedTasks (postWorkflowAsCodeHandler (demoEnv (demoWorkflow "git" [] none 7) false)
        demoConstants [] (demoRequest false "b" "m")).trace = [] ∧
    startedTasks (migrateWorkflowAsCode (demoEnv (demoWorkflow "" [] none 7) false)
        demoConstants [] "admin" { ID := 1, Key := "KEY" } (demoWorkflow "" [] none 7)
        { VCSServer := "github", RepositoryFullname := "ovh/cds", RepositoryStrategy := "ssh" }
        "b" "m").trace = [] ∧
    (postWorkflowAsCodeHandler (demoEnvWriteFails (demoWorkflow "git" [] none 7))
        demoConstants [] (demoRequest false "b" "m")).result =
      .error { base := .Other 2, message := "write" } ∧
    (startedTasks (postWorkflowAsCodeHandler (demoEnvWriteFails (demoWorkflow "git" [] none 7))
        demoConstants [] (demoRequest false "b" "m")).trace).length = 1 := by
  have h₁ := background_task_after_commit (demoEnv (demoWorkflow "git" [] none 7) true)
    demoConstants [] (demoRequest false "b" "m") "admin" { ID := 1, Key := "KEY" }
    (demoWorkflow "" [] none 7)
    { VCSServer := "github", RepositoryFullname := "ovh/cds", RepositoryStrategy := "ssh" }
    "b" "m" _ (Or.inl rfl)
  have h₂ := background_task_after_commit (demoEnv (demoWorkflow "git" [] none 7) false)
    demoConstants [] (demoRequest false "b" "m") "admin" { ID := 1, Key := "KEY" }
    (demoWorkflow "" [] none 7)
    { VCSServer := "github", RepositoryFullname := "ovh/cds", RepositoryStrategy := "ssh" }
    "b" "m" _ (Or.inl rfl)
  have h₃ := background_task_after_commit (demoEnv (demoWorkflow "" [] none 7) false)
    demoConstants [] (demoRequest false "b" "m") "admin" { ID := 1, Key := "KEY" }
    (demoWorkflow "" [] none 7)
    { VCSServer := "github", RepositoryFullname := "ovh/cds", RepositoryStrategy := "ssh" }
    "b" "m" _ (Or.inr rfl)
  refine ⟨by decide, ?_, by decide, ?_, ?_, by decide, by decide⟩
  · exact (h₁.2.2.1 (by decide)).2
  · exact h₂.2.2.2.2.1 (by decide)
  · exact h₃.2.2.2.2.1 (by decide)

/-- What a settled execution says about the persisted state. -/
theorem Settled.persisted {σ δ : Type} {env : Collaborators σ δ} {db : σ} {tag : String}
    {o : Outcome σ} (h : Settled env db tag [] o) :
    (o.trace.any Call.failedUpToCommit = true → (∃ err, o.result = .error err) ∧ o.db = db) ∧
    (committed o.trace = false → (∃ err, o.result = .error err) ∧ o.db = db) ∧
    (∀ err, o.result = .error err →
      o.db = db ∨ (committed o.trace = true ∧ writeFailed o.trace = true)) := by
  obtain ⟨t, ht, hcase⟩ := h
  simp only [List.nil_append] at ht
  rw [ht]
  rcases hcase with ⟨err, h₁, h₂, -, h₄, -⟩ |
    ⟨ope, ed, s, -, -, -, h₂, -, h₄, -, -, -, -, hw⟩
  · exact ⟨fun _ => ⟨⟨err, h₁⟩, h₂⟩, fun _ => ⟨⟨err, h₁⟩, h₂⟩, fun _ _ => Or.inl h₂⟩
  · refine ⟨?_, ?_, ?_⟩
    · intro hf
      rw [h₂] at hf
      cases hf
    · intro hc
      rw [h₄] at hc
      cases hc
    · intro err herr
      rcases hw with ⟨-, hw₂, -, -⟩ | ⟨e, -, -, hw₃, -⟩
      · rw [hw₂] at herr
        cases herr
      · exact Or.inr ⟨h₄, hw₃⟩

/-- C12 (replace-or-fail in `migrateWorkflowAsCode`): on every execution `o` on which a call
up to the commit fails (`workflow.Update`, `workflow.Pull`, `operation.PushOperation` and
`tx.Commit` included) the function returns an error and the persisted state is the state
before the call, and so it is whenever no commit succeeded; the persisted state differs from
the state before only when `Commit` succeeded, and then `workflow.Update` (when no repository
web hook was found), `workflow.Pull`, `operation.PushOperation` and `Commit` all returned no
error, each given what the one before left, and the persisted state is the one `Commit` was
given.  So when one of the four steps fails the state before is kept, the web hook and the
push operation with it.  An error returned with the state changed is the error of
`service.WriteJSON`, called after the commit. -/
theorem migrate_replace_or_fail {σ δ : Type} (env : Collaborators σ δ)
    (c : sdk.HookConstants) (db : σ) (u : String) (p : sdk.Project) (wf : sdk.Workflow)
    (app : sdk.Application) (branch message : String) (o : Outcome σ)
    (ho : o = migrateWorkflowAsCode env c db u p wf app branch message) :
    (o.trace.any Call.failedUpToCommit = true → (∃ err, o.result = .error err) ∧ o.db = db) ∧
    (committed o.trace = false → (∃ err, o.result = .error err) ∧ o.db = db) ∧
    (o.db ≠ db → committed o.trace = true) ∧
    (committed o.trace = true →
      ∃ s₀ wf₁ s₁ data s₂ ope,
        ((foundRepositoryWebHook c wf = true ∧ s₀ = db ∧ wf₁ = wf) ∨
          (foundRepositoryWebHook c wf = false ∧
            env.Update db { ID := p.ID, Key := p.Key } (hookStep c wf) = .ok (s₀, wf₁))) ∧
        env.Pull s₀ { ID := p.ID, Key := p.Key } wf₁.Name = .ok (s₁, data) ∧
        env.PushOperation s₁ p data app.VCSServer app.RepositoryFullname branch message
          app.RepositoryStrategy u = .ok (s₂, ope) ∧
        env.Commit s₂ = .ok () ∧ o.db = s₂) ∧
    (foundRepositoryWebHook c wf = false →
      (∀ s pi w, ∃ err, env.Update s pi w = .error err) →
      (∃ err, o.result = .error err) ∧ o.db = db) ∧
    ((∀ s pi name, ∃ err, env.Pull s pi name = .error err) →
      (∃ err, o.result = .error err) ∧ o.db = db) ∧
    ((∀ s q data vcs repo b m strategy v, ∃ err,
        env.PushOperation s q data vcs repo b m strategy v = .error err) →
      (∃ err, o.result = .error err) ∧ o.db = db) ∧
    ((∀ s, ∃ err, env.Commit s = .error err) →
      (∃ err, o.result = .error err) ∧ o.db = db) ∧
    (∀ err, o.result = .error err →
      o.db = db ∨ (committed o.trace = true ∧ writeFailed o.trace = true)) := by
  subst ho
  have h := (settled_migrateWorkflowAsCode env c db u p wf app branch message).persisted
  have hchar : committed (migrateWorkflowAsCode env c db u p wf app branch message).trace =
      true →
      ∃ s₀ wf₁ s₁ data s₂ ope,
        ((foundRepositoryWebHook c wf = true ∧ s₀ = db ∧ wf₁ = wf) ∨
          (foundRepositoryWebHook c wf = false ∧
            env.Update db { ID := p.ID, Key := p.Key } (hookStep c wf) = .ok (s₀, wf₁))) ∧
        env.Pull s₀ { ID := p.ID, Key := p.Key } wf₁.Name = .ok (s₁, data) ∧
        env.PushOperation s₁ p data app.VCSServer app.RepositoryFullname branch message
          app.RepositoryStrategy u = .ok (s₂, ope) ∧
        env.Commit s₂ = .ok () ∧
        (migrateWorkflowAsCode env c db u p wf app branch message).db = s₂ := by
    intro hc
    obtain ⟨s₀, wf₁, s₁, data, s₂, ope, -, -, h₁, h₂, h₃, h₄, h₅⟩ :=
      migrateWorkflowAsCode_committed env c db u p wf app branch message hc
    exact ⟨s₀, wf₁, s₁, data, s₂, ope, h₁, h₂, h₃, h₄, by rw [h₅]⟩
  have hnot : ∀ {q : Prop},
      (committed (migrateWorkflowAsCode env c db u p wf app branch message).trace = true →
        q → False) → q →
      (∃ err, (migrateWorkflowAsCode env c db u p wf app branch message).result = .error err) ∧
        (migrateWorkflowAsCode env c db u p wf app branch message).db = db := by
    intro q hq hfail
    apply h.2.1
    cases hc : committed (migrateWorkflowAsCode env c db u p wf app branch message).trace with
    | false => rfl
    | true => exact absurd hfail (fun hf => hq hc hf)
  refine ⟨h.1, h.2.1, ?_, hchar, ?_, ?_, ?_, ?_, h.2.2⟩
  · intro hne
    by_contra hc
    exact hne (h.2.1 (by simpa using hc)).2
  · intro hf
    refine hnot ?_
    intro hc hfail
    obtain ⟨s₀, wf₁, -, -, -, -, h₁, -⟩ := hchar hc
    rcases h₁ with ⟨h₁, -⟩ | ⟨-, h₁⟩
    · rw [hf] at h₁
      cases h₁
    · obtain ⟨err, herr⟩ := hfail db { ID := p.ID, Key := p.Key } (hookStep c wf)
      rw [herr] at h₁
      cases h₁
  · refine hnot ?_
    intro hc hfail
    obtain ⟨s₀, wf₁, s₁, data, -, -, -, h₂, -⟩ := hchar hc
    obtain ⟨err, herr⟩ := hfail s₀ { ID := p.ID, Key := p.Key } wf₁.Name
    rw [herr] at h₂
    cases h₂
  · refine hnot ?_
    intro hc hfail
    obtain ⟨-, -, s₁, data, s₂, ope, -, -, h₃, -⟩ := hchar hc
    obtain ⟨err, herr⟩ := hfail s₁ p data app.VCSServer app.RepositoryFullname branch message
      app.RepositoryStrategy u
    rw [herr] at h₃
    cases h₃
  · refine hnot ?_
    intro hc hfail
    obtain ⟨-, -, -, -, s₂, -, -, -, -, h₄, -⟩ := hchar hc
    obtain ⟨err, herr⟩ := hfail s₂
    rw [herr] at h₄
    cases h₄

/-- Witness for C12: a migration that adds the repository web hook and creates the push
operation inside the transaction persists both rows when `Commit` succeeds, and leaves the
database as it was, with an error returned, when `Commit`, `workflow.Pull` or
`operation.PushOperation` fails; when only the writing of the response fails, after the
commit, an error is returned with both rows persisted. -/
theorem migrate_replace_or_fail_witness :
    (migrateWorkflowAsCode (demoEnv (demoWorkflow "" [] none 7) true) demoConstants []
        "admin" { ID := 1, Key := "KEY" } (demoWorkflow "" [] none 7)
        { VCSServer := "github", RepositoryFullname := "ovh/cds", RepositoryStrategy := "ssh" }
        "b" "m").db =
      ["workflow test_1 hooks Scheduler,RepositoryWebHook",
        "operation KEY pulled test_1 github ovh/cds b m ssh admin"] ∧
    (migrateWorkflowAsCode (demoEnv (demoWorkflow "" [] none 7) false) demoConstants []
        "admin" { ID := 1, Key := "KEY" } (demoWorkflow "" [] none 7)
        { VCSServer := "github", RepositoryFullname := "ovh/cds", RepositoryStrategy := "ssh" }
        "b" "m").db = [] ∧
    (∃ err, (migrateWorkflowAsCode (demoEnv (demoWorkflow "" [] none 7) false) demoConstants
        [] "admin" { ID := 1, Key := "KEY" } (demoWorkflow "" [] none 7)
        { VCSServer := "github", RepositoryFullname := "ovh/cds", RepositoryStrategy := "ssh" }
        "b" "m").result = .error err) ∧
    migrateWorkflowAsCode (demoEnvPullFails (demoWorkflow "" [] none 7)) demoConstants []
        "admin" { ID := 1, Key := "KEY" } (demoWorkflow "" [] none 7)
        { VCSServer := "github", RepositoryFullname := "ovh/cds", RepositoryStrategy := "ssh" }
        "b" "m" =
      ⟨.error { base := .Other 3, message := "pull" }, [],
        [.Begin true, .Update true, .Pull false, .Rollback]⟩ ∧
    migrateWorkflowAsCode (demoEnvPushFails (demoWorkflow "" [] none 7)) demoConstants []
        "admin" { ID := 1, Key := "KEY" } (demoWorkflow "" [] none 7)
        { VCSServer := "github", RepositoryFullname := "ovh/cds", RepositoryStrategy := "ssh" }
        "b" "m" =
      ⟨.error { base := .Other 4, message := "push" }, [],
        [.Begin true, .Update true, .Pull true, .PushOperation none, .Rollback]⟩ ∧
    (migrateWorkflowAsCode (demoEnvWriteFails (demoWorkflow "" [] none 7)) demoConstants []
        "admin" { ID := 1, Key := "KEY" } (demoWorkflow "" [] none 7)
        { VCSServer := "github", RepositoryFullname := "ovh/cds", RepositoryStrategy := "ssh" }
        "b" "m").result = .error { base := .Other 2, message := "write" } ∧
    (migrateWorkflowAsCode (demoEnvWriteFails (demoWorkflow "" [] none 7)) demoConstants []
        "admin" { ID := 1, Key := "KEY" } (demoWorkflow "" [] none 7)
        { VCSServer := "github", RepositoryFullname := "ovh/cds", RepositoryStrategy := "ssh" }
        "b" "m").db =
      ["workflow test_1 hooks Scheduler,RepositoryWebHook",
        "operation KEY pulled test_1 github ovh/cds b m ssh admin"] ∧
    writeFailed (migrateWorkflowAsCode (demoEnvWriteFails (demoWorkflow "" [] none 7))
        demoConstants [] "admin" { ID := 1, Key := "KEY" } (demoWorkflow "" [] none 7)
        { VCSServer := "github", RepositoryFullname := "ovh/cds", RepositoryStrategy := "ssh" }
        "b" "m").trace = true := by
  have h₁ := (migrate_replace_or_fail (demoEnv (demoWorkflow "" [] none 7) false)
    demoConstants [] "admin" { ID := 1, Key := "KEY" } (demoWorkflow "" [] none 7)
    { VCSServer := "github", RepositoryFullname := "ovh/cds", RepositoryStrategy := "ssh" }
    "b" "m" _ rfl).2.2.2.2.2.2.2.1 (fun _ => ⟨_, rfl⟩)
  have h₂ := (migrate_replace_or_fail (demoEnvWriteFails (demoWorkflow "" [] none 7))
    demoConstants [] "admin" { ID := 1, Key := "KEY" } (demoWorkflow "" [] none 7)
    { VCSServer := "github", RepositoryFullname := "ovh/cds", RepositoryStrategy := "ssh" }
    "b" "m" _ rfl).2.2.2.2.2.2.2.2 { base := .Other 2, message := "write" } (by decide)
  refine ⟨by decide, by decide, h₁.1, by decide, by decide, by decide, by decide, ?_⟩
  rcases h₂ with h₂ | h₂
  · exact absurd h₂ (by decide)
  · exact h₂.2

/-- An execution that writes a response has a successful commit in its trace. -/
theorem Settled.committed_of_ok {σ δ : Type} {env : Collaborators σ δ} {db : σ}
    {tag : String} {o : Outcome σ} (h : Settled env db tag [] o) (resp : Response)
    (hok : o.result = .ok resp) : committed o.trace = true := by
  cases hc : committed o.trace with
  | true => rfl
  | false =>
    obtain ⟨⟨err, herr⟩, -⟩ := h.persisted.2.1 hc
    rw [herr] at hok
    cases hok

/-- C13 (correlation identifier): on every successful execution of `migrateWorkflowAsCode`,
`workflow.Pull`, `operation.PushOperation` (given the exported data, the repository of the
application, the branch, the message and the consumer) and `tx.Commit` returned no error, and
with `ope` the operation `PushOperation` returned, the response is status 200 with the
operation that has the UUID and Status of `ope` and every other field empty, it was written
by `service.WriteJSON`, and the one background task started is named
`MigrateWorkflowAsCodeResult-` followed by the UUID of `ope` and has that UUID as
`OperationUUID`.  On every successful execution of `postWorkflowAsCodeHandler` the project,
the workflow and the root application were loaded; with `migrate` set the outcome is that of
the migration on them, after the three loads; otherwise the same holds with
`PushOperationUpdate`, given the export of the request body, and the task name prefix
`UpdateAsCodeResult-`.  The result is the same whatever the task (`UpdateAsCodeResult`)
does. -/
theorem correlation_identifier {σ δ : Type} (env : Collaborators σ δ)
    (c : sdk.HookConstants) (db : σ) (r : Request) (u : String) (p : sdk.Project)
    (wf : sdk.Workflow) (app : sdk.Application) (branch message : String) :
    (∀ resp, (migrateWorkflowAsCode env c db u p wf app branch message).result = .ok resp →
      ∃ s₀ wf₁ s₁ data s₂ ope,
        ((foundRepositoryWebHook c wf = true ∧ s₀ = db ∧ wf₁ = wf) ∨
          (foundRepositoryWebHook c wf = false ∧
            env.Update db { ID := p.ID, Key := p.Key } (hookStep c wf) = .ok (s₀, wf₁))) ∧
        env.Pull s₀ { ID := p.ID, Key := p.Key } wf₁.Name = .ok (s₁, data) ∧
        env.PushOperation s₁ p data app.VCSServer app.RepositoryFullname branch message
          app.RepositoryStrategy u = .ok (s₂, ope) ∧
        env.Commit s₂ = .ok () ∧
        resp = { status := 200,
                 body := { UUID := ope.UUID, URL := "", Status := ope.Status, Rest := "" } } ∧
        env.WriteJSON resp.body 200 = .ok () ∧
        Call.WriteJSON resp.body 200 true ∈
          (migrateWorkflowAsCode env c db u p wf app branch message).trace ∧
        createdOperations (migrateWorkflowAsCode env c db u p wf app branch message).trace =
          [ope] ∧
        startedTasks (migrateWorkflowAsCode env c db u p wf app branch message).trace =
          [("MigrateWorkflowAsCodeResult-" ++ ope.UUID,
            { Name := wf₁.Name, ID := wf₁.ID, Type_ := ascode.WorkflowEvent,
              FromRepo := ope.URL, OperationUUID := ope.UUID })]) ∧
    (∀ resp, (postWorkflowAsCodeHandler env c db r).result = .ok resp →
      ∃ q wfDB id rootApp,
        env.projectLoad db r.key = .ok q ∧
        env.workflowLoad db { ID := q.ID, Key := q.Key } r.workflowName (loadOptions r) =
          .ok wfDB ∧
        rootApplicationID wfDB = some id ∧
        env.LoadByIDWithClearVCSStrategyPassword db id = .ok (some rootApp) ∧
        (r.migrate = true →
          postWorkflowAsCodeHandler env c db r =
            ⟨(migrateWorkflowAsCode env c db r.consumer q wfDB rootApp r.branch
                r.message).result,
              (migrateWorkflowAsCode env c db r.consumer q wfDB rootApp r.branch r.message).db,
              [.projectLoad r.key true, .workflowLoad r.workflowName (loadOptions r) true,
                .LoadByIDWithClearVCSStrategyPassword id true] ++
                (migrateWorkflowAsCode env c db r.consumer q wfDB rootApp r.branch
                  r.message).trace⟩) ∧
        (r.migrate = false →
          ∃ w w₁ w₂ w₃ data s ope,
            env.UnmarshalBody r.body = .ok w ∧
            env.RenameNode db w = .ok w₁ ∧
            env.CheckValidity db w₁ = .ok w₂ ∧
            env.CompleteWorkflow db w₂ { ID := q.ID, Key := q.Key }
              { DeepPipeline := true, WithAsCodeUpdateEvent := false, WithTemplate := false } =
                .ok w₃ ∧
            env.NewWorkflow w₃ = .ok data ∧
            env.PushOperationUpdate db q data rootApp.VCSServer rootApp.RepositoryFullname
              r.branch r.message rootApp.RepositoryStrategy r.consumer = .ok (s, ope) ∧
            env.Commit s = .ok () ∧
            resp = { status := 200,
                     body := { UUID := ope.UUID, URL := "", Status := ope.Status,
                               Rest := "" } } ∧
            env.WriteJSON resp.body 200 = .ok () ∧
            Call.WriteJSON resp.body 200 true ∈ (postWorkflowAsCodeHandler env c db r).trace ∧
            createdOperations (postWorkflowAsCodeHandler env c db r).trace = [ope] ∧
            startedTasks (postWorkflowAsCodeHandler env c db r).trace =
              [("UpdateAsCodeResult-" ++ ope.UUID,
                { Name := wfDB.Name, ID := wfDB.ID, Type_ := ascode.WorkflowEvent,
                  FromRepo := wfDB.FromRepository, OperationUUID := ope.UUID })])) ∧
    (∀ task : σ → sdk.ProjectIdentifiers → sdk.Workflow → sdk.Application →
        ascode.EntityData → σ,
      (postWorkflowAsCodeHandler { env with UpdateAsCodeResult := task } c db r).result =
          (postWorkflowAsCodeHandler env c db r).result ∧
        (migrateWorkflowAsCode { env with UpdateAsCodeResult := task } c db u p wf app branch
            message).result =
          (migrateWorkflowAsCode env c db u p wf app branch message).result) := by
  refine ⟨?_, ?_, fun _ => ⟨rfl, rfl⟩⟩
  · intro resp hok
    have hc := (settled_migrateWorkflowAsCode env c db u p wf app branch
      message).committed_of_ok resp hok
    obtain ⟨s₀, wf₁, s₁, data, s₂, ope, -, -, h₁, h₂, h₃, h₄, h₅⟩ :=
      migrateWorkflowAsCode_committed env c db u p wf app branch message hc
    rw [h₅] at hok ⊢
    simp only at hok ⊢
    cases hW : env.WriteJSON (operationResponse ope).body 200 with
    | error e =>
      rw [hW] at hok
      cases hok
    | ok z =>
      rw [hW] at hok
      simp only [Except.map, Except.ok.injEq] at hok
      subst hok
      refine ⟨s₀, wf₁, s₁, data, s₂, ope, h₁, h₂, h₃, h₄, rfl, hW, ?_, ?_, ?_⟩
      · simp [Except.toBool]
      · split <;> simp [createdOperations]
      · split <;> simp [startedTasks, migrateEntityData]
  · intro resp hok
    have hc := (settled_postWorkflowAsCodeHandler env c db r).committed_of_ok resp hok
    obtain ⟨q, wfDB, id, rootApp, -, -, hp, hw, hid, ha, hmig, hupd⟩ :=
      postWorkflowAsCodeHandler_committed env c db r hc
    refine ⟨q, wfDB, id, rootApp, hp, hw, hid, ha, fun hm => (hmig hm).2, ?_⟩
    intro hm
    obtain ⟨-, -, hout⟩ := hupd hm
    rw [hout] at hc hok ⊢
    obtain ⟨w, w₁, w₂, w₃, data, s, ope, h₁, h₂, h₃, h₄, h₅, -, h₇, h₈, h₉⟩ :=
      updateWorkflowAsCode_committed env db r q { ID := q.ID, Key := q.Key } wfDB rootApp _
        (by simp [committed]) hc
    rw [h₉] at hok ⊢
    simp only at hok ⊢
    cases hW : env.WriteJSON (operationResponse ope).body 200 with
    | error e =>
      rw [hW] at hok
      cases hok
    | ok z =>
      rw [hW] at hok
      simp only [Except.map, Except.ok.injEq] at hok
      subst hok
      refine ⟨w, w₁, w₂, w₃, data, s, ope, h₁, h₂, h₃, h₄, h₅, h₇, h₈, rfl, hW, ?_, ?_, ?_⟩
      · simp [Except.toBool]
      · simp [createdOperations]
      · simp [startedTasks, updateEntityData]

/-- Witness for C13: a successful update answers 200 with the operation `uuid-1` that
`PushOperationUpdate` returned, without its URL and its other fields, and starts the task
`UpdateAsCodeResult-uuid-1`; the row persisted shows what `PushOperationUpdate` was given.  A
successful migration answers 200 with the operation `uuid-2` that `PushOperation` returned and
starts the task `MigrateWorkflowAsCodeResult-uuid-2`, whose entity data has the URL of the
operation as `FromRepo`. -/
theorem correlation_identifier_witness :
    (postWorkflowAsCodeHandler (demoEnv (demoWorkflow "git" [] none 7) true) demoConstants []
        (demoRequest false "b" "m")).result =
      .ok { status := 200, body := { UUID := "uuid-1", URL := "", Status := 1, Rest := "" } } ∧
    startedTasks (postWorkflowAsCodeHandler (demoEnv (demoWorkflow "git" [] none 7) true)
        demoConstants [] (demoRequest false "b" "m")).trace =
      [("UpdateAsCodeResult-uuid-1",
        { Name := "test_1", ID := 3, Type_ := ascode.WorkflowEvent, FromRepo := "git",
          OperationUUID := "uuid-1" })] ∧
    (postWorkflowAsCodeHandler (demoEnv (demoWorkflow "git" [] none 7) true) demoConstants []
        (demoRequest false "b" "m")).db =
      ["operation KEY exported test_1 github ovh/cds b m ssh admin"] ∧
    (migrateWorkflowAsCode (demoEnv (demoWorkflow "" [] none 7) true) demoConstants []
        "admin" { ID := 1, Key := "KEY" } (demoWorkflow "" [] none 7)
        { VCSServer := "github", RepositoryFullname := "ovh/cds", RepositoryStrategy := "ssh" }
        "b" "m").result =
      .ok { status := 200, body := { UUID := "uuid-2", URL := "", Status := 0, Rest := "" } } ∧
    startedTasks (migrateWorkflowAsCode (demoEnv (demoWorkflow "" [] none 7) true)
        demoConstants [] "admin" { ID := 1, Key := "KEY" } (demoWorkflow "" [] none 7)
        { VCSServer := "github", RepositoryFullname := "ovh/cds", RepositoryStrategy := "ssh" }
        "b" "m").trace =
      [("MigrateWorkflowAsCodeResult-uuid-2",
        { Name := "test_1", ID := 3, Type_ := ascode.WorkflowEvent,
          FromRepo := "https://github.com/ovh/cds", OperationUUID := "uuid-2" })] := by
  have h := correlation_identifier (demoEnv (demoWorkflow "git" [] none 7) true)
    demoConstants [] (demoRequest false "b" "m") "admin" { ID := 1, Key := "KEY" }
    (demoWorkflow "" [] none 7)
    { VCSServer := "github", RepositoryFullname := "ovh/cds", RepositoryStrategy := "ssh" }
    "b" "m"
  have h₂ := correlation_identifier (demoEnv (demoWorkflow "" [] none 7) true)
    demoConstants [] (demoRequest false "b" "m") "admin" { ID := 1, Key := "KEY" }
    (demoWorkflow "" [] none 7)
    { VCSServer := "github", RepositoryFullname := "ovh/cds", RepositoryStrategy := "ssh" }
    "b" "m"
  have hok₁ : (postWorkflowAsCodeHandler (demoEnv (demoWorkflow "git" [] none 7) true)
      demoConstants [] (demoRequest false "b" "m")).result =
      .ok { status := 200, body := { UUID := "uuid-1", URL := "", Status := 1, Rest := "" } } := by
    decide
  have hok₂ : (migrateWorkflowAsCode (demoEnv (demoWorkflow "" [] none 7) true)
      demoConstants [] "admin" { ID := 1, Key := "KEY" } (demoWorkflow "" [] none 7)
      { VCSServer := "github", RepositoryFullname := "ovh/cds", RepositoryStrategy := "ssh" }
      "b" "m").result =
      .ok { status := 200, body := { UUID := "uuid-2", URL := "", Status := 0, Rest := "" } } := by
    decide
  obtain ⟨q, wfDB, id, rootApp, hq, hwf, -, -, -, hupd⟩ := h.2.1 _ hok₁
  obtain ⟨w, w₁, w₂, w₃, data, s, ope, -, -, -, -, -, hpush, -, -, -, -, -, htasks⟩ := hupd rfl
  have hwfDB : wfDB = demoWorkflow "git" [] none 7 := (Except.ok.inj hwf).symm
  have hope : ope = demoOperation := (Prod.mk.inj (Except.ok.inj hpush)).2.symm
  subst hwfDB hope
  obtain ⟨s₀, wf₁, s₁, data₂, s₂, ope₂, hstep, -, hpush₂, -, -, -, -, -, htasks₂⟩ :=
    h₂.1 _ hok₂
  have hope₂ : ope₂ = demoMigrateOperation := (Prod.mk.inj (Except.ok.inj hpush₂)).2.symm
  have hwf₁ : wf₁.Name = "test_1" ∧ wf₁.ID = 3 := by
    rcases hstep with ⟨-, -, hw⟩ | ⟨-, hu⟩
    · rw [hw]
      exact ⟨rfl, rfl⟩
    · have hw := (Prod.mk.inj (Except.ok.inj hu)).2
      rw [← hw]
      exact ⟨rfl, rfl⟩
  subst hope₂
  rw [hwf₁.1, hwf₁.2] at htasks₂
  exact ⟨hok₁, htasks, by decide, hok₂, htasks₂⟩

theorem trace_ne_nil_of_settled {σ δ : Type} {env : Collaborators σ δ} {db : σ}
    {tag : String} {pre : List Call} {o : Outcome σ} (h : Settled env db tag pre o)
    (hpre : pre ≠ []) : o.trace ≠ [] := by
  obtain ⟨t, ht, -⟩ := h
  rw [ht]
  simp [hpre]

/-- C14 (only an as-code workflow can be updated): for a request with `migrate` false and
non-empty branch and message whose project, workflow and root application load, the handler
returns `ErrForbidden` "cannot update a workflow that is not ascode" when the stored workflow
has an empty `FromRepository`; the three loads are the only calls made, so the body is not
read, no transaction is opened, no push operation is created and no background task is
started, and the persisted state stays as it was. -/
theorem update_requires_as_code {σ δ : Type} (env : Collaborators σ δ)
    (c : sdk.HookConstants) (db : σ) (r : Request) (p : sdk.Project) (wfDB : sdk.Workflow)
    (id : Int) (rootApp : sdk.Application)
    (hm : r.migrate = false) (hb : r.branch ≠ "") (hmsg : r.message ≠ "")
    (hp : env.projectLoad db r.key = .ok p)
    (hw : env.workflowLoad db { ID := p.ID, Key := p.Key } r.workflowName (loadOptions r) =
      .ok wfDB)
    (hid : rootApplicationID wfDB = some id)
    (ha : env.LoadByIDWithClearVCSStrategyPassword db id = .ok (some rootApp))
    (hfrom : wfDB.FromRepository = "") :
    (postWorkflowAsCodeHandler env c db r).result =
      .error (sdk.NewErrorFrom .ErrForbidden "cannot update a workflow that is not ascode") ∧
    (postWorkflowAsCodeHandler env c db r).db = db ∧
    (postWorkflowAsCodeHandler env c db r).trace =
      [.projectLoad r.key true, .workflowLoad r.workflowName (loadOptions r) true,
        .LoadByIDWithClearVCSStrategyPassword id true] ∧
    (∀ ok, Call.UnmarshalBody ok ∉ (postWorkflowAsCodeHandler env c db r).trace) ∧
    (∀ ok, Call.Begin ok ∉ (postWorkflowAsCodeHandler env c db r).trace) ∧
    (∀ ope, Call.PushOperationUpdate ope ∉ (postWorkflowAsCodeHandler env c db r).trace) ∧
    createdOperations (postWorkflowAsCodeHandler env c db r).trace = [] ∧
    startedTasks (postWorkflowAsCodeHandler env c db r).trace = [] := by
  have hout : postWorkflowAsCodeHandler env c db r =
      ⟨.error (sdk.NewErrorFrom .ErrForbidden "cannot update a workflow that is not ascode"),
        db, [.projectLoad r.key true, .workflowLoad r.workflowName (loadOptions r) true,
          .LoadByIDWithClearVCSStrategyPassword id true]⟩ := by
    simp [postWorkflowAsCodeHandler, hb, hmsg, hp, hw, withWorkflow, hid, ha,
      withRootApplication, hm, hfrom]
  rw [hout]
  simp [createdOperations, startedTasks]

/-- Witness for C14: the update of a stored workflow with an empty `FromRepository` is
refused after the three loads. -/
theorem update_requires_as_code_witness :
    (postWorkflowAsCodeHandler (demoEnv (demoWorkflow "" [] none 7) true) demoConstants []
        (demoRequest false "b" "m")).result =
      .error (sdk.NewErrorFrom .ErrForbidden "cannot update a workflow that is not ascode") ∧
    (postWorkflowAsCodeHandler (demoEnv (demoWorkflow "" [] none 7) true) demoConstants []
        (demoRequest false "b" "m")).trace.length = 3 :=
  have h := update_requires_as_code (demoEnv (demoWorkflow "" [] none 7) true) demoConstants
    [] (demoRequest false "b" "m") { ID := 1, Key := "KEY" } (demoWorkflow "" [] none 7) 7
    { VCSServer := "github", RepositoryFullname := "ovh/cds", RepositoryStrategy := "ssh" }
    rfl (by decide) (by decide) rfl rfl rfl rfl rfl
  ⟨h.1, by rw [h.2.2.1]; rfl⟩

/-- C16 (missing branch or message is rejected first): whatever the request, the handler
returns `ErrWrongRequest` "missing branch or message data" without having called any
collaborator exactly when the `branch` or the `message` form value is empty, and it then
leaves the persisted state as it was. -/
theorem missing_branch_or_message_rejected_first {σ δ : Type} (env : Collaborators σ δ)
    (c : sdk.HookConstants) (db : σ) (r : Request) :
    (((postWorkflowAsCodeHandler env c db r).result =
          .error (sdk.NewErrorFrom .ErrWrongRequest "missing branch or message data") ∧
        (postWorkflowAsCodeHandler env c db r).trace = []) ↔
      (r.branch = "" ∨ r.message = "")) ∧
    ((r.branch = "" ∨ r.message = "") → (postWorkflowAsCodeHandler env c db r).db = db) := by
  by_cases h : r.branch = "" ∨ r.message = ""
  · have hb : (r.branch == "" || r.message == "") = true := by simpa using h
    simp [postWorkflowAsCodeHandler, hb, h]
  · have hb : (r.branch == "" || r.message == "") = false := by simpa using h
    refine ⟨?_, fun h' => absurd h' h⟩
    simp only [h, iff_false, not_and]
    intro _
    simp only [postWorkflowAsCodeHandler, hb]
    cases env.projectLoad db r.key with
    | error e => simp
    | ok p =>
      simp only
      cases env.workflowLoad db { ID := p.ID, Key := p.Key } r.workflowName (loadOptions r) with
      | error e => simp
      | ok wfDB =>
        exact trace_ne_nil_of_settled (settled_withWorkflow env c db r p wfDB _) (by simp)

/-- Witness for C16: with an empty message nothing is loaded, whatever the migrate flag. -/
theorem missing_branch_or_message_rejected_first_witness :
    (postWorkflowAsCodeHandler (demoEnv (demoWorkflow "git" [] none 7) true) demoConstants []
        (demoRequest true "b" "")).trace = [] ∧
    (postWorkflowAsCodeHandler (demoEnv (demoWorkflow "git" [] none 7) true) demoConstants []
        (demoRequest false "" "m")).result =
      .error (sdk.NewErrorFrom .ErrWrongRequest "missing branch or message data") :=
  ⟨((missing_branch_or_message_rejected_first (demoEnv (demoWorkflow "git" [] none 7) true)
      demoConstants [] (demoRequest true "b" "")).1.2 (Or.inr rfl)).2,
    ((missing_branch_or_message_rejected_first (demoEnv (demoWorkflow "git" [] none 7) true)
      demoConstants [] (demoRequest false "" "m")).1.2 (Or.inl rfl)).1⟩

theorem alreadyAsCode_iff (wf : sdk.Workflow) :
    alreadyAsCode wf = true ↔ (wf.FromRepository ≠ "" ∨ wf.AsCodeEvent ≠ []) := by
  unfold alreadyAsCode
  by_cases hf : wf.FromRepository = ""
  · cases he : wf.AsCodeEvent <;> simp [hf]
  · simp [hf]

/-- C17 (migration is refused exactly for workflows that are already as-code): the guard of
`migrateWorkflowAsCode` as written equals, for every workflow, the guard "`FromRepository`
is non-empty or there is an as-code event"; the function returns
`sdk.ErrWorkflowAlreadyAsCode` without having called any collaborator, so before a
transaction is opened, exactly when that guard holds, and then leaves the persisted state as
it was; a workflow with empty `FromRepository` and no as-code event passes the guard and a
transaction is asked for. -/
theorem migration_refused_iff_already_as_code {σ δ : Type} (env : Collaborators σ δ)
    (c : sdk.HookConstants) (db : σ) (u : String) (p : sdk.Project) (wf : sdk.Workflow)
    (app : sdk.Application) (branch message : String) :
    alreadyAsCode wf = alreadyAsCodeSimplified wf ∧
    (alreadyAsCode wf = true ↔ (wf.FromRepository ≠ "" ∨ wf.AsCodeEvent ≠ [])) ∧
    (((migrateWorkflowAsCode env c db u p wf app branch message).result =
          .error (sdk.WithStack sdk.ErrWorkflowAlreadyAsCode) ∧
        (migrateWorkflowAsCode env c db u p wf app branch message).trace = []) ↔
      (wf.FromRepository ≠ "" ∨ wf.AsCodeEvent ≠ [])) ∧
    ((wf.FromRepository ≠ "" ∨ wf.AsCodeEvent ≠ []) →
      (migrateWorkflowAsCode env c db u p wf app branch message).db = db) ∧
    (wf.FromRepository = "" → wf.AsCodeEvent = [] →
      alreadyAsCode wf = false ∧
        ∃ ok rest, (migrateWorkflowAsCode env c db u p wf app branch message).trace =
          .Begin ok :: rest) := by
  have hiff := alreadyAsCode_iff wf
  have hsimp : alreadyAsCode wf = alreadyAsCodeSimplified wf := by
    unfold alreadyAsCode alreadyAsCodeSimplified
    by_cases hf : wf.FromRepository = ""
    · simp [hf]
    · have hne : (wf.FromRepository != "") = true := by simpa using hf
      rw [hne]
      rfl
  have hpass : alreadyAsCode wf = false →
      ∃ ok rest, (migrateWorkflowAsCode env c db u p wf app branch message).trace =
        .Begin ok :: rest := by
    intro hg
    simp only [migrateWorkflowAsCode, hg, Bool.false_eq_true, if_false]
    cases env.Begin db with
    | error e => exact ⟨false, [], rfl⟩
    | ok _ =>
      simp only
      split
      · obtain ⟨t, ht, -⟩ := settled_migrateAfterHook env (Transaction.Begin db) u p
          { ID := p.ID, Key := p.Key } wf app branch message [.Begin true] rfl
        exact ⟨true, t, by rw [ht]; rfl⟩
      · split
        · exact ⟨true, _, rfl⟩
        · rename_i s₁ wf₁ _
          obtain ⟨t, ht, -⟩ := settled_migrateAfterHook env ((Transaction.Begin db).Exec s₁) u
            p { ID := p.ID, Key := p.Key } wf₁ app branch message [.Begin true, .Update true]
            rfl
          exact ⟨true, .Update true :: t, by rw [ht]; rfl⟩
  refine ⟨hsimp, hiff, ?_, ?_, ?_⟩
  · constructor
    · rintro ⟨-, htrace⟩
      by_contra hno
      have hg : alreadyAsCode wf = false := by
        cases hq : alreadyAsCode wf with
        | false => rfl
        | true => exact absurd (hiff.1 hq) hno
      obtain ⟨ok, rest, hrest⟩ := hpass hg
      rw [hrest] at htrace
      cases htrace
    · intro h
      have hg := hiff.2 h
      simp [migrateWorkflowAsCode, hg]
  · intro h
    have hg := hiff.2 h
    simp [migrateWorkflowAsCode, hg]
  · intro hf he
    have hg : alreadyAsCode wf = false := by
      cases hq : alreadyAsCode wf with
      | false => rfl
      | true =>
        rcases hiff.1 hq with h | h
        · exact absurd hf h
        · exact absurd he h
    exact ⟨hg, hpass hg⟩

/-- Witness for C17: a workflow with empty `FromRepository` but one as-code event is refused
before any call; one with neither opens a transaction. -/
theorem migration_refused_iff_already_as_code_witness :
    ((migrateWorkflowAsCode (demoEnv (demoWorkflow "" [{ ID := 1 }] none 7) true)
        demoConstants [] "admin" { ID := 1, Key := "KEY" }
        (demoWorkflow "" [{ ID := 1 }] none 7)
        { VCSServer := "github", RepositoryFullname := "ovh/cds", RepositoryStrategy := "ssh" }
        "b" "m").result = .error (sdk.WithStack sdk.ErrWorkflowAlreadyAsCode) ∧
      (migrateWorkflowAsCode (demoEnv (demoWorkflow "" [{ ID := 1 }] none 7) true)
        demoConstants [] "admin" { ID := 1, Key := "KEY" }
        (demoWorkflow "" [{ ID := 1 }] none 7)
        { VCSServer := "github", RepositoryFullname := "ovh/cds", RepositoryStrategy := "ssh" }
        "b" "m").trace = []) ∧
    ∃ ok rest, (migrateWorkflowAsCode (demoEnv (demoWorkflow "" [] none 7) true)
        demoConstants [] "admin" { ID := 1, Key := "KEY" } (demoWorkflow "" [] none 7)
        { VCSServer := "github", RepositoryFullname := "ovh/cds", RepositoryStrategy := "ssh" }
        "b" "m").trace = .Begin ok :: rest :=
  ⟨(migration_refused_iff_already_as_code (demoEnv (demoWorkflow "" [{ ID := 1 }] none 7) true)
      demoConstants [] "admin" { ID := 1, Key := "KEY" } (demoWorkflow "" [{ ID := 1 }] none 7)
      { VCSServer := "github", RepositoryFullname := "ovh/cds", RepositoryStrategy := "ssh" }
      "b" "m").2.2.1.2 (Or.inr (by decide)),
    ((migration_refused_iff_already_as_code (demoEnv (demoWorkflow "" [] none 7) true)
      demoConstants [] "admin" { ID := 1, Key := "KEY" } (demoWorkflow "" [] none 7)
      { VCSServer := "github", RepositoryFullname := "ovh/cds", RepositoryStrategy := "ssh" }
      "b" "m").2.2.2.2 rfl rfl).2⟩

/-- C18 (a root application is required in both modes): for a request with non-empty branch
and message whose project and workflow load, the handler returns `ErrWrongRequest` "cannot
find the root application of the workflow" when the root node of the stored workflow has no
context or its `ApplicationID` is 0, whatever the migrate flag; the two loads are the only
calls made, so no application is loaded, the migration is not entered, the body is not read
and no push operation is created. -/
theorem root_application_required {σ δ : Type} (env : Collaborators σ δ)
    (c : sdk.HookConstants) (db : σ) (r : Request) (p : sdk.Project) (wfDB : sdk.Workflow)
    (hb : r.branch ≠ "") (hmsg : r.message ≠ "")
    (hp : env.projectLoad db r.key = .ok p)
    (hw : env.workflowLoad db { ID := p.ID, Key := p.Key } r.workflowName (loadOptions r) =
      .ok wfDB)
    (hctx : wfDB.WorkflowData.Node.Context = none ∨
      ∃ ctx, wfDB.WorkflowData.Node.Context = some ctx ∧ ctx.ApplicationID = 0) :
    (postWorkflowAsCodeHandler env c db r).result =
      .error (sdk.NewErrorFrom .ErrWrongRequest
        "cannot find the root application of the workflow") ∧
    (postWorkflowAsCodeHandler env c db r).db = db ∧
    (postWorkflowAsCodeHandler env c db r).trace =
      [.projectLoad r.key true, .workflowLoad r.workflowName (loadOptions r) true] ∧
    (∀ id ok, Call.LoadByIDWithClearVCSStrategyPassword id ok ∉
      (postWorkflowAsCodeHandler env c db r).trace) ∧
    (∀ ok, Call.Begin ok ∉ (postWorkflowAsCodeHandler env c db r).trace) ∧
    (∀ ok, Call.UnmarshalBody ok ∉ (postWorkflowAsCodeHandler env c db r).trace) ∧
    createdOperations (postWorkflowAsCodeHandler env c db r).trace = [] := by
  have hid : rootApplicationID wfDB = none := by
    unfold rootApplicationID
    rcases hctx with h | ⟨ctx, h, h0⟩
    · simp [h]
    · simp [h, h0]
  have hout : postWorkflowAsCodeHandler env c db r =
      ⟨.error (sdk.NewErrorFrom .ErrWrongRequest
        "cannot find the root application of the workflow"),
        db, [.projectLoad r.key true, .workflowLoad r.workflowName (loadOptions r) true]⟩ := by
    simp [postWorkflowAsCodeHandler, hb, hmsg, hp, hw, withWorkflow, hid]
  rw [hout]
  simp [createdOperations]

/-- Witness for C18: a stored workflow whose root node has application 0 is refused in
update mode and in migrate mode alike, after the two loads. -/
theorem root_application_required_witness :
    (postWorkflowAsCodeHandler (demoEnv (demoWorkflow "git" [] none 0) true) demoConstants []
        (demoRequest false "b" "m")).trace.length = 2 ∧
    (postWorkflowAsCodeHandler (demoEnv (demoWorkflow "git" [] none 0) true) demoConstants []
        (demoRequest true "b" "m")).result =
      .error (sdk.NewErrorFrom .ErrWrongRequest
        "cannot find the root application of the workflow") :=
  have h₁ := root_application_required (demoEnv (demoWorkflow "git" [] none 0) true)
    demoConstants [] (demoRequest false "b" "m") { ID := 1, Key := "KEY" }
    (demoWorkflow "git" [] none 0) (by decide) (by decide) rfl rfl
    (Or.inr ⟨{ ApplicationID := 0, PipelineID := 1 }, rfl, rfl⟩)
  have h₂ := root_application_required (demoEnv (demoWorkflow "git" [] none 0) true)
    demoConstants [] (demoRequest true "b" "m") { ID := 1, Key := "KEY" }
    (demoWorkflow "git" [] none 0) (by decide) (by decide) rfl rfl
    (Or.inr ⟨{ ApplicationID := 0, PipelineID := 1 }, rfl, rfl⟩)
  ⟨by rw [h₁.2.2.1]; rfl, h₂.1⟩

theorem migrateAfterHook_congr {σ δ : Type} (env : Collaborators σ δ)
    (tx : Transaction σ) (u : String) (p : sdk.Project) (projIdent : sdk.ProjectIdentifiers)
    (wf wf₂ : sdk.Workflow) (app : sdk.Application) (branch message : String)
    (pre : List Call) (hname : wf₂.Name = wf.Name) (hid : wf₂.ID = wf.ID) :
    migrateAfterHook env tx u p projIdent wf₂ app branch message pre =
      migrateAfterHook env tx u p projIdent wf app branch message pre := by
  unfold migrateAfterHook migrateEntityData
  rw [hname, hid]

/-- A migration does the same for two stored workflows that differ in their template
instance only, when `workflow.Update` does. -/
theorem migrateWorkflowAsCode_template {σ δ : Type} (env : Collaborators σ δ)
    (c : sdk.HookConstants) (db : σ) (u : String) (p : sdk.Project) (wf : sdk.Workflow)
    (app : sdk.Application) (branch message : String)
    (t : Option sdk.WorkflowTemplateInstance)
    (hU : ∀ (tx : σ) (pi : sdk.ProjectIdentifiers) (w : sdk.Workflow),
      (env.Update tx pi { w with TemplateInstance := t }).map
          (fun x => (x.1, x.2.Name, x.2.ID)) =
        (env.Update tx pi w).map (fun x => (x.1, x.2.Name, x.2.ID))) :
    migrateWorkflowAsCode env c db u p { wf with TemplateInstance := t } app branch message =
      migrateWorkflowAsCode env c db u p wf app branch message := by
  have hg : alreadyAsCode { wf with TemplateInstance := t } = alreadyAsCode wf := rfl
  have hf : foundRepositoryWebHook c { wf with TemplateInstance := t } =
      foundRepositoryWebHook c wf := rfl
  have ha : appendRepositoryWebHook c { wf with TemplateInstance := t } =
      { appendRepositoryWebHook c wf with TemplateInstance := t } := rfl
  unfold migrateWorkflowAsCode
  simp only [hg, hf, ha]
  split
  · rfl
  · split
    · rfl
    · split
      · exact migrateAfterHook_congr _ _ _ _ _ _ _ _ _ _ _ rfl rfl
      · have hu := hU (Transaction.Begin db).working { ID := p.ID, Key := p.Key }
          (appendRepositoryWebHook c wf)
        cases h₁ : env.Update (Transaction.Begin db).working { ID := p.ID, Key := p.Key }
            (appendRepositoryWebHook c wf) with
        | error e₁ =>
          cases h₂ : env.Update (Transaction.Begin db).working { ID := p.ID, Key := p.Key }
              { appendRepositoryWebHook c wf with TemplateInstance := t } with
          | error e₂ =>
            rw [h₁, h₂] at hu
            simp only [Except.map] at hu
            cases hu
            rfl
          | ok x₂ =>
            rw [h₁, h₂] at hu
            simp only [Except.map] at hu
            cases hu
        | ok x₁ =>
          cases h₂ : env.Update (Transaction.Begin db).working { ID := p.ID, Key := p.Key }
              { appendRepositoryWebHook c wf with TemplateInstance := t } with
          | error e₂ =>
            rw [h₁, h₂] at hu
            simp only [Except.map] at hu
            cases hu
          | ok x₂ =>
            rw [h₁, h₂] at hu
            simp only [Except.map, Except.ok.injEq, Prod.mk.injEq] at hu
            obtain ⟨tx₁, w₁⟩ := x₁
            obtain ⟨tx₂, w₂⟩ := x₂
            simp only at hu ⊢
            obtain ⟨htx, hn, hi⟩ := hu
            subst htx
            exact migrateAfterHook_congr _ _ _ _ _ _ _ _ _ _ _ hn hi

theorem withWorkflow_template {σ δ : Type} (env : Collaborators σ δ)
    (c : sdk.HookConstants) (db : σ) (r : Request) (p : sdk.Project) (wfDB : sdk.Workflow)
    (pre : List Call) (hm : r.migrate = true) (t : Option sdk.WorkflowTemplateInstance)
    (hU : ∀ (tx : σ) (pi : sdk.ProjectIdentifiers) (w : sdk.Workflow),
      (env.Update tx pi { w with TemplateInstance := t }).map
          (fun x => (x.1, x.2.Name, x.2.ID)) =
        (env.Update tx pi w).map (fun x => (x.1, x.2.Name, x.2.ID))) :
    withWorkflow env c db r p { wfDB with TemplateInstance := t } pre =
      withWorkflow env c db r p wfDB pre := by
  have hid : rootApplicationID { wfDB with TemplateInstance := t } = rootApplicationID wfDB :=
    rfl
  unfold withWorkflow
  rw [hid]
  split
  · rfl
  · split
    · rfl
    · rfl
    · unfold withRootApplication
      simp only [hm, if_true]
      split
      · rfl
      · rw [migrateWorkflowAsCode_template env c db r.consumer p wfDB _ r.branch r.message t hU]

/-- C19 (a template-generated workflow cannot be updated; the check is for update mode
only): for a request that passes the earlier guards (non-empty branch and message; project,
workflow and root application loaded), with `migrate` false and a stored as-code workflow,
a non-nil `TemplateInstance` makes the handler return `ErrForbidden` "cannot update a workflow
that was generated by a template" after the three loads, without reading the body or creating
a push operation; when the stored workflow is not as-code either, the not-as-code error is the
one returned.  With `migrate` true the outcome is the same for every request body, and the
same had the stored workflow carried any other template instance, provided `workflow.Update`
treats workflows that differ in the template instance alike. -/
theorem template_check_update_only {σ δ : Type} (env : Collaborators σ δ)
    (c : sdk.HookConstants) (db : σ) (r : Request) (p : sdk.Project) (wfDB : sdk.Workflow)
    (id : Int) (rootApp : sdk.Application)
    (hb : r.branch ≠ "") (hmsg : r.message ≠ "")
    (hp : env.projectLoad db r.key = .ok p)
    (hw : env.workflowLoad db { ID := p.ID, Key := p.Key } r.workflowName (loadOptions r) =
      .ok wfDB)
    (hid : rootApplicationID wfDB = some id)
    (ha : env.LoadByIDWithClearVCSStrategyPassword db id = .ok (some rootApp)) :
    (r.migrate = false → wfDB.FromRepository ≠ "" → wfDB.TemplateInstance ≠ none →
      (postWorkflowAsCodeHandler env c db r).result =
        .error (sdk.NewErrorFrom .ErrForbidden
          "cannot update a workflow that was generated by a template") ∧
      (postWorkflowAsCodeHandler env c db r).db = db ∧
      (postWorkflowAsCodeHandler env c db r).trace =
        [.projectLoad r.key true, .workflowLoad r.workflowName (loadOptions r) true,
          .LoadByIDWithClearVCSStrategyPassword id true] ∧
      (∀ ok, Call.UnmarshalBody ok ∉ (postWorkflowAsCodeHandler env c db r).trace) ∧
      createdOperations (postWorkflowAsCodeHandler env c db r).trace = []) ∧
    (r.migrate = false → wfDB.FromRepository = "" → wfDB.TemplateInstance ≠ none →
      (postWorkflowAsCodeHandler env c db r).result =
        .error (sdk.NewErrorFrom .ErrForbidden
          "cannot update a workflow that is not ascode")) ∧
    (r.migrate = true → ∀ body : String,
      postWorkflowAsCodeHandler env c db { r with body := body } =
        postWorkflowAsCodeHandler env c db r) ∧
    (r.migrate = true → ∀ t : Option sdk.WorkflowTemplateInstance,
      (∀ (tx : σ) (pi : sdk.ProjectIdentifiers) (w : sdk.Workflow),
        (env.Update tx pi { w with TemplateInstance := t }).map
            (fun x => (x.1, x.2.Name, x.2.ID)) =
          (env.Update tx pi w).map (fun x => (x.1, x.2.Name, x.2.ID))) →
      postWorkflowAsCodeHandler (loadingTemplate env t) c db r =
        postWorkflowAsCodeHandler env c db r) := by
  refine ⟨?_, ?_, ?_, ?_⟩
  · intro hm hfrom htpl
    have hsome : wfDB.TemplateInstance.isSome = true := by
      cases hq : wfDB.TemplateInstance with
      | none => exact absurd hq htpl
      | some _ => rfl
    have hout : postWorkflowAsCodeHandler env c db r =
        ⟨.error (sdk.NewErrorFrom .ErrForbidden
          "cannot update a workflow that was generated by a template"),
          db, [.projectLoad r.key true, .workflowLoad r.workflowName (loadOptions r) true,
            .LoadByIDWithClearVCSStrategyPassword id true]⟩ := by
      simp [postWorkflowAsCodeHandler, hb, hmsg, hp, hw, withWorkflow, hid, ha,
        withRootApplication, hm, hfrom, hsome]
    rw [hout]
    simp [createdOperations]
  · intro hm hfrom _
    simp [postWorkflowAsCodeHandler, hb, hmsg, hp, hw, withWorkflow, hid, ha,
      withRootApplication, hm, hfrom]
  · intro hm body
    have hm₂ : ({ r with body := body } : Request).migrate = true := hm
    simp only [postWorkflowAsCodeHandler, withWorkflow, withRootApplication, hm, hm₂, if_true,
      loadOptions]
  · intro hm t hU
    have hstep : withWorkflow (loadingTemplate env t) c db r p
          { wfDB with TemplateInstance := t }
          [.projectLoad r.key true, .workflowLoad r.workflowName (loadOptions r) true] =
        withWorkflow env c db r p wfDB
          [.projectLoad r.key true, .workflowLoad r.workflowName (loadOptions r) true] :=
      withWorkflow_template env c db r p wfDB _ hm t hU
    have hb₂ : (r.branch == "" || r.message == "") = false := by simp [hb, hmsg]
    have hp₂ : (loadingTemplate env t).projectLoad db r.key = .ok p := hp
    have hw₂ : (loadingTemplate env t).workflowLoad db { ID := p.ID, Key := p.Key }
        r.workflowName (loadOptions r) = .ok { wfDB with TemplateInstance := t } := by
      show (env.workflowLoad db { ID := p.ID, Key := p.Key } r.workflowName
        (loadOptions r)).map _ = _
      rw [hw]
      rfl
    simp only [postWorkflowAsCodeHandler, hb₂, hp, hw, hp₂, hw₂]
    exact hstep

/-- Witness for C19: the update of a template-generated as-code workflow is refused with the
template error after the three loads; when it is not as-code either, with the not-as-code
error; and a migration gives the same outcome whatever the body. -/
theorem template_check_update_only_witness :
    (postWorkflowAsCodeHandler (demoEnv (demoWorkflow "git" [] (some { ID := 9 }) 7) true)
        demoConstants [] (demoRequest false "b" "m")).result =
      .error (sdk.NewErrorFrom .ErrForbidden
        "cannot update a workflow that was generated by a template") ∧
    (postWorkflowAsCodeHandler (demoEnv (demoWorkflow "" [] (some { ID := 9 }) 7) true)
        demoConstants [] (demoRequest false "b" "m")).result =
      .error (sdk.NewErrorFrom .ErrForbidden "cannot update a workflow that is not ascode") ∧
    postWorkflowAsCodeHandler (demoEnv (demoWorkflow "" [] (some { ID := 9 }) 7) true)
        demoConstants [] { demoRequest true "b" "m" with body := "other" } =
      postWorkflowAsCodeHandler (demoEnv (demoWorkflow "" [] (some { ID := 9 }) 7) true)
        demoConstants [] (demoRequest true "b" "m") ∧
    postWorkflowAsCodeHandler
        (loadingTemplate (demoEnv (demoWorkflow "" [] (some { ID := 9 }) 7) true) none)
        demoConstants [] (demoRequest true "b" "m") =
      postWorkflowAsCodeHandler (demoEnv (demoWorkflow "" [] (some { ID := 9 }) 7) true)
        demoConstants [] (demoRequest true "b" "m") :=
  have h₁ := template_check_update_only
    (demoEnv (demoWorkflow "git" [] (some { ID := 9 }) 7) true) demoConstants []
    (demoRequest false "b" "m") { ID := 1, Key := "KEY" }
    (demoWorkflow "git" [] (some { ID := 9 }) 7) 7
    { VCSServer := "github", RepositoryFullname := "ovh/cds", RepositoryStrategy := "ssh" }
    (by decide) (by decide) rfl rfl rfl rfl
  have h₂ := template_check_update_only
    (demoEnv (demoWorkflow "" [] (some { ID := 9 }) 7) true) demoConstants []
    (demoRequest false "b" "m") { ID := 1, Key := "KEY" }
    (demoWorkflow "" [] (some { ID := 9 }) 7) 7
    { VCSServer := "github", RepositoryFullname := "ovh/cds", RepositoryStrategy := "ssh" }
    (by decide) (by decide) rfl rfl rfl rfl
  have h₃ := template_check_update_only
    (demoEnv (demoWorkflow "" [] (some { ID := 9 }) 7) true) demoConstants []
    (demoRequest true "b" "m") { ID := 1, Key := "KEY" }
    (demoWorkflow "" [] (some { ID := 9 }) 7) 7
    { VCSServer := "github", RepositoryFullname := "ovh/cds", RepositoryStrategy := "ssh" }
    (by decide) (by decide) rfl rfl rfl rfl
  ⟨(h₁.1 rfl (by decide) (by decide)).1, h₂.2.1 rfl rfl (by decide), h₃.2.2.1 rfl "other",
    h₃.2.2.2 rfl none (fun _ _ _ => rfl)⟩

theorem allHooks_appendHook (n : sdk.Node) (h : sdk.NodeHook) :
    (n.appendHook h).allHooks =
      n.Hooks ++ [h] ++ n.allHooks.drop n.Hooks.length := by
  cases n with
  | mk name ctx hooks triggers =>
    simp [sdk.Node.appendHook, sdk.Node.allHooks, sdk.Node.Hooks]

theorem allHooks_eq (n : sdk.Node) :
    n.allHooks = n.Hooks ++ n.allHooks.drop n.Hooks.length := by
  cases n with
  | mk name ctx hooks triggers =>
    simp [sdk.Node.allHooks, sdk.Node.Hooks]

theorem Hooks_appendHook (n : sdk.Node) (h : sdk.NodeHook) :
    (n.appendHook h).Hooks = n.Hooks ++ [h] := by
  cases n with
  | mk name ctx hooks triggers => rfl

theorem updateCalls_migrateAfterHook {σ δ : Type} (env : Collaborators σ δ)
    (tx : Transaction σ) (u : String) (p : sdk.Project) (projIdent : sdk.ProjectIdentifiers) (wf : sdk.Workflow)
    (app : sdk.Application) (branch message : String) (pre : List Call) :
    updateCalls (migrateAfterHook env tx u p projIdent wf app branch message pre).trace =
      updateCalls pre := by
  unfold migrateAfterHook
  split
  · simp [updateCalls, List.countP_append, List.countP_cons]
  · split
    · simp [updateCalls, List.countP_append, List.countP_cons]
    · split
      · simp [updateCalls, List.countP_append, List.countP_cons]
      · split
        · simp [updateCalls, List.countP_append, List.countP_cons]
        · simp [updateCalls, List.countP_append, List.countP_cons]

theorem found_iff_count (c : sdk.HookConstants) (wf : sdk.Workflow) :
    foundRepositoryWebHook c wf = true ↔
      1 ≤ wf.WorkflowData.GetHooks.countP (isRepositoryWebHook c) := by
  unfold foundRepositoryWebHook
  rw [List.any_eq_true, Nat.succ_le_iff, List.countP_pos_iff]

/-- C15 (the repository web hook is ensured exactly once by `migrateWorkflowAsCode`): with
`k` the number of hooks of the workflow that have the repository web hook model name: when
`k` is at least 1 the hook step leaves the workflow as it is, `workflow.Update` is not called,
and past the guard and `Begin` the function goes on to `workflow.Pull` with the workflow as it
is; when `k` is 0 exactly one hook, with the name of the repository web hook model and a
clone of its default configuration, is appended at the end of the hooks of the root node,
nothing else of the workflow changes, and past the guard and `Begin` the function calls
`workflow.Update` once, on the workflow the hook step gives: it returns the error of that
call, with nothing persisted, or goes on to `workflow.Pull` with the state and the workflow
the call left.  Every hook present before is still there, in order; and when the model is
named by the model name, the number of such hooks after the step is `max 1 k` and the step
applied to its own output changes nothing. -/
theorem repository_webhook_ensured_once {σ δ : Type} (env : Collaborators σ δ)
    (c : sdk.HookConstants) (db : σ) (u : String) (p : sdk.Project) (wf : sdk.Workflow)
    (app : sdk.Application) (branch message : String) :
    (1 ≤ wf.WorkflowData.GetHooks.countP (isRepositoryWebHook c) →
      hookStep c wf = wf ∧
      updateCalls (migrateWorkflowAsCode env c db u p wf app branch message).trace = 0 ∧
      (alreadyAsCode wf = false → env.Begin db = .ok () →
        migrateWorkflowAsCode env c db u p wf app branch message =
          migrateAfterHook env (Transaction.Begin db) u p { ID := p.ID, Key := p.Key }
            (hookStep c wf) app branch message [.Begin true])) ∧
    (wf.WorkflowData.GetHooks.countP (isRepositoryWebHook c) = 0 →
      (hookStep c wf).WorkflowData.Node.Hooks =
        wf.WorkflowData.Node.Hooks ++
          [{ Config := c.RepositoryWebHookModel.DefaultConfig.Clone,
             HookModelName := c.RepositoryWebHookModel.Name }] ∧
      (hookStep c wf).WorkflowData.Joins = wf.WorkflowData.Joins ∧
      (hookStep c wf).ID = wf.ID ∧ (hookStep c wf).Name = wf.Name ∧
      (hookStep c wf).FromRepository = wf.FromRepository ∧
      (hookStep c wf).AsCodeEvent = wf.AsCodeEvent ∧
      (hookStep c wf).TemplateInstance = wf.TemplateInstance ∧
      (hookStep c wf).WorkflowData.GetHooks.length = wf.WorkflowData.GetHooks.length + 1 ∧
      (alreadyAsCode wf = false → env.Begin db = .ok () →
        updateCalls (migrateWorkflowAsCode env c db u p wf app branch message).trace = 1 ∧
        (∀ err, env.Update db { ID := p.ID, Key := p.Key } (hookStep c wf) = .error err →
          migrateWorkflowAsCode env c db u p wf app branch message =
            ⟨.error err, db, [.Begin true, .Update false, .Rollback]⟩) ∧
        (∀ s wf₁, env.Update db { ID := p.ID, Key := p.Key } (hookStep c wf) = .ok (s, wf₁) →
          migrateWorkflowAsCode env c db u p wf app branch message =
            migrateAfterHook env ((Transaction.Begin db).Exec s) u p
              { ID := p.ID, Key := p.Key } wf₁ app branch message
              [.Begin true, .Update true]))) ∧
    List.Sublist wf.WorkflowData.GetHooks (hookStep c wf).WorkflowData.GetHooks ∧
    (c.RepositoryWebHookModel.Name = c.RepositoryWebHookModelName →
      (hookStep c wf).WorkflowData.GetHooks.countP (isRepositoryWebHook c) =
        max 1 (wf.WorkflowData.GetHooks.countP (isRepositoryWebHook c)) ∧
      hookStep c (hookStep c wf) = hookStep c wf) := by
  have hget : (appendRepositoryWebHook c wf).WorkflowData.GetHooks =
      wf.WorkflowData.Node.Hooks ++ [repositoryWebHook c] ++
        (wf.WorkflowData.Node.allHooks.drop wf.WorkflowData.Node.Hooks.length ++
          sdk.allHooksOf wf.WorkflowData.Joins) := by
    simp only [appendRepositoryWebHook, sdk.WorkflowData.GetHooks, allHooks_appendHook,
      List.append_assoc]
  have hget₀ : wf.WorkflowData.GetHooks =
      wf.WorkflowData.Node.Hooks ++
        (wf.WorkflowData.Node.allHooks.drop wf.WorkflowData.Node.Hooks.length ++
          sdk.allHooksOf wf.WorkflowData.Joins) := by
    simp only [sdk.WorkflowData.GetHooks]
    rw [← List.append_assoc, ← allHooks_eq]
  refine ⟨?_, ?_, ?_, ?_⟩
  · intro hk
    have hfound := (found_iff_count c wf).2 hk
    have hstep : hookStep c wf = wf := by simp [hookStep, hfound]
    refine ⟨hstep, ?_, ?_⟩
    · unfold migrateWorkflowAsCode
      simp only [hfound, if_true]
      split
      · rfl
      · split
        · rfl
        · rw [updateCalls_migrateAfterHook]
          rfl
    · intro hg hbegin
      rw [hstep]
      unfold migrateWorkflowAsCode
      simp only [hg, hfound, hbegin, Bool.false_eq_true, if_false, if_true]
  · intro hk
    have hnot : foundRepositoryWebHook c wf = false := by
      cases hq : foundRepositoryWebHook c wf with
      | false => rfl
      | true =>
        have := (found_iff_count c wf).1 hq
        omega
    have hstep : hookStep c wf = appendRepositoryWebHook c wf := by simp [hookStep, hnot]
    rw [hstep]
    refine ⟨Hooks_appendHook _ _, rfl, rfl, rfl, rfl, rfl, rfl, ?_, ?_⟩
    · rw [hget, hget₀]
      simp only [List.length_append, List.length_singleton]
      omega
    · intro hg hbegin
      have hU : ∀ x, env.Update db { ID := p.ID, Key := p.Key }
          (appendRepositoryWebHook c wf) = x →
          env.Update (Transaction.Begin db).working { ID := p.ID, Key := p.Key }
            (appendRepositoryWebHook c wf) = x := fun _ hx => hx
      refine ⟨?_, ?_, ?_⟩
      · unfold migrateWorkflowAsCode
        simp only [hg, hnot, hbegin, Bool.false_eq_true, if_false]
        split
        · rfl
        · rw [updateCalls_migrateAfterHook]
          rfl
      · intro err herr
        unfold migrateWorkflowAsCode
        simp only [hg, hnot, hbegin, Bool.false_eq_true, if_false, hU _ herr]
        rfl
      · intro s wf₁ hok
        unfold migrateWorkflowAsCode
        simp only [hg, hnot, hbegin, Bool.false_eq_true, if_false, hU _ hok]
  · unfold hookStep
    split
    · exact List.Sublist.refl _
    · rw [hget, hget₀]
      exact List.Sublist.append (List.sublist_append_left _ _) (List.Sublist.refl _)
  · intro hname
    have hrepo : isRepositoryWebHook c (repositoryWebHook c) = true := by
      simp [isRepositoryWebHook, repositoryWebHook, hname]
    have hfoundAppend : foundRepositoryWebHook c (appendRepositoryWebHook c wf) = true := by
      unfold foundRepositoryWebHook
      rw [hget, List.any_eq_true]
      exact ⟨repositoryWebHook c, by simp, hrepo⟩
    cases hq : foundRepositoryWebHook c wf with
    | true =>
      have hk := (found_iff_count c wf).1 hq
      simp only [hookStep, hq, if_true]
      exact ⟨by omega, trivial⟩
    | false =>
      have hk : wf.WorkflowData.GetHooks.countP (isRepositoryWebHook c) = 0 := by
        by_contra hne
        have := (found_iff_count c wf).2 (by omega)
        rw [hq] at this
        cases this
      have hstep : hookStep c wf = appendRepositoryWebHook c wf := by simp [hookStep, hq]
      rw [hstep]
      refine ⟨?_, by simp [hookStep, hfoundAppend]⟩
      rw [hk, hget]
      rw [hget₀] at hk
      simp only [List.countP_append, List.countP_cons, List.countP_nil, hrepo] at hk ⊢
      simp only [if_true]
      omega

/-- Witness for C15: the demo workflow has one scheduler hook and no repository web hook; the
step appends one to the root node, after which there is exactly one, and a second step adds
nothing; the migration calls `workflow.Update` once, and the row that call writes, persisted
by the commit, lists both hooks: the call was given the workflow with the hook appended. -/
theorem repository_webhook_ensured_once_witness :
    (demoWorkflow "" [] none 7).WorkflowData.GetHooks.countP
        (isRepositoryWebHook demoConstants) = 0 ∧
    (hookStep demoConstants (demoWorkflow "" [] none 7)).WorkflowData.Node.Hooks =
      [{ Config := [], HookModelName := "Scheduler" },
       { Config := [("method", "POST")], HookModelName := "RepositoryWebHook" }] ∧
    (hookStep demoConstants (demoWorkflow "" [] none 7)).WorkflowData.GetHooks.countP
        (isRepositoryWebHook demoConstants) = 1 ∧
    hookStep demoConstants (hookStep demoConstants (demoWorkflow "" [] none 7)) =
      hookStep demoConstants (demoWorkflow "" [] none 7) ∧
    updateCalls (migrateWorkflowAsCode (demoEnv (demoWorkflow "" [] none 7) true)
        demoConstants [] "admin" { ID := 1, Key := "KEY" } (demoWorkflow "" [] none 7)
        { VCSServer := "github", RepositoryFullname := "ovh/cds", RepositoryStrategy := "ssh" }
        "b" "m").trace = 1 ∧
    (migrateWorkflowAsCode (demoEnv (demoWorkflow "" [] none 7) true)
        demoConstants [] "admin" { ID := 1, Key := "KEY" } (demoWorkflow "" [] none 7)
        { VCSServer := "github", RepositoryFullname := "ovh/cds", RepositoryStrategy := "ssh" }
        "b" "m").db =
      ["workflow test_1 hooks Scheduler,RepositoryWebHook",
        "operation KEY pulled test_1 github ovh/cds b m ssh admin"] := by
  have h := repository_webhook_ensured_once (demoEnv (demoWorkflow "" [] none 7) true)
    demoConstants [] "admin" { ID := 1, Key := "KEY" } (demoWorkflow "" [] none 7)
    { VCSServer := "github", RepositoryFullname := "ovh/cds", RepositoryStrategy := "ssh" }
    "b" "m"
  have hk : (demoWorkflow "" [] none 7).WorkflowData.GetHooks.countP
      (isRepositoryWebHook demoConstants) = 0 := by decide
  obtain ⟨hhooks, -, -, -, -, -, -, -, hmig⟩ := h.2.1 hk
  obtain ⟨hupd, -, hnext⟩ := hmig rfl rfl
  obtain ⟨hcount, hidem⟩ := h.2.2.2 rfl
  refine ⟨hk, hhooks, ?_, hidem, hupd, ?_⟩
  · rw [hcount, hk]
    rfl
  · rw [hnext _ _ rfl]
    decide

end api

end Cds
